import Mathlib

/-! RAJA iteration primitives and CUDA teams dispatch.

A shallow embedding of `include/RAJA/Iterators.hxx`, of the per-coordinate
dispatch and launch functions of `include/RAJA/policy/cuda/teams.hpp`, and of the
bitwise-AND reduction test of `test/functional/forall/reduce-bitwise`.

Conventions.

* `Index_type` values are mathematical integers (`Int`).  The `int` counters of
  the dispatch are embedded twice: as unbounded integers in the definitions named
  `exec`, and as 32-bit values in the definitions named `exec32`, where a sum or
  product formed with an unsigned built-in is reduced modulo `2 ^ 32` to
  `[-2 ^ 31, 2 ^ 31)` when it is stored in an `int` (`wrap32`).  C++ `/` and `%`
  on signed integers truncate toward zero, hence `Int.tdiv` and `Int.tmod`.
* A dispatch function calls a user body; its embedding returns the list of
  argument tuples the body is called with, in call order.
* A `for` loop is embedded with a fuel argument.  In the `exec` definitions
  `none` means the fuel was used up before the loop condition became false; the
  `exec32` definitions return the calls made within the fuel together with a flag
  telling whether the loop ended.
* The CUDA built-ins read through `internal::get_cuda_dim<DIM>(...)` are
  unsigned; the value read is a parameter of type `Nat` of each dispatch.
-/

namespace RAJA

namespace Iterators

/-- The class `base_iterator`: one value `val`. -/
structure base_iterator where
  val : Int
  deriving DecidableEq, Repr

/-- The class `numeric_iterator`: a `base_iterator` with unit step. -/
structure numeric_iterator where
  val : Int
  deriving DecidableEq, Repr

/-- The class `strided_numeric_iterator`: value and stride. -/
structure strided_numeric_iterator where
  val : Int
  stride : Int
  deriving DecidableEq, Repr

namespace numeric_iterator

/-- The `operator-(const numeric_iterator&)`: signed difference of the values. -/
def sub (a rhs : numeric_iterator) : Int := a.val - rhs.val

/-- The `operator+(const difference_type&)`. -/
def addOffset (a : numeric_iterator) (rhs : Int) : numeric_iterator := ⟨a.val + rhs⟩

/-- The `operator*`. -/
def deref (a : numeric_iterator) : Int := a.val

end numeric_iterator

namespace strided_numeric_iterator

/-- The `operator++`: `val += stride`. -/
def inc (a : strided_numeric_iterator) : strided_numeric_iterator :=
  { a with val := a.val + a.stride }

/-- The `operator-(const strided_numeric_iterator&)`:
`diff = val - rhs.val; if (diff < stride) return 0;
 if (diff % stride) return diff/stride + 1; return diff/stride;`. -/
def sub (a rhs : strided_numeric_iterator) : Int :=
  let diff := a.val - rhs.val
  if diff < a.stride then 0
  else if Int.tmod diff a.stride ≠ 0 then Int.tdiv diff a.stride + 1
  else Int.tdiv diff a.stride

/-- The `operator!=`:
`if (val == rhs.val) return false; rem = rhs.val % stride; return val != rhs.val + rem;`. -/
def ne (a rhs : strided_numeric_iterator) : Bool :=
  if a.val = rhs.val then false
  else
    let rem := Int.tmod rhs.val a.stride
    decide (a.val ≠ rhs.val + rem)

/-- The idiom `for (it = begin; it != end; ++it)`: the number of increments made
before `it != end` turns false, or `none` when `fuel` increments did not get there. -/
def iterateUntil : Nat → strided_numeric_iterator → strided_numeric_iterator → Option Nat
  | 0, it, e => if ne it e then none else some 0
  | fuel + 1, it, e =>
    if ne it e then (iterateUntil fuel (inc it) e).map (· + 1) else some 0

end strided_numeric_iterator

namespace base_iterator

/-- The `operator==`: `val == rhs.val`. -/
def eq (a rhs : base_iterator) : Bool := decide (a.val = rhs.val)

/-- The `operator!=`: `val != rhs.val`. -/
def ne (a rhs : base_iterator) : Bool := decide (a.val ≠ rhs.val)

/-- The `operator>`: `val > rhs.val`. -/
def gt (a rhs : base_iterator) : Bool := decide (a.val > rhs.val)

/-- The `operator<`: `val < rhs.val`. -/
def lt (a rhs : base_iterator) : Bool := decide (a.val < rhs.val)

/-- The `operator>=`: `val >= rhs.val`. -/
def ge (a rhs : base_iterator) : Bool := decide (a.val ≥ rhs.val)

/-- The `operator<=`: `val <= rhs.val`. -/
def le (a rhs : base_iterator) : Bool := decide (a.val ≤ rhs.val)

end base_iterator

namespace numeric_iterator

/-- The base-class part of a `numeric_iterator` (it derives from `base_iterator` and
inherits its six comparison operators). -/
def toBase (a : numeric_iterator) : base_iterator := ⟨a.val⟩

/-- The `operator-(const difference_type&)`. -/
def subOffset (a : numeric_iterator) (rhs : Int) : numeric_iterator := ⟨a.val - rhs⟩

/-- The `operator[]`: `val + rhs`. -/
def index (a : numeric_iterator) (rhs : Int) : Int := a.val + rhs

end numeric_iterator

namespace strided_numeric_iterator

/-- The base-class part of a `strided_numeric_iterator`; `operator==` is the inherited
`base_iterator::operator==`, the class overrides `operator!=` only. -/
def toBase (a : strided_numeric_iterator) : base_iterator := ⟨a.val⟩

/-- The default constructor: `base(0), stride(1)`. -/
def default_ctor : strided_numeric_iterator := ⟨0, 1⟩

/-- The constructor `strided_numeric_iterator(const Type& rhs, DifferenceType stride = 1)`
called with both arguments: `base(rhs), stride(stride)`. -/
def ctor (rhs : Int) (stride : Int) : strided_numeric_iterator := ⟨rhs, stride⟩

/-- The same constructor called with one argument: `stride` takes its default value 1. -/
def ctor_one (rhs : Int) : strided_numeric_iterator := ctor rhs 1

/-- The copy constructor: `base(rhs.val), stride(rhs.stride)`. -/
def copy_ctor (rhs : strided_numeric_iterator) : strided_numeric_iterator :=
  ⟨rhs.val, rhs.stride⟩

/-- The `operator--`: `val -= stride`. -/
def dec (a : strided_numeric_iterator) : strided_numeric_iterator :=
  { a with val := a.val - a.stride }

/-- The `operator+=(const difference_type&)`: `val += rhs * stride`. -/
def addAssign (a : strided_numeric_iterator) (rhs : Int) : strided_numeric_iterator :=
  { a with val := a.val + rhs * a.stride }

/-- The `operator-=(const difference_type&)`: `val -= rhs * stride`. -/
def subAssign (a : strided_numeric_iterator) (rhs : Int) : strided_numeric_iterator :=
  { a with val := a.val - rhs * a.stride }

/-- The `operator+(const difference_type&)`: `strided_numeric_iterator(val + rhs * stride)`,
built by the one-argument form of the constructor. -/
def addOffset (a : strided_numeric_iterator) (rhs : Int) : strided_numeric_iterator :=
  ctor_one (a.val + rhs * a.stride)

/-- The `operator-(const difference_type&)`: `strided_numeric_iterator(val - rhs * stride)`,
built by the one-argument form of the constructor. -/
def subOffset (a : strided_numeric_iterator) (rhs : Int) : strided_numeric_iterator :=
  ctor_one (a.val - rhs * a.stride)

/-- The `operator*`. -/
def deref (a : strided_numeric_iterator) : Int := a.val

/-- The `operator[]`: `val + rhs * stride`. -/
def index (a : strided_numeric_iterator) (rhs : Int) : Int := a.val + rhs * a.stride

/-- The values reachable from the constructors through copy, `++`, `--`, `+=`, `-=`, `+ k`
and `- k`, when the stride argument given to the two-argument constructor satisfies
`strideArg`. -/
inductive Reachable (strideArg : Int → Prop) : strided_numeric_iterator → Prop where
  | default_ctor : Reachable strideArg default_ctor
  | ctor (rhs stride : Int) : strideArg stride → Reachable strideArg (ctor rhs stride)
  | ctor_one (rhs : Int) : Reachable strideArg (ctor_one rhs)
  | copy_ctor (a : strided_numeric_iterator) :
      Reachable strideArg a → Reachable strideArg (copy_ctor a)
  | inc (a : strided_numeric_iterator) : Reachable strideArg a → Reachable strideArg (inc a)
  | dec (a : strided_numeric_iterator) : Reachable strideArg a → Reachable strideArg (dec a)
  | addAssign (a : strided_numeric_iterator) (k : Int) :
      Reachable strideArg a → Reachable strideArg (addAssign a k)
  | subAssign (a : strided_numeric_iterator) (k : Int) :
      Reachable strideArg a → Reachable strideArg (subAssign a k)
  | addOffset (a : strided_numeric_iterator) (k : Int) :
      Reachable strideArg a → Reachable strideArg (addOffset a k)
  | subOffset (a : strided_numeric_iterator) (k : Int) :
      Reachable strideArg a → Reachable strideArg (subOffset a k)

end strided_numeric_iterator

/-- The class `Enumerater<Iterator>`: a `numeric_iterator<>` (field `val`) with an `offset`
and a `wrapped` iterator.  The type `W` of the wrapped iterator is a parameter. -/
structure Enumerater (W : Type) where
  val : Int
  offset : Int
  wrapped : W

namespace Enumerater

/-- The constructor `Enumerater(const Iterator& rhs, val, offset)`:
`base(val), offset(offset), wrapped(rhs)`. -/
def ctor {W : Type} (rhs : W) (val offset : Int) : Enumerater W := ⟨val, offset, rhs⟩

/-- The `operator*`: `pair(offset + val, wrapped + val)`; `plus` is `operator+` of the wrapped
iterator type with a `std::ptrdiff_t`. -/
def deref {W : Type} (plus : W → Int → W) (e : Enumerater W) : Int × W :=
  (e.offset + e.val, plus e.wrapped e.val)

/-- The `operator[]`: `pair(val + offset + rhs, wrapped + val + rhs)`. -/
def index {W : Type} (plus : W → Int → W) (e : Enumerater W) (rhs : Int) : Int × W :=
  (e.val + e.offset + rhs, plus (plus e.wrapped e.val) rhs)

/-- The inherited `numeric_iterator::operator++`: `++val`. -/
def inc {W : Type} (e : Enumerater W) : Enumerater W := { e with val := e.val + 1 }

end Enumerater

end Iterators

namespace expt

open Iterators

/-- Modelled from the spec: the `SEGMENT` template argument (its class is declared
outside these sources) is consumed only through `begin()`, `end()` and `slice`; here
it is a range of offsets delimited by two `numeric_iterator` cursors. -/
structure Segment where
  begin : numeric_iterator
  end_ : numeric_iterator
  deriving DecidableEq, Repr

/-- The expression `segment.end() - segment.begin()`, stored in `const int len`. -/
def Segment.len (segment : Segment) : Int :=
  numeric_iterator.sub segment.end_ segment.begin

/-- The expression `*(segment.begin() + tx)`. -/
def Segment.elem (segment : Segment) (tx : Int) : Int :=
  numeric_iterator.deref (numeric_iterator.addOffset segment.begin tx)

/-! Two readings of the `int` arithmetic of the dispatch are embedded.  The definitions named
`exec` (with `forLoop`, `forLoopM`) take the counter, the sum `threadIdx + blockDim * blockIdx`
and the products with `tile_size` as unbounded integers.  The definitions named `exec32` (with
`forLoop32`, `forLoopM32`) reduce them to 32-bit `int` values, as the source does; the two
agree as long as no value leaves `[-2 ^ 31, 2 ^ 31)`. -/

/-- The loop `for (int t = init; t < len; t += step) { body(t); }` with `t` as an unbounded
integer: the successive values of `t` at which the loop body runs, or `none` when `fuel` runs
out. -/
def forLoop : Nat → Int → Int → Int → Option (List Int)
  | 0, t, len, _ => if t < len then none else some []
  | fuel + 1, t, len, step =>
    if t < len then (forLoop fuel (t + step) len step).map (fun l => t :: l) else some []

namespace LoopExecute

/-- The `LoopExecute<cuda_global_thread<DIM>, SEGMENT>::exec`; `threadIdx`, `blockDim`
and `blockIdx` are the `DIM` members of the built-ins of the same name. -/
def cuda_global_thread.exec (threadIdx blockDim blockIdx : Nat) (segment : Segment) :
    List Int :=
  let len := segment.len
  let tx : Int := ((threadIdx + blockDim * blockIdx : Nat) : Int)
  if tx < len then [segment.elem tx] else []

/-- The `LoopExecute<cuda_global_thread<DIM0, DIM1>, SEGMENT>::exec`. -/
def cuda_global_thread2.exec (threadIdx0 blockDim0 blockIdx0 threadIdx1 blockDim1 blockIdx1 : Nat)
    (segment0 segment1 : Segment) : List (Int × Int) :=
  let len1 := segment1.len
  let len0 := segment0.len
  let tx : Int := ((threadIdx0 + blockDim0 * blockIdx0 : Nat) : Int)
  let ty : Int := ((threadIdx1 + blockDim1 * blockIdx1 : Nat) : Int)
  if tx < len0 ∧ ty < len1 then [(segment0.elem tx, segment1.elem ty)] else []

/-- The `LoopExecute<cuda_global_thread<DIM0, DIM1, DIM2>, SEGMENT>::exec`; the third
argument of the body call is `*(segment1.begin() + ty)`, as in the source. -/
def cuda_global_thread3.exec
    (threadIdx0 blockDim0 blockIdx0 threadIdx1 blockDim1 blockIdx1
      threadIdx2 blockDim2 blockIdx2 : Nat)
    (segment0 segment1 segment2 : Segment) : List (Int × Int × Int) :=
  let len2 := segment2.len
  let len1 := segment1.len
  let len0 := segment0.len
  let tx : Int := ((threadIdx0 + blockDim0 * blockIdx0 : Nat) : Int)
  let ty : Int := ((threadIdx1 + blockDim1 * blockIdx1 : Nat) : Int)
  let tz : Int := ((threadIdx2 + blockDim2 * blockIdx2 : Nat) : Int)
  if tx < len0 ∧ ty < len1 ∧ tz < len2 then
    [(segment0.elem tx, segment1.elem ty, segment1.elem ty)]
  else []

/-- The `LoopExecute<cuda_thread_xyz_loop<DIM>, SEGMENT>::exec`. -/
def cuda_thread_xyz_loop.exec (fuel : Nat) (threadIdx blockDim : Nat) (segment : Segment) :
    Option (List Int) :=
  let len := segment.len
  (forLoop fuel (threadIdx : Int) len (blockDim : Int)).map
    (fun l => l.map (fun tx => segment.elem tx))

/-- The `LoopExecute<cuda_thread_xyz_direct<DIM>, SEGMENT>::exec`. -/
def cuda_thread_xyz_direct.exec (threadIdx : Nat) (segment : Segment) : List Int :=
  let len := segment.len
  let tx : Int := (threadIdx : Int)
  if tx < len then [segment.elem tx] else []

/-- The `LoopExecute<cuda_block_xyz_loop<DIM>, SEGMENT>::exec`. -/
def cuda_block_xyz_loop.exec (fuel : Nat) (blockIdx gridDim : Nat) (segment : Segment) :
    Option (List Int) :=
  let len := segment.len
  (forLoop fuel (blockIdx : Int) len (gridDim : Int)).map
    (fun l => l.map (fun bx => segment.elem bx))

/-- The `LoopExecute<cuda_block_xyz_direct<DIM>, SEGMENT>::exec`. -/
def cuda_block_xyz_direct.exec (blockIdx : Nat) (segment : Segment) : List Int :=
  let len := segment.len
  let bx : Int := (blockIdx : Int)
  if bx < len then [segment.elem bx] else []

/-- The `LoopExecute<cuda_block_xyz_direct<DIM0, DIM1>, SEGMENT>::exec`. -/
def cuda_block_xyz_direct2.exec (blockIdx0 blockIdx1 : Nat) (segment0 segment1 : Segment) :
    List (Int × Int) :=
  let len1 := segment1.len
  let len0 := segment0.len
  let tx : Int := (blockIdx0 : Int)
  let ty : Int := (blockIdx1 : Int)
  if tx < len0 ∧ ty < len1 then [(segment0.elem tx, segment1.elem ty)] else []

/-- The `LoopExecute<cuda_block_xyz_direct<DIM0, DIM1, DIM2>, SEGMENT>::exec`. -/
def cuda_block_xyz_direct3.exec (blockIdx0 blockIdx1 blockIdx2 : Nat)
    (segment0 segment1 segment2 : Segment) : List (Int × Int × Int) :=
  let len2 := segment2.len
  let len1 := segment1.len
  let len0 := segment0.len
  let tx : Int := (blockIdx0 : Int)
  let ty : Int := (blockIdx1 : Int)
  let tz : Int := (blockIdx2 : Int)
  if tx < len0 ∧ ty < len1 ∧ tz < len2 then
    [(segment0.elem tx, segment1.elem ty, segment2.elem tz)]
  else []

end LoopExecute

namespace LoopICountExecute

/-- The `LoopICountExecute<cuda_block_xyz_direct<DIM0, DIM1, DIM2>, SEGMENT>::exec`: the
body receives the three elements followed by `tx, ty, tz`. -/
def cuda_block_xyz_direct3.exec (blockIdx0 blockIdx1 blockIdx2 : Nat)
    (segment0 segment1 segment2 : Segment) : List ((Int × Int × Int) × (Int × Int × Int)) :=
  let len2 := segment2.len
  let len1 := segment1.len
  let len0 := segment0.len
  let tx : Int := (blockIdx0 : Int)
  let ty : Int := (blockIdx1 : Int)
  let tz : Int := (blockIdx2 : Int)
  if tx < len0 ∧ ty < len1 ∧ tz < len2 then
    [((segment0.elem tx, segment1.elem ty, segment2.elem tz), (tx, ty, tz))]
  else []

end LoopICountExecute

/-- One run of a 1-D dispatch at every coordinate `0, 1, ..., n - 1` of an axis: the
body calls of all coordinates, listed coordinate by coordinate. -/
def runAxis {α : Type} (n : Nat) (exec : Nat → List α) : List α :=
  (List.range n).flatMap exec

/-- One run of a 2-D dispatch at every coordinate pair of `[0, n0) × [0, n1)`. -/
def runAxes2 {α : Type} (n0 n1 : Nat) (exec : Nat → Nat → List α) : List α :=
  (List.range n0).flatMap (fun i => (List.range n1).flatMap (fun j => exec i j))

/-- One run of a 3-D dispatch at every coordinate triple of `[0, n0) × [0, n1) × [0, n2)`. -/
def runAxes3 {α : Type} (n0 n1 n2 : Nat) (exec : Nat → Nat → Nat → List α) : List α :=
  (List.range n0).flatMap (fun i =>
    (List.range n1).flatMap (fun j => (List.range n2).flatMap (fun k => exec i j k)))

/-- The loop `for (int t = init; t < len; t += step) { ... }`, with `t` as an unbounded
integer, around a loop body that makes body calls itself: the calls of the successive
iterations, in order; `none` when `fuel` runs out here or in an iteration. -/
def forLoopM {α : Type} : Nat → Int → Int → Int → (Int → Option (List α)) → Option (List α)
  | 0, t, len, _, _ => if t < len then none else some []
  | fuel + 1, t, len, step, body =>
    if t < len then
      match body t with
      | none => none
      | some calls => (forLoopM fuel (t + step) len step body).map (fun r => calls ++ r)
    else some []

namespace LoopExecute

/-- The `LoopExecute<cuda_block_xyz_loop<DIM0, DIM1>, SEGMENT>::exec`. -/
def cuda_block_xyz_loop2.exec (fuel : Nat) (blockIdx0 gridDim0 blockIdx1 gridDim1 : Nat)
    (segment0 segment1 : Segment) : Option (List (Int × Int)) :=
  let len1 := segment1.len
  let len0 := segment0.len
  forLoopM fuel (blockIdx0 : Int) len0 (gridDim0 : Int) (fun bx =>
    forLoopM fuel (blockIdx1 : Int) len1 (gridDim1 : Int) (fun by_ =>
      some [(segment0.elem bx, segment1.elem by_)]))

/-- The `LoopExecute<cuda_block_xyz_loop<DIM0, DIM1, DIM2>, SEGMENT>::exec`. -/
def cuda_block_xyz_loop3.exec (fuel : Nat)
    (blockIdx0 gridDim0 blockIdx1 gridDim1 blockIdx2 gridDim2 : Nat)
    (segment0 segment1 segment2 : Segment) : Option (List (Int × Int × Int)) :=
  let len2 := segment2.len
  let len1 := segment1.len
  let len0 := segment0.len
  forLoopM fuel (blockIdx0 : Int) len0 (gridDim0 : Int) (fun bx =>
    forLoopM fuel (blockIdx1 : Int) len1 (gridDim1 : Int) (fun by_ =>
      forLoopM fuel (blockIdx2 : Int) len2 (gridDim2 : Int) (fun bz =>
        some [(segment0.elem bx, segment1.elem by_, segment2.elem bz)])))

end LoopExecute

namespace LoopICountExecute

/-- The `LoopICountExecute<cuda_block_xyz_loop<DIM>, SEGMENT>::exec`: the body receives the
element and `bx`. -/
def cuda_block_xyz_loop.exec (fuel : Nat) (blockIdx gridDim : Nat) (segment : Segment) :
    Option (List (Int × Int)) :=
  let len := segment.len
  (forLoop fuel (blockIdx : Int) len (gridDim : Int)).map
    (fun l => l.map (fun bx => (segment.elem bx, bx)))

/-- The `LoopICountExecute<cuda_block_xyz_loop<DIM0, DIM1>, SEGMENT>::exec`: the body
receives the two elements followed by `bx, by`. -/
def cuda_block_xyz_loop2.exec (fuel : Nat) (blockIdx0 gridDim0 blockIdx1 gridDim1 : Nat)
    (segment0 segment1 : Segment) : Option (List ((Int × Int) × (Int × Int))) :=
  let len1 := segment1.len
  let len0 := segment0.len
  forLoopM fuel (blockIdx0 : Int) len0 (gridDim0 : Int) (fun bx =>
    forLoopM fuel (blockIdx1 : Int) len1 (gridDim1 : Int) (fun by_ =>
      some [((segment0.elem bx, segment1.elem by_), (bx, by_))]))

end LoopICountExecute

/-- Modelled from the spec: `slice(offset, size)` of the `SEGMENT` class (declared outside
these sources) is the sub-range view that starts `offset` elements after `begin()` and holds
`size` elements, cut at the parent's `end()` when `offset + size` exceeds the extent. -/
def Segment.slice (segment : Segment) (offset size : Int) : Segment :=
  let start := segment.begin.val + offset
  { begin := ⟨start⟩, end_ := ⟨min (start + size) segment.end_.val⟩ }

/-! Tile dispatch.  A body call `body(segment.slice(tx, tile_size))` is recorded as the pair
`(tx, tile_size)` of arguments given to `slice`; the ICount variants record that pair together
with the extra argument `tx / tile_size`. -/

namespace TileExecute

/-- The `TileExecute<cuda_thread_xyz_loop<DIM>, SEGMENT>::exec`. -/
def cuda_thread_xyz_loop.exec (fuel : Nat) (threadIdx blockDim : Nat) (tile_size : Int)
    (segment : Segment) : Option (List (Int × Int)) :=
  let len := segment.len
  (forLoop fuel ((threadIdx : Int) * tile_size) len ((blockDim : Int) * tile_size)).map
    (fun l => l.map (fun tx => (tx, tile_size)))

/-- The `TileExecute<cuda_thread_xyz_direct<DIM>, SEGMENT>::exec`. -/
def cuda_thread_xyz_direct.exec (threadIdx : Nat) (tile_size : Int) (segment : Segment) :
    List (Int × Int) :=
  let len := segment.len
  let tx : Int := (threadIdx : Int) * tile_size
  if tx < len then [(tx, tile_size)] else []

/-- The `TileExecute<cuda_block_xyz_loop<DIM>, SEGMENT>::exec`. -/
def cuda_block_xyz_loop.exec (fuel : Nat) (blockIdx gridDim : Nat) (tile_size : Int)
    (segment : Segment) : Option (List (Int × Int)) :=
  let len := segment.len
  (forLoop fuel ((blockIdx : Int) * tile_size) len ((gridDim : Int) * tile_size)).map
    (fun l => l.map (fun tx => (tx, tile_size)))

/-- The `TileExecute<cuda_block_xyz_direct<DIM>, SEGMENT>::exec`. -/
def cuda_block_xyz_direct.exec (blockIdx : Nat) (tile_size : Int) (segment : Segment) :
    List (Int × Int) :=
  let len := segment.len
  let tx : Int := (blockIdx : Int) * tile_size
  if tx < len then [(tx, tile_size)] else []

end TileExecute

namespace TileICountExecute

/-- The `TileICountExecute<cuda_thread_xyz_loop<DIM>, SEGMENT>::exec`. -/
def cuda_thread_xyz_loop.exec (fuel : Nat) (threadIdx blockDim : Nat) (tile_size : Int)
    (segment : Segment) : Option (List ((Int × Int) × Int)) :=
  let len := segment.len
  (forLoop fuel ((threadIdx : Int) * tile_size) len ((blockDim : Int) * tile_size)).map
    (fun l => l.map (fun tx => ((tx, tile_size), Int.tdiv tx tile_size)))

/-- The `TileICountExecute<cuda_thread_xyz_direct<DIM>, SEGMENT>::exec`. -/
def cuda_thread_xyz_direct.exec (threadIdx : Nat) (tile_size : Int) (segment : Segment) :
    List ((Int × Int) × Int) :=
  let len := segment.len
  let tx : Int := (threadIdx : Int) * tile_size
  if tx < len then [((tx, tile_size), Int.tdiv tx tile_size)] else []

/-- The `TileICountExecute<cuda_block_xyz_loop<DIM>, SEGMENT>::exec`. -/
def cuda_block_xyz_loop.exec (fuel : Nat) (blockIdx gridDim : Nat) (tile_size : Int)
    (segment : Segment) : Option (List ((Int × Int) × Int)) :=
  let len := segment.len
  (forLoop fuel ((blockIdx : Int) * tile_size) len ((gridDim : Int) * tile_size)).map
    (fun l => l.map (fun bx => ((bx, tile_size), Int.tdiv bx tile_size)))

/-- The `TileICountExecute<cuda_block_xyz_direct<DIM>, SEGMENT>::exec`. -/
def cuda_block_xyz_direct.exec (blockIdx : Nat) (tile_size : Int) (segment : Segment) :
    List ((Int × Int) × Int) :=
  let len := segment.len
  let bx : Int := (blockIdx : Int) * tile_size
  if bx < len then [((bx, tile_size), Int.tdiv bx tile_size)] else []

end TileICountExecute

/-! Launch.  The CUDA runtime is an external collaborator: `exec` is embedded as the list
of requests it makes to the runtime, in order.  `RAJA_FT_BEGIN` / `RAJA_FT_END` and
`make_launch_body` make no launch or synchronize request and are left out. -/

/-- Modelled from the spec: the group counts `ctx.teams.value[0..2]` (the struct is declared
outside these sources), one signed count per axis. -/
structure Teams where
  value0 : Int
  value1 : Int
  value2 : Int
  deriving DecidableEq, Repr

/-- Modelled from the spec: the lanes-per-group counts `ctx.threads.value[0..2]` (the struct
is declared outside these sources), one signed count per axis. -/
structure Threads where
  value0 : Int
  value1 : Int
  value2 : Int
  deriving DecidableEq, Repr

/-- Modelled from the spec: the `LaunchContext` fields that `exec` reads. -/
structure LaunchContext where
  teams : Teams
  threads : Threads
  deriving DecidableEq, Repr

/-- The type `cuda_dim_t`: three members `x`, `y`, `z`, each held as its numeric value. -/
structure cuda_dim_t where
  x : Int
  y : Int
  z : Int
  deriving DecidableEq, Repr

/-- The kernel entry points `launch_global_fcn<BODY>` and
`launch_global_fcn_fixed<BODY, nthreads>`; each calls `body(ctx)` once. -/
inductive Kernel where
  | launch_global_fcn
  | launch_global_fcn_fixed (nthreads : Nat)
  deriving DecidableEq, Repr

/-- The requests made to the runtime: `RAJA::cuda::launch(func, gridSize, blockSize, args,
shmem, stream)` and `RAJA::cuda::synchronize(stream)`. -/
inductive RuntimeCall where
  | launch (func : Kernel) (gridSize blockSize : cuda_dim_t) (shmem : Nat) (stream : Nat)
  | synchronize (stream : Nat)
  deriving DecidableEq, Repr

/-- The conversion of a signed count to a 32-bit unsigned integer, the member type of CUDA
launch dimensions: the value modulo `2 ^ 32`. -/
def toUnsigned32 (v : Int) : Int := v % 4294967296

/-- Modelled from the spec: the runtime runs the kernel of a launch request once per
coordinate of the requested topology, and the kernel calls the body once; the number of body
invocations that a list of requests causes. -/
def bodyInvocations : List RuntimeCall → Int
  | [] => 0
  | RuntimeCall.launch _ g b _ _ :: rest =>
    g.x * g.y * g.z * (b.x * b.y * b.z) + bodyInvocations rest
  | RuntimeCall.synchronize _ :: rest => bodyInvocations rest

/-- The predicate that a request is a launch request. -/
def RuntimeCall.isLaunch : RuntimeCall → Bool
  | RuntimeCall.launch _ _ _ _ _ => true
  | RuntimeCall.synchronize _ => false

namespace LaunchExecute

/-- The `LaunchExecute<cuda_launch_t<async, 0>>::exec(LaunchContext const&, BODY_IN&&)`.
`static_cast_member` is `static_cast<cuda_dim_member_t>` (the member type is declared outside
these sources) and `stream` is the stream of `resources::Cuda::get_default()`. -/
def cuda_launch_t.exec (static_cast_member : Int → Int) (async : Bool) (stream : Nat)
    (ctx : LaunchContext) : List RuntimeCall :=
  let gridSize : cuda_dim_t :=
    ⟨static_cast_member ctx.teams.value0, static_cast_member ctx.teams.value1,
      static_cast_member ctx.teams.value2⟩
  let blockSize : cuda_dim_t :=
    ⟨static_cast_member ctx.threads.value0, static_cast_member ctx.threads.value1,
      static_cast_member ctx.threads.value2⟩
  let zero : Int := 0
  if gridSize.x > zero ∧ gridSize.y > zero ∧ gridSize.z > zero ∧
      blockSize.x > zero ∧ blockSize.y > zero ∧ blockSize.z > zero then
    let shmem : Nat := 0
    [RuntimeCall.launch Kernel.launch_global_fcn gridSize blockSize shmem stream] ++
      (if !async then [RuntimeCall.synchronize stream] else [])
  else []

/-- The `LaunchExecute<cuda_launch_t<async, 0>>::exec(TeamResources&, LaunchContext const&,
BODY_IN&&)`; `stream` is the stream of `res.cuda`. -/
def cuda_launch_t.exec_res (static_cast_member : Int → Int) (async : Bool) (stream : Nat)
    (ctx : LaunchContext) : List RuntimeCall :=
  let gridSize : cuda_dim_t :=
    ⟨static_cast_member ctx.teams.value0, static_cast_member ctx.teams.value1,
      static_cast_member ctx.teams.value2⟩
  let blockSize : cuda_dim_t :=
    ⟨static_cast_member ctx.threads.value0, static_cast_member ctx.threads.value1,
      static_cast_member ctx.threads.value2⟩
  let zero : Int := 0
  if gridSize.x > zero ∧ gridSize.y > zero ∧ gridSize.z > zero ∧
      blockSize.x > zero ∧ blockSize.y > zero ∧ blockSize.z > zero then
    let shmem : Nat := 0
    [RuntimeCall.launch Kernel.launch_global_fcn gridSize blockSize shmem stream] ++
      (if !async then [RuntimeCall.synchronize stream] else [])
  else []

/-- The `LaunchExecute<cuda_launch_t<async, nthreads>>::exec(LaunchContext const&,
BODY_IN&&)`, which launches `launch_global_fcn_fixed<BODY, nthreads>`. -/
def cuda_launch_t_nthreads.exec (static_cast_member : Int → Int) (async : Bool)
    (nthreads : Nat) (stream : Nat) (ctx : LaunchContext) : List RuntimeCall :=
  let gridSize : cuda_dim_t :=
    ⟨static_cast_member ctx.teams.value0, static_cast_member ctx.teams.value1,
      static_cast_member ctx.teams.value2⟩
  let blockSize : cuda_dim_t :=
    ⟨static_cast_member ctx.threads.value0, static_cast_member ctx.threads.value1,
      static_cast_member ctx.threads.value2⟩
  let zero : Int := 0
  if gridSize.x > zero ∧ gridSize.y > zero ∧ gridSize.z > zero ∧
      blockSize.x > zero ∧ blockSize.y > zero ∧ blockSize.z > zero then
    let shmem : Nat := 0
    [RuntimeCall.launch (Kernel.launch_global_fcn_fixed nthreads) gridSize blockSize shmem
        stream] ++
      (if !async then [RuntimeCall.synchronize stream] else [])
  else []

end LaunchExecute

namespace LoopICountExecute

/-- The `LoopICountExecute<cuda_thread_xyz_loop<DIM>, SEGMENT>::exec`: the body receives the
element and `tx`. -/
def cuda_thread_xyz_loop.exec (fuel : Nat) (threadIdx blockDim : Nat) (segment : Segment) :
    Option (List (Int × Int)) :=
  let len := segment.len
  (forLoop fuel (threadIdx : Int) len (blockDim : Int)).map
    (fun l => l.map (fun tx => (segment.elem tx, tx)))

/-- The `LoopICountExecute<cuda_thread_xyz_direct<DIM>, SEGMENT>::exec`. -/
def cuda_thread_xyz_direct.exec (threadIdx : Nat) (segment : Segment) : List (Int × Int) :=
  let len := segment.len
  let tx : Int := (threadIdx : Int)
  if tx < len then [(segment.elem tx, tx)] else []

/-- The `LoopICountExecute<cuda_block_xyz_direct<DIM>, SEGMENT>::exec`. -/
def cuda_block_xyz_direct.exec (blockIdx : Nat) (segment : Segment) : List (Int × Int) :=
  let len := segment.len
  let bx : Int := (blockIdx : Int)
  if bx < len then [(segment.elem bx, bx)] else []

/-- The `LoopICountExecute<cuda_block_xyz_direct<DIM0, DIM1>, SEGMENT>::exec`: the body
receives the two elements followed by `tx, ty`. -/
def cuda_block_xyz_direct2.exec (blockIdx0 blockIdx1 : Nat) (segment0 segment1 : Segment) :
    List ((Int × Int) × (Int × Int)) :=
  let len1 := segment1.len
  let len0 := segment0.len
  let tx : Int := (blockIdx0 : Int)
  let ty : Int := (blockIdx1 : Int)
  if tx < len0 ∧ ty < len1 then [((segment0.elem tx, segment1.elem ty), (tx, ty))] else []

/-- The `LoopICountExecute<cuda_block_xyz_loop<DIM0, DIM1, DIM2>, SEGMENT>::exec`: the body
receives the three elements followed by `bx, by, bz`. -/
def cuda_block_xyz_loop3.exec (fuel : Nat)
    (blockIdx0 gridDim0 blockIdx1 gridDim1 blockIdx2 gridDim2 : Nat)
    (segment0 segment1 segment2 : Segment) :
    Option (List ((Int × Int × Int) × (Int × Int × Int))) :=
  let len2 := segment2.len
  let len1 := segment1.len
  let len0 := segment0.len
  forLoopM fuel (blockIdx0 : Int) len0 (gridDim0 : Int) (fun bx =>
    forLoopM fuel (blockIdx1 : Int) len1 (gridDim1 : Int) (fun by_ =>
      forLoopM fuel (blockIdx2 : Int) len2 (gridDim2 : Int) (fun bz =>
        some [((segment0.elem bx, segment1.elem by_, segment2.elem bz), (bx, by_, bz))])))

end LoopICountExecute

/-! The loop dispatch with a 32-bit counter: `int` values are kept in
`[-2 ^ 31, 2 ^ 31)` and an addition that leaves this range wraps around modulo `2 ^ 32`. -/

/-- The value of a 32-bit signed integer after wrap-around: the representative of `x` modulo
`2 ^ 32` in `[-2 ^ 31, 2 ^ 31)`. -/
def wrap32 (x : Int) : Int := (x + 2147483648) % 4294967296 - 2147483648

/-- The loop `for (int t = init; t < len; t += step) { body(t); }` with a wrapping 32-bit
counter: the values of `t` at which the body runs within `fuel` iterations, and whether the
loop condition became false within that fuel. -/
def forLoop32 : Nat → Int → Int → Int → List Int × Bool
  | 0, t, len, _ => ([], decide (¬ t < len))
  | fuel + 1, t, len, step =>
    if t < len then
      ((t :: (forLoop32 fuel (wrap32 (t + step)) len step).1),
        (forLoop32 fuel (wrap32 (t + step)) len step).2)
    else ([], true)

namespace LoopExecute

/-- The `LoopExecute<cuda_thread_xyz_loop<DIM>, SEGMENT>::exec` with `len` and `tx` as 32-bit
signed integers: the body arguments given within `fuel` iterations, and whether the loop
ended. -/
def cuda_thread_xyz_loop.exec32 (fuel : Nat) (threadIdx blockDim : Nat) (segment : Segment) :
    List Int × Bool :=
  let len := wrap32 segment.len
  let r := forLoop32 fuel (wrap32 (threadIdx : Int)) len (blockDim : Int)
  (r.1.map (fun tx => segment.elem tx), r.2)

/-- The `LoopExecute<cuda_block_xyz_loop<DIM>, SEGMENT>::exec` with `len` and `bx` as 32-bit
signed integers. -/
def cuda_block_xyz_loop.exec32 (fuel : Nat) (blockIdx gridDim : Nat) (segment : Segment) :
    List Int × Bool :=
  let len := wrap32 segment.len
  let r := forLoop32 fuel (wrap32 (blockIdx : Int)) len (gridDim : Int)
  (r.1.map (fun bx => segment.elem bx), r.2)

end LoopExecute

/-- The loop `for (int t = init; t < len; t += step) { ... }` with a wrapping 32-bit counter,
around a loop body that makes body calls itself: the calls made within `fuel` iterations (of
this loop and of each loop inside it), and whether the loop ended within that fuel. -/
def forLoopM32 {α : Type} : Nat → Int → Int → Int → (Int → List α × Bool) → List α × Bool
  | 0, t, len, _, _ => ([], decide (¬ t < len))
  | fuel + 1, t, len, step, body =>
    if t < len then
      if (body t).2 then
        ((body t).1 ++ (forLoopM32 fuel (wrap32 (t + step)) len step body).1,
          (forLoopM32 fuel (wrap32 (t + step)) len step body).2)
      else ((body t).1, false)
    else ([], true)

/-- The quotient `tx / tile_size` of the ICount tile variants: truncated toward zero, and
`none` for a zero divisor, where the source has no defined value. -/
def tileIndex (tx tile_size : Int) : Option Int :=
  if tile_size = 0 then none else some (Int.tdiv tx tile_size)

namespace LoopExecute

/-- The value of `const int tx = threadIdx + blockDim * blockIdx` of the global-thread
variants: the sum of the unsigned 32-bit built-ins, converted to `int`. -/
def cuda_global_thread.tx (threadIdx blockDim blockIdx : Nat) : Int :=
  wrap32 ((threadIdx + blockDim * blockIdx : Nat) : Int)

/-- The `LoopExecute<cuda_global_thread<DIM>, SEGMENT>::exec` with `len` and `tx` as 32-bit
signed integers. -/
def cuda_global_thread.exec32 (threadIdx blockDim blockIdx : Nat) (segment : Segment) :
    List Int :=
  let len := wrap32 segment.len
  let tx := cuda_global_thread.tx threadIdx blockDim blockIdx
  if tx < len then [segment.elem tx] else []

/-- The `LoopExecute<cuda_global_thread<DIM0, DIM1>, SEGMENT>::exec` with `len0`, `len1`, `tx`
and `ty` as 32-bit signed integers. -/
def cuda_global_thread2.exec32
    (threadIdx0 blockDim0 blockIdx0 threadIdx1 blockDim1 blockIdx1 : Nat)
    (segment0 segment1 : Segment) : List (Int × Int) :=
  let len1 := wrap32 segment1.len
  let len0 := wrap32 segment0.len
  let tx := cuda_global_thread.tx threadIdx0 blockDim0 blockIdx0
  let ty := cuda_global_thread.tx threadIdx1 blockDim1 blockIdx1
  if tx < len0 ∧ ty < len1 then [(segment0.elem tx, segment1.elem ty)] else []

/-- The `LoopExecute<cuda_block_xyz_loop<DIM0, DIM1>, SEGMENT>::exec` with `len0`, `len1`,
`bx` and `by` as 32-bit signed integers. -/
def cuda_block_xyz_loop2.exec32 (fuel : Nat) (blockIdx0 gridDim0 blockIdx1 gridDim1 : Nat)
    (segment0 segment1 : Segment) : List (Int × Int) × Bool :=
  let len1 := wrap32 segment1.len
  let len0 := wrap32 segment0.len
  forLoopM32 fuel (wrap32 (blockIdx0 : Int)) len0 (gridDim0 : Int) (fun bx =>
    forLoopM32 fuel (wrap32 (blockIdx1 : Int)) len1 (gridDim1 : Int) (fun by_ =>
      ([(segment0.elem bx, segment1.elem by_)], true)))

/-- The `LoopExecute<cuda_block_xyz_loop<DIM0, DIM1, DIM2>, SEGMENT>::exec` with the three
lengths and counters as 32-bit signed integers. -/
def cuda_block_xyz_loop3.exec32 (fuel : Nat)
    (blockIdx0 gridDim0 blockIdx1 gridDim1 blockIdx2 gridDim2 : Nat)
    (segment0 segment1 segment2 : Segment) : List (Int × Int × Int) × Bool :=
  let len2 := wrap32 segment2.len
  let len1 := wrap32 segment1.len
  let len0 := wrap32 segment0.len
  forLoopM32 fuel (wrap32 (blockIdx0 : Int)) len0 (gridDim0 : Int) (fun bx =>
    forLoopM32 fuel (wrap32 (blockIdx1 : Int)) len1 (gridDim1 : Int) (fun by_ =>
      forLoopM32 fuel (wrap32 (blockIdx2 : Int)) len2 (gridDim2 : Int) (fun bz =>
        ([(segment0.elem bx, segment1.elem by_, segment2.elem bz)], true))))

end LoopExecute

namespace LoopICountExecute

/-- The `LoopICountExecute<cuda_thread_xyz_loop<DIM>, SEGMENT>::exec` with `len` and `tx` as
32-bit signed integers: the pairs (element, `tx`) given to the body within `fuel` iterations,
and whether the loop ended. -/
def cuda_thread_xyz_loop.exec32 (fuel : Nat) (threadIdx blockDim : Nat) (segment : Segment) :
    List (Int × Int) × Bool :=
  let len := wrap32 segment.len
  let r := forLoop32 fuel (wrap32 (threadIdx : Int)) len (blockDim : Int)
  (r.1.map (fun tx => (segment.elem tx, tx)), r.2)

/-- The `LoopICountExecute<cuda_block_xyz_loop<DIM>, SEGMENT>::exec` with `len` and `bx` as
32-bit signed integers. -/
def cuda_block_xyz_loop.exec32 (fuel : Nat) (blockIdx gridDim : Nat) (segment : Segment) :
    List (Int × Int) × Bool :=
  let len := wrap32 segment.len
  let r := forLoop32 fuel (wrap32 (blockIdx : Int)) len (gridDim : Int)
  (r.1.map (fun bx => (segment.elem bx, bx)), r.2)

/-- The `LoopICountExecute<cuda_block_xyz_loop<DIM0, DIM1>, SEGMENT>::exec` with the lengths
and counters as 32-bit signed integers. -/
def cuda_block_xyz_loop2.exec32 (fuel : Nat) (blockIdx0 gridDim0 blockIdx1 gridDim1 : Nat)
    (segment0 segment1 : Segment) : List ((Int × Int) × (Int × Int)) × Bool :=
  let len1 := wrap32 segment1.len
  let len0 := wrap32 segment0.len
  forLoopM32 fuel (wrap32 (blockIdx0 : Int)) len0 (gridDim0 : Int) (fun bx =>
    forLoopM32 fuel (wrap32 (blockIdx1 : Int)) len1 (gridDim1 : Int) (fun by_ =>
      ([((segment0.elem bx, segment1.elem by_), (bx, by_))], true)))

/-- The `LoopICountExecute<cuda_block_xyz_loop<DIM0, DIM1, DIM2>, SEGMENT>::exec` with the
lengths and counters as 32-bit signed integers. -/
def cuda_block_xyz_loop3.exec32 (fuel : Nat)
    (blockIdx0 gridDim0 blockIdx1 gridDim1 blockIdx2 gridDim2 : Nat)
    (segment0 segment1 segment2 : Segment) :
    List ((Int × Int × Int) × (Int × Int × Int)) × Bool :=
  let len2 := wrap32 segment2.len
  let len1 := wrap32 segment1.len
  let len0 := wrap32 segment0.len
  forLoopM32 fuel (wrap32 (blockIdx0 : Int)) len0 (gridDim0 : Int) (fun bx =>
    forLoopM32 fuel (wrap32 (blockIdx1 : Int)) len1 (gridDim1 : Int) (fun by_ =>
      forLoopM32 fuel (wrap32 (blockIdx2 : Int)) len2 (gridDim2 : Int) (fun bz =>
        ([((segment0.elem bx, segment1.elem by_, segment2.elem bz), (bx, by_, bz))], true))))

end LoopICountExecute

/-! Tile dispatch with 32-bit counters.  `tile_size` is the value of the `TILE_T` argument;
the products `threadIdx * tile_size` and `blockDim * tile_size` are reduced to `int` when they
are stored in, or added to, the `int` counter. -/

namespace TileExecute

/-- The `TileExecute<cuda_thread_xyz_loop<DIM>, SEGMENT>::exec` with `len` and `tx` as 32-bit
signed integers: the `(tx, tile_size)` arguments of `slice` within `fuel` iterations, and
whether the loop ended. -/
def cuda_thread_xyz_loop.exec32 (fuel : Nat) (threadIdx blockDim : Nat) (tile_size : Int)
    (segment : Segment) : List (Int × Int) × Bool :=
  let len := wrap32 segment.len
  let r := forLoop32 fuel (wrap32 ((threadIdx : Int) * tile_size)) len
    ((blockDim : Int) * tile_size)
  (r.1.map (fun tx => (tx, tile_size)), r.2)

/-- The `TileExecute<cuda_thread_xyz_direct<DIM>, SEGMENT>::exec` with `len` and `tx` as
32-bit signed integers. -/
def cuda_thread_xyz_direct.exec32 (threadIdx : Nat) (tile_size : Int) (segment : Segment) :
    List (Int × Int) :=
  let len := wrap32 segment.len
  let tx := wrap32 ((threadIdx : Int) * tile_size)
  if tx < len then [(tx, tile_size)] else []

/-- The `TileExecute<cuda_block_xyz_loop<DIM>, SEGMENT>::exec` with `len` and `tx` as 32-bit
signed integers. -/
def cuda_block_xyz_loop.exec32 (fuel : Nat) (blockIdx gridDim : Nat) (tile_size : Int)
    (segment : Segment) : List (Int × Int) × Bool :=
  let len := wrap32 segment.len
  let r := forLoop32 fuel (wrap32 ((blockIdx : Int) * tile_size)) len
    ((gridDim : Int) * tile_size)
  (r.1.map (fun tx => (tx, tile_size)), r.2)

/-- The `TileExecute<cuda_block_xyz_direct<DIM>, SEGMENT>::exec` with `len` and `tx` as
32-bit signed integers. -/
def cuda_block_xyz_direct.exec32 (blockIdx : Nat) (tile_size : Int) (segment : Segment) :
    List (Int × Int) :=
  let len := wrap32 segment.len
  let tx := wrap32 ((blockIdx : Int) * tile_size)
  if tx < len then [(tx, tile_size)] else []

end TileExecute

namespace TileICountExecute

/-- The `TileICountExecute<cuda_thread_xyz_loop<DIM>, SEGMENT>::exec` with `len` and `tx` as
32-bit signed integers: each call is recorded as the `slice` arguments and `tx / tile_size`. -/
def cuda_thread_xyz_loop.exec32 (fuel : Nat) (threadIdx blockDim : Nat) (tile_size : Int)
    (segment : Segment) : List ((Int × Int) × Option Int) × Bool :=
  let len := wrap32 segment.len
  let r := forLoop32 fuel (wrap32 ((threadIdx : Int) * tile_size)) len
    ((blockDim : Int) * tile_size)
  (r.1.map (fun tx => ((tx, tile_size), tileIndex tx tile_size)), r.2)

/-- The `TileICountExecute<cuda_thread_xyz_direct<DIM>, SEGMENT>::exec` with `len` and `tx`
as 32-bit signed integers. -/
def cuda_thread_xyz_direct.exec32 (threadIdx : Nat) (tile_size : Int) (segment : Segment) :
    List ((Int × Int) × Option Int) :=
  let len := wrap32 segment.len
  let tx := wrap32 ((threadIdx : Int) * tile_size)
  if tx < len then [((tx, tile_size), tileIndex tx tile_size)] else []

/-- The `TileICountExecute<cuda_block_xyz_loop<DIM>, SEGMENT>::exec` with `len` and `bx` as
32-bit signed integers. -/
def cuda_block_xyz_loop.exec32 (fuel : Nat) (blockIdx gridDim : Nat) (tile_size : Int)
    (segment : Segment) : List ((Int × Int) × Option Int) × Bool :=
  let len := wrap32 segment.len
  let r := forLoop32 fuel (wrap32 ((blockIdx : Int) * tile_size)) len
    ((gridDim : Int) * tile_size)
  (r.1.map (fun bx => ((bx, tile_size), tileIndex bx tile_size)), r.2)

/-- The `TileICountExecute<cuda_block_xyz_direct<DIM>, SEGMENT>::exec` with `len` and `bx`
as 32-bit signed integers. -/
def cuda_block_xyz_direct.exec32 (blockIdx : Nat) (tile_size : Int) (segment : Segment) :
    List ((Int × Int) × Option Int) :=
  let len := wrap32 segment.len
  let bx := wrap32 ((blockIdx : Int) * tile_size)
  if bx < len then [((bx, tile_size), tileIndex bx tile_size)] else []

end TileICountExecute

end expt

/-! The test `ForallReduceBitAndBitwiseTestImpl` of
`test/functional/forall/reduce-bitwise/tests/test-forall-bitwise-ReduceBitAnd.hpp`.  Values of
`DATA_TYPE` are held as natural numbers (their bit patterns); `&` is `&&&`. -/

namespace ReduceBitAndTest

/-- Modelled from the spec: the reduction object `RAJA::ReduceBitAnd` (declared outside
these sources; reduction variables are an external collaborator of the core): it holds the
bitwise AND of its initial value and of every value combined into it. -/
structure ReduceBitAnd where
  val : Nat
  deriving DecidableEq, Repr

/-- Modelled from the spec: the constructor `ReduceBitAnd(init)`. -/
def ReduceBitAnd.init (v : Nat) : ReduceBitAnd := ⟨v⟩

/-- Modelled from the spec: the `operator&=` of `ReduceBitAnd`. -/
def ReduceBitAnd.andAssign (r : ReduceBitAnd) (x : Nat) : ReduceBitAnd := ⟨r.val &&& x⟩

/-- Modelled from the spec: `get()` of `ReduceBitAnd`. -/
def ReduceBitAnd.get (r : ReduceBitAnd) : Nat := r.val

/-- Modelled from the spec: `reset(v)` of `ReduceBitAnd`. -/
def ReduceBitAnd.reset (_r : ReduceBitAnd) (v : Nat) : ReduceBitAnd := ⟨v⟩

/-- Modelled from the spec: `RAJA::forall` over a segment runs the body once at each index
of the segment, in no specified order; `order` lists the indices in the order of one run and
`body` updates the state captured by the lambda. -/
def forall_ {σ : Type} (order : List Nat) (body : σ → Nat → σ) (init : σ) : σ :=
  order.foldl body init

/-- The reference loop `ref_sum = 0; for (i = first; i < last; ++i) ref_sum &= test_array[i]`. -/
def ref_sum (test_array : Nat → Nat) (first last : Nat) : Nat :=
  (List.range' first (last - first)).foldl (fun r i => r &&& test_array i) 0

/-- The function `ForallReduceBitAndBitwiseTestImpl(first, last)`: `test_array` holds the
values `rand() % modval`, `order0 .. order3` are the visiting orders of the four `forall`
runs; the result is the outcome of the three `ASSERT_EQ`, in source order. -/
def ForallReduceBitAndBitwiseTestImpl (test_array : Nat → Nat) (first last : Nat)
    (order0 order1 order2 order3 : List Nat) : Bool × Bool × Bool :=
  let ref := ref_sum test_array first last
  let working_array := test_array
  let sum := ReduceBitAnd.init 0
  let sum2 := ReduceBitAnd.init 2
  let r := forall_ order0
    (fun (st : ReduceBitAnd × ReduceBitAnd) idx =>
      (st.1.andAssign (working_array idx), st.2.andAssign (working_array idx))) (sum, sum2)
  let assert1 := decide (r.1.get = ref)
  let assert2 := decide (r.2.get = ref)
  let sum := r.1.reset 0
  let sum := forall_ order1 (fun (st : ReduceBitAnd) idx => st.andAssign (working_array idx)) sum
  let sum := forall_ order2 (fun (st : ReduceBitAnd) idx => st.andAssign (working_array idx)) sum
  let sum := forall_ order3 (fun (st : ReduceBitAnd) idx => st.andAssign (working_array idx)) sum
  let assert3 := decide (sum.get = ref)
  (assert1, assert2, assert3)

end ReduceBitAndTest

end RAJA

open RAJA.Iterators RAJA.expt RAJA.ReduceBitAndTest

/-! ## Shared arithmetic lemmas -/

theorem ceil_div_eq (d s : Int) (hs : 1 ≤ s) :
    ⌈(d : ℚ) / (s : ℚ)⌉ = if d % s ≠ 0 then d / s + 1 else d / s := by
  have hs0 : (0 : ℚ) < (s : ℚ) := by exact_mod_cast (by omega : (0 : Int) < s)
  have hdecomp : d % s + s * (d / s) = d := Int.emod_add_ediv d s
  have hr0 : 0 ≤ d % s := Int.emod_nonneg d (by omega)
  have hr1 : d % s < s := Int.emod_lt_of_pos d (by omega)
  have hq : (d : ℚ) = ((d % s : Int) : ℚ) + (s : ℚ) * ((d / s : Int) : ℚ) := by
    exact_mod_cast hdecomp.symm
  have hr0q : (0 : ℚ) ≤ ((d % s : Int) : ℚ) := by exact_mod_cast hr0
  have hr1q : ((d % s : Int) : ℚ) < (s : ℚ) := by exact_mod_cast hr1
  split
  · rename_i hne
    have hpos : (0 : ℚ) < ((d % s : Int) : ℚ) := by
      have : 0 < d % s := by omega
      exact_mod_cast this
    rw [Int.ceil_eq_iff]
    constructor
    · rw [lt_div_iff₀ hs0]; push_cast; nlinarith
    · rw [div_le_iff₀ hs0]; push_cast; nlinarith
  · rename_i heq
    have hz : ((d % s : Int) : ℚ) = 0 := by
      have : d % s = 0 := by simpa using heq
      exact_mod_cast this
    rw [Int.ceil_eq_iff]
    constructor
    · rw [lt_div_iff₀ hs0]; nlinarith
    · rw [div_le_iff₀ hs0]; nlinarith

/-! ## Strided iterator -/

/-- C3: for a stride `s ≥ 1` and strided cursors `a`, `b` of that stride with
`a.val ≤ b.val`, the difference `b - a` is `⌈(b.val - a.val) / s⌉` when the gap is at
least one stride and `0` when the gap is smaller than one stride. -/
theorem C3_strided_distance (s : Int) (hs : 1 ≤ s) (a b : strided_numeric_iterator)
    (ha : a.stride = s) (hb : b.stride = s) (hab : a.val ≤ b.val) :
    (s ≤ b.val - a.val →
        strided_numeric_iterator.sub b a = ⌈((b.val - a.val : Int) : ℚ) / (s : ℚ)⌉) ∧
    (b.val - a.val < s → strided_numeric_iterator.sub b a = 0) := by
  have _ := ha
  constructor
  · intro hge
    have hd0 : 0 ≤ b.val - a.val := by omega
    rw [ceil_div_eq _ _ hs]
    simp only [strided_numeric_iterator.sub, hb]
    rw [if_neg (by omega), Int.tmod_eq_emod hd0 (by omega), Int.tdiv_eq_ediv hd0 (by omega)]
  · intro hlt
    simp only [strided_numeric_iterator.sub, hb]
    rw [if_pos hlt]

theorem C3_strided_distance_witness :
    strided_numeric_iterator.sub ⟨7, 3⟩ ⟨0, 3⟩ = ⌈(((7 : Int) - 0 : Int) : ℚ) / ((3 : Int) : ℚ)⌉ ∧
    strided_numeric_iterator.sub ⟨2, 3⟩ ⟨0, 3⟩ = 0 :=
  ⟨(C3_strided_distance 3 (by decide) ⟨0, 3⟩ ⟨7, 3⟩ rfl rfl (by decide)).1 (by decide),
   (C3_strided_distance 3 (by decide) ⟨0, 3⟩ ⟨2, 3⟩ rfl rfl (by decide)).2 (by decide)⟩

/-- C4 as stated fails: with stride 3 and bound value 7 (remainder 1), a cursor whose value
is 7 itself compares equal to the bound (`c != e` is false). -/
theorem C4_counterexample :
    Int.tmod 7 3 = 1 ∧ strided_numeric_iterator.ne ⟨7, 3⟩ ⟨7, 3⟩ = false := by
  decide

/-- C4 (amended): for a stride `s ≥ 1`, a cursor `c` and a bound `e` of that stride with
`e.val % s = r ≠ 0`, `c != e` is false only when `c.val = e.val + r` or `c.val = e.val`,
and it is false whenever `c.val = e.val`. -/
theorem C4_strided_ne_off_stride (s : Int) (hs : 1 ≤ s) (c e : strided_numeric_iterator)
    (hc : c.stride = s) (he : e.stride = s) (r : Int) (hr : Int.tmod e.val s = r)
    (hr0 : r ≠ 0) :
    (strided_numeric_iterator.ne c e = false → c.val = e.val + r ∨ c.val = e.val) ∧
    (c.val = e.val → strided_numeric_iterator.ne c e = false) := by
  have _ := hs
  have _ := he
  have _ := hr0
  constructor
  · intro h
    by_cases hv : c.val = e.val
    · exact Or.inr hv
    · left
      simp only [strided_numeric_iterator.ne, hc, hr, if_neg hv] at h
      simpa using h
  · intro hv
    simp [strided_numeric_iterator.ne, hv]

theorem C4_strided_ne_off_stride_witness :
    (strided_numeric_iterator.ne ⟨8, 3⟩ ⟨7, 3⟩ = false → (8 : Int) = 7 + 1 ∨ (8 : Int) = 7) ∧
    ((8 : Int) = 7 → strided_numeric_iterator.ne ⟨8, 3⟩ ⟨7, 3⟩ = false) :=
  C4_strided_ne_off_stride 3 (by decide) ⟨8, 3⟩ ⟨7, 3⟩ rfl rfl 1 (by decide) (by decide)

theorem iterateUntil_stride3_bound7 (fuel k : Nat) :
    strided_numeric_iterator.iterateUntil fuel ⟨3 * (k : Int), 3⟩ ⟨7, 3⟩ = none := by
  have hne : ∀ j : Nat, strided_numeric_iterator.ne ⟨3 * (j : Int), 3⟩ ⟨7, 3⟩ = true := by
    intro j
    have h1 : ¬ (3 * (j : Int) = 7) := by omega
    have h2 : Int.tmod 7 3 = 1 := by decide
    simp only [strided_numeric_iterator.ne, if_neg h1, h2]
    simp only [decide_eq_true_eq]
    omega
  induction fuel generalizing k with
  | zero => simp [strided_numeric_iterator.iterateUntil, hne]
  | succ f ih =>
    have hstep : strided_numeric_iterator.inc ⟨3 * (k : Int), 3⟩ = ⟨3 * ((k + 1 : Nat) : Int), 3⟩ := by
      simp only [strided_numeric_iterator.inc, strided_numeric_iterator.mk.injEq, and_true]
      omega
    simp only [strided_numeric_iterator.iterateUntil, hne, if_true, hstep, ih (k + 1)]
    rfl

/-- C5 fails on the code: with stride 3, `begin.val = 0` and `end.val = 7`, the loop
`for (it = begin; it != end; ++it)` never sees `it != end` turn false, whatever the number of
increments allowed. -/
theorem C5_strided_loop_diverges :
    ∀ fuel : Nat, strided_numeric_iterator.iterateUntil fuel ⟨0, 3⟩ ⟨7, 3⟩ = none := by
  intro fuel
  have h := iterateUntil_stride3_bound7 fuel 0
  simpa using h

/-- C6 fails on the code: with stride 3 and bound value 7, the nearest multiple of 3 above
the bound is 9, yet `c != e` is true at `c.val = 9` and false at `c.val = 8`. -/
theorem C6_strided_ne_not_rounded_up :
    strided_numeric_iterator.ne ⟨9, 3⟩ ⟨7, 3⟩ = true ∧
    strided_numeric_iterator.ne ⟨8, 3⟩ ⟨7, 3⟩ = false := by
  decide

/-! ## Loop and guard lemmas for the dispatch engine -/

theorem residue_iff (i k n : Nat) (hk : k < n) :
    ((k : Int) ≤ (i : Int) ∧ ((i : Int) - (k : Int)) % (n : Int) = 0) ↔ k = i % n := by
  constructor
  · rintro ⟨hle, hmod⟩
    have hle' : k ≤ i := by exact_mod_cast hle
    have hcast : ((i : Int) - (k : Int)) = ((i - k : Nat) : Int) := by omega
    rw [hcast] at hmod
    have hmod' : (i - k) % n = 0 := by exact_mod_cast hmod
    have hdvd : n ∣ i - k := Nat.dvd_of_mod_eq_zero hmod'
    have hme : k ≡ i [MOD n] := (Nat.modEq_iff_dvd' hle').2 hdvd
    have h1 : k % n = i % n := hme
    rw [Nat.mod_eq_of_lt hk] at h1
    exact h1
  · intro h
    have hle : k ≤ i := by rw [h]; exact Nat.mod_le i n
    refine ⟨by exact_mod_cast hle, ?_⟩
    have hcast : ((i : Int) - (k : Int)) = ((i - k : Nat) : Int) := by omega
    rw [hcast]
    have hdvd : n ∣ i - k := by rw [h]; exact Nat.dvd_sub_mod i
    have : (i - k) % n = 0 := Nat.mod_eq_zero_of_dvd hdvd
    exact_mod_cast this

theorem forLoop_spec (step : Int) (hstep : 1 ≤ step) (len : Int) :
    ∀ (fuel : Nat) (t : Int), len - t ≤ (fuel : Int) →
      ∃ l, forLoop fuel t len step = some l ∧ l.Nodup ∧
        ∀ x, x ∈ l ↔ (t ≤ x ∧ x < len ∧ (x - t) % step = 0) := by
  intro fuel
  induction fuel with
  | zero =>
    intro t h
    have hnot : ¬ t < len := by
      have : len - t ≤ 0 := by simpa using h
      omega
    refine ⟨[], by simp [forLoop, hnot], List.nodup_nil, ?_⟩
    intro x
    constructor
    · intro hx; simp at hx
    · rintro ⟨h1, h2, _⟩; omega
  | succ f ih =>
    intro t h
    by_cases hlt : t < len
    · obtain ⟨l', hl', hnd, hmem⟩ := ih (t + step) (by push_cast at h; omega)
      refine ⟨t :: l', by simp [forLoop, hlt, hl'], ?_, ?_⟩
      · refine List.nodup_cons.2 ⟨?_, hnd⟩
        intro hm
        have := (hmem t).1 hm
        omega
      · intro x
        simp only [List.mem_cons, hmem]
        constructor
        · rintro (rfl | ⟨h1, h2, h3⟩)
          · exact ⟨le_refl _, hlt, by simp⟩
          · refine ⟨by omega, h2, ?_⟩
            have hx : x - t = (x - (t + step)) + step := by ring
            rw [hx, Int.add_emod_self]
            exact h3
        · rintro ⟨h1, h2, h3⟩
          by_cases hx : x = t
          · exact Or.inl hx
          · right
            have hdvd : step ∣ x - t := Int.dvd_of_emod_eq_zero h3
            have hpos : 0 < x - t := by omega
            have hle := Int.le_of_dvd hpos hdvd
            refine ⟨by omega, h2, ?_⟩
            obtain ⟨q, hq⟩ := hdvd
            have hx2 : x - (t + step) = step * (q - 1) := by rw [mul_sub, ← hq]; ring
            rw [hx2]
            exact Int.mul_emod_right step (q - 1)
    · refine ⟨[], by simp [forLoop, hlt], List.nodup_nil, ?_⟩
      intro x
      constructor
      · intro hx; simp at hx
      · rintro ⟨h1, h2, _⟩; omega

theorem Segment_elem_eq (segment : Segment) (t : Int) :
    segment.elem t = segment.begin.val + t := rfl

theorem Segment_elem_injective (segment : Segment) : Function.Injective segment.elem := by
  intro a b h
  simp only [Segment_elem_eq] at h
  omega

theorem flatMap_range_guard {α : Type} (h : Nat → List α) (L n : Nat) :
    (List.range n).flatMap (fun c => if c < L then h c else []) =
      (List.range (min n L)).flatMap h := by
  induction n with
  | zero => simp
  | succ m ih =>
    rw [List.range_succ, List.flatMap_append, ih, List.flatMap_singleton]
    by_cases hm : m < L
    · have h1 : min m L = m := by omega
      have h2 : min (m + 1) L = m + 1 := by omega
      rw [if_pos hm, h1, h2, List.range_succ, List.flatMap_append, List.flatMap_singleton]
    · have h1 : min m L = min (m + 1) L := by omega
      rw [if_neg hm, h1, List.append_nil]

theorem flatMap_unit_eq_map {α β : Type} (g : α → β) (l : List α) :
    l.flatMap (fun c => [g c]) = l.map g := by
  induction l with
  | nil => rfl
  | cons a t ih => simp [List.flatMap_cons, ih]

theorem runAxis_direct {α : Type} (g : Nat → α) (len : Int) (n : Nat) (hn : len ≤ (n : Int))
    (exec : Nat → List α)
    (hexec : ∀ c, exec c = if (c : Int) < len then [g c] else []) :
    runAxis n exec = (List.range len.toNat).map g := by
  have hfun : exec = fun c => if c < len.toNat then [g c] else [] := by
    funext c
    rw [hexec c]
    by_cases hc : (c : Int) < len
    · rw [if_pos hc, if_pos (by omega)]
    · rw [if_neg hc, if_neg (by omega)]
  have hmin : min n len.toNat = len.toNat := by omega
  rw [runAxis, hfun, flatMap_range_guard (fun c => [g c]) len.toNat n, hmin,
    flatMap_unit_eq_map]

theorem count_offsets_range (b : Int) (L i : Nat) (hi : i < L) :
    ((List.range L).map (fun j : Nat => b + (j : Int))).count (b + (i : Int)) = 1 := by
  have hinj : Function.Injective (fun j : Nat => b + (j : Int)) := by
    intro x y hxy
    simp only at hxy
    omega
  have hnd : ((List.range L).map (fun j : Nat => b + (j : Int))).Nodup :=
    (List.nodup_range L).map hinj
  exact List.count_eq_one_of_mem hnd (List.mem_map.2 ⟨i, List.mem_range.2 hi, rfl⟩)

/-! ## One-dimensional dispatch -/

/-- C2: for a segment of length `len ≥ 0` and `n ≥ len` coordinates, the direct dispatch
(thread and block variants) calls the body once with `segment.begin() + c` at every coordinate
`c < len` and not at all at a coordinate `c ≥ len`; run at every coordinate of `[0, n)` the
calls are exactly `begin, begin + 1, ..., begin + len - 1`, each logical index once. -/
theorem C2_direct_1d_coverage (segment : Segment) (n : Nat) (hlen : 0 ≤ segment.len)
    (hn : segment.len ≤ (n : Int)) :
    (∀ c : Nat, c < n →
      ((c : Int) < segment.len →
        LoopExecute.cuda_thread_xyz_direct.exec c segment = [segment.begin.val + (c : Int)] ∧
        LoopExecute.cuda_block_xyz_direct.exec c segment = [segment.begin.val + (c : Int)]) ∧
      (segment.len ≤ (c : Int) →
        LoopExecute.cuda_thread_xyz_direct.exec c segment = [] ∧
        LoopExecute.cuda_block_xyz_direct.exec c segment = [])) ∧
    runAxis n (fun c => LoopExecute.cuda_thread_xyz_direct.exec c segment) =
      (List.range segment.len.toNat).map (fun i : Nat => segment.begin.val + (i : Int)) ∧
    runAxis n (fun c => LoopExecute.cuda_block_xyz_direct.exec c segment) =
      (List.range segment.len.toNat).map (fun i : Nat => segment.begin.val + (i : Int)) ∧
    (∀ i : Nat, (i : Int) < segment.len →
      (runAxis n (fun c => LoopExecute.cuda_thread_xyz_direct.exec c segment)).count
          (segment.begin.val + (i : Int)) = 1 ∧
      (runAxis n (fun c => LoopExecute.cuda_block_xyz_direct.exec c segment)).count
          (segment.begin.val + (i : Int)) = 1) := by
  have _ := hlen
  have ht : runAxis n (fun c => LoopExecute.cuda_thread_xyz_direct.exec c segment) =
      (List.range segment.len.toNat).map (fun i : Nat => segment.begin.val + (i : Int)) :=
    runAxis_direct (fun i : Nat => segment.begin.val + (i : Int)) segment.len n hn _
      (fun c => rfl)
  have hb : runAxis n (fun c => LoopExecute.cuda_block_xyz_direct.exec c segment) =
      (List.range segment.len.toNat).map (fun i : Nat => segment.begin.val + (i : Int)) :=
    runAxis_direct (fun i : Nat => segment.begin.val + (i : Int)) segment.len n hn _
      (fun c => rfl)
  refine ⟨?_, ht, hb, ?_⟩
  · intro c _
    constructor
    · intro hc
      simp [LoopExecute.cuda_thread_xyz_direct.exec, LoopExecute.cuda_block_xyz_direct.exec,
        hc, Segment_elem_eq]
    · intro hc
      have hc' : ¬ (c : Int) < segment.len := by omega
      simp [LoopExecute.cuda_thread_xyz_direct.exec, LoopExecute.cuda_block_xyz_direct.exec,
        hc']
  · intro i hi
    rw [ht, hb]
    have hi' : i < segment.len.toNat := by omega
    exact ⟨count_offsets_range _ _ _ hi', count_offsets_range _ _ _ hi'⟩

theorem C2_direct_1d_coverage_witness :
    runAxis 32 (fun c => LoopExecute.cuda_thread_xyz_direct.exec c ⟨⟨5⟩, ⟨22⟩⟩) =
      (List.range (Segment.len ⟨⟨5⟩, ⟨22⟩⟩).toNat).map (fun i : Nat => (5 : Int) + (i : Int)) :=
  (C2_direct_1d_coverage ⟨⟨5⟩, ⟨22⟩⟩ 32 (by decide) (by decide)).2.1

theorem loop_trace (segment : Segment) (k n : Nat) (hn : 1 ≤ n) :
    ∃ l : List Int,
      forLoop segment.len.toNat (k : Int) segment.len (n : Int) = some l ∧
      (∀ x ∈ l.map segment.elem, ∃ i : Nat, (i : Int) < segment.len ∧ x = segment.elem i) ∧
      (k < n → ∀ i : Nat, (i : Int) < segment.len →
        (l.map segment.elem).count (segment.elem i) = if k = i % n then 1 else 0) := by
  obtain ⟨l, hl, hnd, hmem⟩ :=
    forLoop_spec (n : Int) (by exact_mod_cast hn) segment.len segment.len.toNat (k : Int)
      (by omega)
  refine ⟨l, hl, ?_, ?_⟩
  · intro x hx
    obtain ⟨t, ht, rfl⟩ := List.mem_map.1 hx
    obtain ⟨h1, h2, _⟩ := (hmem t).1 ht
    refine ⟨t.toNat, by omega, ?_⟩
    congr 1
    omega
  · intro hk i hi
    have hnd' : (l.map segment.elem).Nodup := hnd.map (Segment_elem_injective segment)
    have hiff : segment.elem i ∈ l.map segment.elem ↔ k = i % n := by
      rw [List.mem_map_of_injective (Segment_elem_injective segment), hmem, ← residue_iff i k n hk]
      constructor
      · rintro ⟨h1, _, h3⟩; exact ⟨h1, h3⟩
      · rintro ⟨h1, h3⟩; exact ⟨h1, hi, h3⟩
    by_cases hki : k = i % n
    · rw [if_pos hki]
      exact List.count_eq_one_of_mem hnd' (hiff.2 hki)
    · rw [if_neg hki]
      exact List.count_eq_zero_of_not_mem (fun hm => hki (hiff.1 hm))

/-- With unbounded integers in place of the 32-bit `int` counters:
for a resource count `n ≥ 1`, there is an amount of fuel with which the loop dispatch
(thread and block variants) returns at every coordinate `k < n`; every call it makes is for a
logical index of `[0, len)`; the index `i` is called once by coordinate `i % n` and by no
other coordinate, hence exactly once over the whole topology. -/
theorem loop_1d_coverage_exact (segment : Segment) (n : Nat) (hn : 1 ≤ n) :
    ∃ (fuel : Nat) (tr : Nat → List Int),
      (∀ k : Nat, k < n →
        LoopExecute.cuda_thread_xyz_loop.exec fuel k n segment = some (tr k) ∧
        LoopExecute.cuda_block_xyz_loop.exec fuel k n segment = some (tr k) ∧
        (∀ x ∈ tr k, ∃ i : Nat, (i : Int) < segment.len ∧ x = segment.elem i)) ∧
      (∀ i : Nat, (i : Int) < segment.len →
        (∀ k : Nat, k < n → (tr k).count (segment.elem i) = if k = i % n then 1 else 0) ∧
        (∑ k in Finset.range n, (tr k).count (segment.elem i)) = 1) := by
  refine ⟨segment.len.toNat,
    fun k => ((forLoop segment.len.toNat (k : Int) segment.len (n : Int)).getD []).map
      segment.elem, ?_, ?_⟩
  · intro k _
    obtain ⟨l, hl, hrange, _⟩ := loop_trace segment k n hn
    refine ⟨?_, ?_, ?_⟩
    · simp [LoopExecute.cuda_thread_xyz_loop.exec, hl]
    · simp [LoopExecute.cuda_block_xyz_loop.exec, hl]
    · simpa [hl] using hrange
  · intro i hi
    have hcount : ∀ k : Nat, k < n →
        (((forLoop segment.len.toNat (k : Int) segment.len (n : Int)).getD []).map
          segment.elem).count (segment.elem i) = if k = i % n then 1 else 0 := by
      intro k hk
      obtain ⟨l, hl, _, hc⟩ := loop_trace segment k n hn
      simpa [hl] using hc hk i hi
    refine ⟨hcount, ?_⟩
    rw [Finset.sum_congr rfl (fun k hk => hcount k (Finset.mem_range.1 hk))]
    rw [Finset.sum_ite_eq']
    simp [Nat.mod_lt i (by omega : 0 < n)]

/-! ## Global-thread coordinates -/

theorem global_coord_injective (B t b t' b' : Nat) (ht : t < B) (ht' : t' < B)
    (h : t + B * b = t' + B * b') : t = t' ∧ b = b' := by
  have h1 : (t + B * b) % B = t := by
    rw [Nat.add_mul_mod_self_left, Nat.mod_eq_of_lt ht]
  have h2 : (t' + B * b') % B = t' := by
    rw [Nat.add_mul_mod_self_left, Nat.mod_eq_of_lt ht']
  have htt : t = t' := by rw [← h1, ← h2, h]
  subst htt
  have hB : 0 < B := by omega
  exact ⟨rfl, Nat.eq_of_mul_eq_mul_left hB (by omega)⟩

theorem global_coord_lt (B G t b : Nat) (ht : t < B) (hb : b < G) : t + B * b < B * G := by
  have h1 : B * (b + 1) ≤ B * G := Nat.mul_le_mul_left B hb
  have h2 : B * (b + 1) = B * b + B := by ring
  omega

theorem global_coord_split (B G c : Nat) (hB : 1 ≤ B) (hc : c < B * G) :
    c % B < B ∧ c / B < G ∧ c % B + B * (c / B) = c := by
  refine ⟨Nat.mod_lt c (by omega), ?_, Nat.mod_add_div c B⟩
  exact Nat.div_lt_of_lt_mul hc

/-- With unbounded integers in place of the 32-bit `int` counters:
with `B ≥ 1` lanes per group and `G` groups, `threadIdx + blockDim * blockIdx` is
distinct for each pair of `[0, B) × [0, G)` and ranges over exactly `[0, B * G)`; for a segment
of length `0 ≤ len ≤ B * G`, every pair makes at most one body call and the logical index
`i < len` is passed by the pair `(i % B, i / B)` and by no other pair. -/
theorem global_thread_1d_exact (B G : Nat) (hB : 1 ≤ B) (segment : Segment)
    (hlen0 : 0 ≤ segment.len) (hlen : segment.len ≤ ((B * G : Nat) : Int)) :
    (∀ t b t' b' : Nat, t < B → t' < B → t + B * b = t' + B * b' → t = t' ∧ b = b') ∧
    (∀ t b : Nat, t < B → b < G → t + B * b < B * G) ∧
    (∀ c : Nat, c < B * G → c % B < B ∧ c / B < G ∧ c % B + B * (c / B) = c) ∧
    (∀ t b : Nat, (LoopExecute.cuda_global_thread.exec t B b segment).length ≤ 1) ∧
    (∀ i : Nat, (i : Int) < segment.len →
      (i % B < B ∧ i / B < G) ∧
      ∀ t b : Nat, t < B → b < G →
        (LoopExecute.cuda_global_thread.exec t B b segment).count (segment.begin.val + (i : Int))
          = if t = i % B ∧ b = i / B then 1 else 0) := by
  have _ := hlen0
  refine ⟨fun t b t' b' => global_coord_injective B t b t' b',
    fun t b => global_coord_lt B G t b, fun c => global_coord_split B G c hB, ?_, ?_⟩
  · intro t b
    unfold LoopExecute.cuda_global_thread.exec
    simp only []
    split <;> simp
  · intro i hi
    have hiBG : i < B * G := by omega
    obtain ⟨h1, h2, h3⟩ := global_coord_split B G i hB hiBG
    refine ⟨⟨h1, h2⟩, ?_⟩
    intro t b ht _
    have hkey : (t + B * b = i) ↔ (t = i % B ∧ b = i / B) := by
      constructor
      · intro h
        exact global_coord_injective B t b (i % B) (i / B) ht h1 (by omega)
      · rintro ⟨rfl, rfl⟩
        exact h3
    unfold LoopExecute.cuda_global_thread.exec
    simp only [Segment_elem_eq]
    by_cases hc : t + B * b = i
    · rw [if_pos (hkey.1 hc), hc, if_pos hi]
      simp
    · rw [if_neg (fun h => hc (hkey.2 h))]
      by_cases hlt : ((t + B * b : Nat) : Int) < segment.len
      · rw [if_pos hlt]
        have hne : ¬ (segment.begin.val + ((t + B * b : Nat) : Int) = segment.begin.val + (i : Int)) := by
          omega
        exact List.count_eq_zero_of_not_mem
          (by rw [List.mem_singleton]; exact fun h => hne h.symm)
      · rw [if_neg hlt]
        simp

/-! ## Three-dimensional direct dispatch -/

/-- C7 fails on the code: at thread coordinates `(1, 2, 3)` of block `(0, 0, 0)` with the
segments `[0, 10)`, `[100, 110)`, `[200, 210)` the global-thread 3-D dispatch calls the body
with `(1, 102, 102)`; the third argument is the element of `segment1`, not
`segment2.begin() + 3 = 203`. -/
theorem C7_global_thread_3d_third_argument :
    LoopExecute.cuda_global_thread3.exec 1 4 0 2 4 0 3 4 0
        ⟨⟨0⟩, ⟨10⟩⟩ ⟨⟨100⟩, ⟨110⟩⟩ ⟨⟨200⟩, ⟨210⟩⟩ = [(1, 102, 102)] ∧
    Segment.elem ⟨⟨200⟩, ⟨210⟩⟩ 3 = 203 := by
  decide

theorem runAxes2_direct {α : Type} (g : Nat → Nat → α) (len0 len1 : Int) (n0 n1 : Nat)
    (hn0 : len0 ≤ (n0 : Int)) (hn1 : len1 ≤ (n1 : Int)) (exec : Nat → Nat → List α)
    (hexec : ∀ i j, exec i j = if (i : Int) < len0 ∧ (j : Int) < len1 then [g i j] else []) :
    runAxes2 n0 n1 exec =
      (List.range len0.toNat ×ˢ List.range len1.toNat).map
        (fun p => g p.1 p.2) := by
  have hinner : ∀ i : Nat, (List.range n1).flatMap (fun j => exec i j) =
      if i < len0.toNat then (List.range len1.toNat).map (g i) else [] := by
    intro i
    by_cases hi : (i : Int) < len0
    · have hfun : (fun j => exec i j) = fun j => if j < len1.toNat then [g i j] else [] := by
        funext j
        rw [hexec i j]
        by_cases hj : (j : Int) < len1
        · rw [if_pos ⟨hi, hj⟩, if_pos (by omega)]
        · rw [if_neg (fun h => hj h.2), if_neg (by omega)]
      have hmin : min n1 len1.toNat = len1.toNat := by omega
      rw [hfun, flatMap_range_guard (fun j => [g i j]) len1.toNat n1, hmin,
        flatMap_unit_eq_map, if_pos (by omega)]
    · have hfun : (fun j => exec i j) = fun _ => ([] : List α) := by
        funext j
        rw [hexec i j, if_neg (fun h => hi h.1)]
      rw [hfun, if_neg (by omega)]
      simp
  have hmin0 : min n0 len0.toNat = len0.toNat := by omega
  unfold runAxes2
  simp only [hinner]
  rw [flatMap_range_guard (fun i => (List.range len1.toNat).map (g i)) len0.toNat n0, hmin0]
  simp [SProd.sprod, List.product, List.map_flatMap, List.map_map, Function.comp_def]

theorem indexPairs_spec (b0 b1 : Int) (L0 L1 : Nat) :
    ((List.range L0 ×ˢ List.range L1).map
        (fun p : Nat × Nat => (b0 + (p.1 : Int), b1 + (p.2 : Int)))).length = L0 * L1 ∧
    ((List.range L0 ×ˢ List.range L1).map
        (fun p : Nat × Nat => (b0 + (p.1 : Int), b1 + (p.2 : Int)))).Nodup ∧
    (∀ x : Int × Int,
      x ∈ (List.range L0 ×ˢ List.range L1).map
          (fun p : Nat × Nat => (b0 + (p.1 : Int), b1 + (p.2 : Int))) ↔
        ∃ i j : Nat, i < L0 ∧ j < L1 ∧ x = (b0 + (i : Int), b1 + (j : Int))) := by
  have hinj : Function.Injective
      (fun p : Nat × Nat => (b0 + (p.1 : Int), b1 + (p.2 : Int))) := by
    rintro ⟨a, b⟩ ⟨c, d⟩ h
    simp only [Prod.mk.injEq] at h
    obtain ⟨h1, h2⟩ := h
    have ha : a = c := by omega
    have hb : b = d := by omega
    rw [ha, hb]
  refine ⟨by simp [List.length_product], ?_, ?_⟩
  · exact ((List.nodup_range L0).product (List.nodup_range L1)).map hinj
  · intro x
    simp only [List.mem_map, List.mem_product, List.mem_range, Prod.exists]
    constructor
    · rintro ⟨i, j, ⟨hi, hj⟩, rfl⟩
      exact ⟨i, j, hi, hj, rfl⟩
    · rintro ⟨i, j, hi, hj, rfl⟩
      exact ⟨i, j, ⟨hi, hj⟩, rfl⟩

/-- With unbounded integers in place of the 32-bit `int` counters:
for segments of lengths `len0, len1 ≥ 0` and a topology with `n0 ≥ len0`, `n1 ≥ len1`
coordinates on the two policy axes, the 2-D direct dispatch (block variant, and global-thread
variant for any lanes-per-group `B0, B1 ≥ 1`) run at every coordinate pair of
`[0, n0) × [0, n1)` makes exactly `len0 * len1` body calls, without duplicates, and the calls
are exactly the pairs `(begin0 + i, begin1 + j)` with `i < len0`, `j < len1`. -/
theorem direct_2d_coverage_exact (segment0 segment1 : Segment) (n0 n1 : Nat)
    (h0 : 0 ≤ segment0.len) (h1 : 0 ≤ segment1.len)
    (hn0 : segment0.len ≤ (n0 : Int)) (hn1 : segment1.len ≤ (n1 : Int)) :
    ∀ run : List (Int × Int),
      (run = runAxes2 n0 n1
          (fun i j => LoopExecute.cuda_block_xyz_direct2.exec i j segment0 segment1) ∨
       ∃ B0 B1 : Nat, 1 ≤ B0 ∧ 1 ≤ B1 ∧
        run = runAxes2 n0 n1 (fun i j =>
          LoopExecute.cuda_global_thread2.exec (i % B0) B0 (i / B0) (j % B1) B1 (j / B1)
            segment0 segment1)) →
      run.length = segment0.len.toNat * segment1.len.toNat ∧
      run.Nodup ∧
      (∀ x : Int × Int, x ∈ run ↔
        ∃ i j : Nat, (i : Int) < segment0.len ∧ (j : Int) < segment1.len ∧
          x = (segment0.begin.val + (i : Int), segment1.begin.val + (j : Int))) := by
  have _ := h0
  have _ := h1
  intro run hrun
  have hspec := indexPairs_spec segment0.begin.val segment1.begin.val
    segment0.len.toNat segment1.len.toNat
  have hrun' : run = (List.range segment0.len.toNat ×ˢ
      List.range segment1.len.toNat).map
        (fun p : Nat × Nat => (segment0.begin.val + (p.1 : Int),
          segment1.begin.val + (p.2 : Int))) := by
    rcases hrun with rfl | ⟨B0, B1, hB0, hB1, rfl⟩
    · exact runAxes2_direct
        (fun i j : Nat => (segment0.begin.val + (i : Int), segment1.begin.val + (j : Int)))
        segment0.len segment1.len n0 n1 hn0 hn1 _ (fun i j => rfl)
    · refine runAxes2_direct
        (fun i j : Nat => (segment0.begin.val + (i : Int), segment1.begin.val + (j : Int)))
        segment0.len segment1.len n0 n1 hn0 hn1 _ (fun i j => ?_)
      simp only [LoopExecute.cuda_global_thread2.exec, Nat.mod_add_div, Segment_elem_eq]
  rw [hrun']
  refine ⟨hspec.1, hspec.2.1, ?_⟩
  intro x
  rw [hspec.2.2 x]
  constructor
  · rintro ⟨i, j, hi, hj, rfl⟩
    exact ⟨i, j, by omega, by omega, rfl⟩
  · rintro ⟨i, j, hi, hj, rfl⟩
    exact ⟨i, j, by omega, by omega, rfl⟩

/-! ## Closed form of the loop -/

theorem lt_loopCount_iff (d s z : Int) (hs : 1 ≤ s) : z < (d + s - 1) / s ↔ z * s < d := by
  have hs0 : 0 < s := by omega
  have h1 : z + 1 ≤ (d + s - 1) / s ↔ (z + 1) * s ≤ d + s - 1 := Int.le_ediv_iff_mul_le hs0
  have h2 : (z + 1) * s = z * s + s := by ring
  constructor
  · intro h
    have := h1.1 (by omega)
    rw [h2] at this
    omega
  · intro h
    have := h1.2 (by rw [h2]; omega)
    omega

theorem ceil_div_eq_loopCount (d s : Int) (hs : 1 ≤ s) :
    ⌈(d : ℚ) / (s : ℚ)⌉ = (d + s - 1) / s := by
  have hs0 : (0 : ℚ) < (s : ℚ) := by exact_mod_cast (by omega : (0 : Int) < s)
  apply eq_of_forall_lt_iff
  intro z
  rw [Int.lt_ceil, lt_div_iff₀ hs0, lt_loopCount_iff d s z hs]
  exact_mod_cast Iff.rfl

theorem forLoop_closed (step : Int) (hstep : 1 ≤ step) (len : Int) :
    ∀ (fuel : Nat) (t : Int), len - t ≤ (fuel : Int) →
      forLoop fuel t len step =
        some ((List.range ((len - t + step - 1) / step).toNat).map
          (fun j : Nat => t + (j : Int) * step)) := by
  have hdone : ∀ t : Int, ¬ t < len → ((len - t + step - 1) / step).toNat = 0 := by
    intro t ht
    have h := (lt_loopCount_iff (len - t) step 0 hstep).not
    have h0 : ¬ (0 : Int) * step < len - t := by simp; omega
    have := h.2 h0
    omega
  have hmore : ∀ t : Int, t < len →
      ((len - t + step - 1) / step).toNat =
        ((len - (t + step) + step - 1) / step).toNat + 1 := by
    intro t ht
    have h1 : len - t + step - 1 = (len - (t + step) + step - 1) + 1 * step := by ring
    have h2 : (len - t + step - 1) / step = (len - (t + step) + step - 1) / step + 1 := by
      rw [h1, Int.add_mul_ediv_right _ _ (by omega : step ≠ 0)]
    have h3 : 0 ≤ (len - (t + step) + step - 1) / step := by
      apply Int.ediv_nonneg <;> omega
    omega
  intro fuel
  induction fuel with
  | zero =>
    intro t h
    have hnot : ¬ t < len := by
      have : len - t ≤ 0 := by simpa using h
      omega
    simp [forLoop, hnot, hdone t hnot]
  | succ f ih =>
    intro t h
    by_cases hlt : t < len
    · have hih := ih (t + step) (by push_cast at h; omega)
      rw [hmore t hlt, List.range_succ_eq_map]
      simp only [forLoop, if_pos hlt, hih, Option.map_some', List.map_cons, List.map_map]
      congr 2
      · simp
      · apply List.map_congr_left
        intro j _
        simp only [Function.comp_apply, Nat.succ_eq_add_one]
        push_cast
        ring
    · simp [forLoop, hlt, hdone t hlt]

/-- With unbounded integers in place of the 32-bit `int` counters:
for a coordinate `k`, a resource count `n ≥ 1` and any segment, the loop dispatch
(thread and block variants) returns, and its body calls are `begin + k`, `begin + k + n`,
`begin + k + 2n`, ... for exactly the offsets `k + j * n < len`, in strictly increasing order;
there is none when `k ≥ len` and there are `⌈(len - k) / n⌉` of them otherwise. -/
theorem loop_1d_sequence_exact (segment : Segment) (k n : Nat) (hn : 1 ≤ n) :
    ∃ (fuel m : Nat),
      LoopExecute.cuda_thread_xyz_loop.exec fuel k n segment =
        some ((List.range m).map
          (fun j : Nat => segment.begin.val + ((k : Int) + (j : Int) * (n : Int)))) ∧
      LoopExecute.cuda_block_xyz_loop.exec fuel k n segment =
        some ((List.range m).map
          (fun j : Nat => segment.begin.val + ((k : Int) + (j : Int) * (n : Int)))) ∧
      (∀ j : Nat, j < m ↔ (k : Int) + (j : Int) * (n : Int) < segment.len) ∧
      List.Pairwise (fun a b : Int => a < b) ((List.range m).map
          (fun j : Nat => segment.begin.val + ((k : Int) + (j : Int) * (n : Int)))) ∧
      (segment.len ≤ (k : Int) → m = 0) ∧
      ((k : Int) < segment.len →
        (m : Int) = ⌈((segment.len - (k : Int) : Int) : ℚ) / ((n : Int) : ℚ)⌉) := by
  have hn' : (1 : Int) ≤ (n : Int) := by exact_mod_cast hn
  have hclosed := forLoop_closed (n : Int) hn' segment.len segment.len.toNat (k : Int)
    (by omega)
  have hlt : ∀ j : Nat, j < ((segment.len - (k : Int) + (n : Int) - 1) / (n : Int)).toNat ↔
      (k : Int) + (j : Int) * (n : Int) < segment.len := by
    intro j
    have h := lt_loopCount_iff (segment.len - (k : Int)) (n : Int) (j : Int) hn'
    constructor
    · intro hj
      have := h.1 (by omega)
      omega
    · intro hj
      have := h.2 (by omega)
      omega
  refine ⟨segment.len.toNat, ((segment.len - (k : Int) + (n : Int) - 1) / (n : Int)).toNat,
    ?_, ?_, hlt, ?_, ?_, ?_⟩
  · simp [LoopExecute.cuda_thread_xyz_loop.exec, hclosed, Segment_elem_eq, Function.comp_def]
  · simp [LoopExecute.cuda_block_xyz_loop.exec, hclosed, Segment_elem_eq, Function.comp_def]
  · rw [List.pairwise_map]
    refine List.Pairwise.imp ?_ (List.pairwise_lt_range _)
    intro a b hab
    have hab' : (a : Int) < (b : Int) := by exact_mod_cast hab
    have : (a : Int) * (n : Int) < (b : Int) * (n : Int) :=
      mul_lt_mul_of_pos_right hab' (by omega)
    omega
  · intro hk
    by_contra hm
    have h0 := (hlt 0).1 (by omega)
    simp at h0
    omega
  · intro hk
    rw [ceil_div_eq_loopCount _ _ hn']
    have h0 := (hlt 0).2 (by simpa using hk)
    omega

/-! ## Nested loops -/

theorem forLoopM_of_forLoop {α : Type} (step len : Int) (body : Int → Option (List α))
    (g : Int → List α) :
    ∀ (fuel : Nat) (t : Int) (l : List Int), forLoop fuel t len step = some l →
      (∀ x ∈ l, body x = some (g x)) →
      forLoopM fuel t len step body = some (l.flatMap g) := by
  intro fuel
  induction fuel with
  | zero =>
    intro t l hl _
    by_cases hlt : t < len
    · simp [forLoop, hlt] at hl
    · simp only [forLoop, if_neg hlt, Option.some.injEq] at hl
      subst hl
      simp [forLoopM, hlt]
  | succ f ih =>
    intro t l hl hbody
    by_cases hlt : t < len
    · simp only [forLoop, if_pos hlt, Option.map_eq_some'] at hl
      obtain ⟨r, hr, rfl⟩ := hl
      have hb : body t = some (g t) := hbody t (List.mem_cons_self _ _)
      have hrest := ih (t + step) r hr (fun x hx => hbody x (List.mem_cons_of_mem _ hx))
      simp [forLoopM, hlt, hb, hrest, List.flatMap_cons]
    · simp only [forLoop, if_neg hlt, Option.some.injEq] at hl
      subst hl
      simp [forLoopM, hlt]

theorem forLoop_fuel_irrelevant (step : Int) (hstep : 1 ≤ step) (len t : Int) (f1 f2 : Nat)
    (h1 : len - t ≤ (f1 : Int)) (h2 : len - t ≤ (f2 : Int)) :
    forLoop f1 t len step = forLoop f2 t len step := by
  rw [forLoop_closed step hstep len f1 t h1, forLoop_closed step hstep len f2 t h2]

theorem loop2_nested {α : Type} (fuel : Nat) (t0 len0 step0 t1 len1 step1 : Int)
    (l0 l1 : List Int) (h0 : forLoop fuel t0 len0 step0 = some l0)
    (h1 : forLoop fuel t1 len1 step1 = some l1) (call : Int → Int → α) :
    forLoopM fuel t0 len0 step0 (fun bx =>
      forLoopM fuel t1 len1 step1 (fun by_ => some [call bx by_])) =
      some (l0.flatMap (fun x => l1.map (fun y => call x y))) := by
  have hinner : ∀ x : Int,
      forLoopM fuel t1 len1 step1 (fun by_ => some [call x by_]) =
        some (l1.map (fun y => call x y)) := by
    intro x
    rw [forLoopM_of_forLoop step1 len1 _ (fun y => [call x y]) fuel t1 l1 h1 (fun _ _ => rfl),
      flatMap_unit_eq_map]
  exact forLoopM_of_forLoop step0 len0 _ (fun x => l1.map (fun y => call x y)) fuel t0 l0 h0
    (fun x _ => hinner x)

theorem loop3_nested {α : Type} (fuel : Nat)
    (t0 len0 step0 t1 len1 step1 t2 len2 step2 : Int) (l0 l1 l2 : List Int)
    (h0 : forLoop fuel t0 len0 step0 = some l0) (h1 : forLoop fuel t1 len1 step1 = some l1)
    (h2 : forLoop fuel t2 len2 step2 = some l2) (call : Int → Int → Int → α) :
    forLoopM fuel t0 len0 step0 (fun bx =>
      forLoopM fuel t1 len1 step1 (fun by_ =>
        forLoopM fuel t2 len2 step2 (fun bz => some [call bx by_ bz]))) =
      some (l0.flatMap (fun x => l1.flatMap (fun y => l2.map (fun z => call x y z)))) := by
  have hinner : ∀ x : Int,
      forLoopM fuel t1 len1 step1 (fun by_ =>
        forLoopM fuel t2 len2 step2 (fun bz => some [call x by_ bz])) =
        some (l1.flatMap (fun y => l2.map (fun z => call x y z))) :=
    fun x => loop2_nested fuel t1 len1 step1 t2 len2 step2 l1 l2 h1 h2 (call x)
  exact forLoopM_of_forLoop step0 len0 _
    (fun x => l1.flatMap (fun y => l2.map (fun z => call x y z))) fuel t0 l0 h0
    (fun x _ => hinner x)

theorem flatMap_map_pair {α β γ δ ε : Type} (f : α → γ) (g : β → δ) (c : γ → δ → ε)
    (l0 : List α) (l1 : List β) :
    (l0.map f).flatMap (fun x => (l1.map g).map (fun y => c x y)) =
      l0.flatMap (fun x => l1.map (fun y => c (f x) (g y))) := by
  rw [List.flatMap_map]
  simp [List.map_map, Function.comp_def]

/-- With unbounded integers in place of the 32-bit `int` counters:
for resource counts `n0, n1, n2 ≥ 1` there is an amount of fuel with which the
per-axis 1-D block loops return sequences `tr0, tr1, tr2`, and with it the 2-D and 3-D nested
loop dispatch at the same coordinates return the Cartesian product of those sequences, axis 0
outermost and the last axis innermost; the 2-D ICount variant returns the product of the 1-D
ICount sequences in the same order.  Each component comes from the 1-D sequence of its own
axis, which depends only on that axis's coordinate, resource count and segment. -/
theorem loop_nd_order_exact (k0 n0 k1 n1 k2 n2 : Nat) (segment0 segment1 segment2 : Segment)
    (hn0 : 1 ≤ n0) (hn1 : 1 ≤ n1) (hn2 : 1 ≤ n2) :
    ∃ (fuel : Nat) (tr0 tr1 tr2 : List Int) (c0 c1 : List (Int × Int)),
      LoopExecute.cuda_block_xyz_loop.exec fuel k0 n0 segment0 = some tr0 ∧
      LoopExecute.cuda_block_xyz_loop.exec fuel k1 n1 segment1 = some tr1 ∧
      LoopExecute.cuda_block_xyz_loop.exec fuel k2 n2 segment2 = some tr2 ∧
      LoopICountExecute.cuda_block_xyz_loop.exec fuel k0 n0 segment0 = some c0 ∧
      LoopICountExecute.cuda_block_xyz_loop.exec fuel k1 n1 segment1 = some c1 ∧
      LoopExecute.cuda_block_xyz_loop2.exec fuel k0 n0 k1 n1 segment0 segment1 =
        some (tr0.flatMap (fun x => tr1.map (fun y => (x, y)))) ∧
      LoopExecute.cuda_block_xyz_loop3.exec fuel k0 n0 k1 n1 k2 n2 segment0 segment1 segment2 =
        some (tr0.flatMap (fun x => tr1.flatMap (fun y => tr2.map (fun z => (x, y, z))))) ∧
      LoopICountExecute.cuda_block_xyz_loop2.exec fuel k0 n0 k1 n1 segment0 segment1 =
        some (c0.flatMap (fun p => c1.map (fun q => ((p.1, q.1), (p.2, q.2))))) := by
  have hn0' : (1 : Int) ≤ (n0 : Int) := by exact_mod_cast hn0
  have hn1' : (1 : Int) ≤ (n1 : Int) := by exact_mod_cast hn1
  have hn2' : (1 : Int) ≤ (n2 : Int) := by exact_mod_cast hn2
  obtain ⟨l0, h0⟩ : ∃ l, forLoop (segment0.len.toNat + segment1.len.toNat + segment2.len.toNat)
      (k0 : Int) segment0.len (n0 : Int) = some l :=
    ⟨_, forLoop_closed (n0 : Int) hn0' segment0.len _ (k0 : Int) (by omega)⟩
  obtain ⟨l1, h1⟩ : ∃ l, forLoop (segment0.len.toNat + segment1.len.toNat + segment2.len.toNat)
      (k1 : Int) segment1.len (n1 : Int) = some l :=
    ⟨_, forLoop_closed (n1 : Int) hn1' segment1.len _ (k1 : Int) (by omega)⟩
  obtain ⟨l2, h2⟩ : ∃ l, forLoop (segment0.len.toNat + segment1.len.toNat + segment2.len.toNat)
      (k2 : Int) segment2.len (n2 : Int) = some l :=
    ⟨_, forLoop_closed (n2 : Int) hn2' segment2.len _ (k2 : Int) (by omega)⟩
  refine ⟨segment0.len.toNat + segment1.len.toNat + segment2.len.toNat,
    l0.map segment0.elem, l1.map segment1.elem, l2.map segment2.elem,
    l0.map (fun bx => (segment0.elem bx, bx)), l1.map (fun bx => (segment1.elem bx, bx)),
    ?_, ?_, ?_, ?_, ?_, ?_, ?_, ?_⟩
  · simp only [LoopExecute.cuda_block_xyz_loop.exec, h0, Option.map_some']
  · simp only [LoopExecute.cuda_block_xyz_loop.exec, h1, Option.map_some']
  · simp only [LoopExecute.cuda_block_xyz_loop.exec, h2, Option.map_some']
  · simp only [LoopICountExecute.cuda_block_xyz_loop.exec, h0, Option.map_some']
  · simp only [LoopICountExecute.cuda_block_xyz_loop.exec, h1, Option.map_some']
  · rw [flatMap_map_pair]
    exact loop2_nested _ _ _ _ _ _ _ _ _ h0 h1
      (fun x y => (segment0.elem x, segment1.elem y))
  · simp only [List.flatMap_map, List.map_map, Function.comp_def]
    exact loop3_nested _ _ _ _ _ _ _ _ _ _ _ _ _ h0 h1 h2
      (fun x y z => (segment0.elem x, segment1.elem y, segment2.elem z))
  · simp only [List.flatMap_map, List.map_map, Function.comp_def]
    exact loop2_nested _ _ _ _ _ _ _ _ _ h0 h1
      (fun x y => ((segment0.elem x, segment1.elem y), (x, y)))

/-! ## Counting body calls over a topology -/

theorem count_flatMap_range {α : Type} [BEq α] (x : α) (n : Nat) (f : Nat → List α) :
    ((List.range n).flatMap f).count x = ∑ k in Finset.range n, (f k).count x := by
  induction n with
  | zero => simp
  | succ m ih =>
    rw [List.range_succ, List.flatMap_append, List.count_append, ih, Finset.sum_range_succ,
      List.flatMap_singleton]

theorem length_flatMap_range {α : Type} (n : Nat) (f : Nat → List α) :
    ((List.range n).flatMap f).length = ∑ k in Finset.range n, (f k).length := by
  induction n with
  | zero => simp
  | succ m ih =>
    rw [List.range_succ, List.flatMap_append, List.length_append, ih, Finset.sum_range_succ,
      List.flatMap_singleton]

theorem count_map_pair {α β : Type} [BEq α] [LawfulBEq α] [BEq β] [LawfulBEq β]
    (a x : α) (b : β) (B : List β) :
    (B.map (fun y => (x, y))).count (a, b) = if x == a then B.count b else 0 := by
  induction B with
  | nil => simp
  | cons y t ih =>
    rw [List.map_cons, List.count_cons, ih, List.count_cons]
    by_cases hx : x = a
    · subst hx
      by_cases hy : y = b
      · subst hy; simp
      · simp [hy]
    · simp [hx]

theorem count_pairs {α β : Type} [BEq α] [LawfulBEq α] [BEq β] [LawfulBEq β]
    (a : α) (b : β) (A : List α) (B : List β) :
    (A.flatMap (fun x => B.map (fun y => (x, y)))).count (a, b) = A.count a * B.count b := by
  induction A with
  | nil => simp
  | cons x t ih =>
    rw [List.flatMap_cons, List.count_append, ih, List.count_cons, count_map_pair]
    by_cases hx : x = a
    · subst hx
      simp
      ring
    · simp [hx]

theorem length_pairs {α β : Type} (A : List α) (B : List β) :
    (A.flatMap (fun x => B.map (fun y => (x, y)))).length = A.length * B.length := by
  induction A with
  | nil => simp
  | cons x t ih =>
    rw [List.flatMap_cons, List.length_append, ih, List.length_map, List.length_cons]
    ring

theorem axis_count (segment : Segment) (n fuel : Nat) (hn : 1 ≤ n)
    (hf : segment.len ≤ (fuel : Int)) (x : Int) :
    ∑ k in Finset.range n,
        (((forLoop fuel (k : Int) segment.len (n : Int)).getD []).map segment.elem).count x =
      ((List.range segment.len.toNat).map
        (fun i : Nat => segment.begin.val + (i : Int))).count x := by
  have hn' : (1 : Int) ≤ (n : Int) := by exact_mod_cast hn
  have hfuel : ∀ k : Nat, forLoop fuel (k : Int) segment.len (n : Int) =
      forLoop segment.len.toNat (k : Int) segment.len (n : Int) :=
    fun k => forLoop_fuel_irrelevant (n : Int) hn' segment.len (k : Int) fuel
      segment.len.toNat (by omega) (by omega)
  by_cases hx : ∃ i : Nat, (i : Int) < segment.len ∧ x = segment.elem i
  · obtain ⟨i, hi, rfl⟩ := hx
    have hterm : ∀ k ∈ Finset.range n,
        (((forLoop fuel (k : Int) segment.len (n : Int)).getD []).map segment.elem).count
          (segment.elem i) = if k = i % n then 1 else 0 := by
      intro k hk
      obtain ⟨l, hl, _, hc⟩ := loop_trace segment k n hn
      rw [hfuel k, hl]
      exact hc (Finset.mem_range.1 hk) i hi
    rw [Finset.sum_congr rfl hterm, Finset.sum_ite_eq', Segment_elem_eq,
      count_offsets_range _ _ _ (by omega : i < segment.len.toNat)]
    simp [Nat.mod_lt i (by omega : 0 < n)]
  · have hterm : ∀ k ∈ Finset.range n,
        (((forLoop fuel (k : Int) segment.len (n : Int)).getD []).map segment.elem).count x
          = 0 := by
      intro k _
      obtain ⟨l, hl, hr, _⟩ := loop_trace segment k n hn
      rw [hfuel k, hl]
      exact List.count_eq_zero_of_not_mem (fun hm => hx (hr x hm))
    rw [Finset.sum_congr rfl hterm, Finset.sum_const_zero]
    symm
    apply List.count_eq_zero_of_not_mem
    intro hm
    obtain ⟨i, hi, hxi⟩ := List.mem_map.1 hm
    exact hx ⟨i, by have := List.mem_range.1 hi; omega, hxi.symm⟩

theorem axis_some (segment : Segment) (n fuel k : Nat) (hn : 1 ≤ n)
    (hf : segment.len ≤ (fuel : Int)) :
    forLoop fuel (k : Int) segment.len (n : Int) =
      some ((forLoop fuel (k : Int) segment.len (n : Int)).getD []) := by
  rw [forLoop_closed (n : Int) (by exact_mod_cast hn) segment.len fuel (k : Int) (by omega)]
  rfl

theorem axis_length (segment : Segment) (n fuel : Nat) (hn : 1 ≤ n)
    (hf : segment.len ≤ (fuel : Int)) :
    ∑ k in Finset.range n,
        (((forLoop fuel (k : Int) segment.len (n : Int)).getD []).map segment.elem).length =
      segment.len.toNat := by
  have hperm : List.Perm
      ((List.range n).flatMap (fun k : Nat =>
        ((forLoop fuel (k : Int) segment.len (n : Int)).getD []).map segment.elem))
      ((List.range segment.len.toNat).map (fun i : Nat => segment.begin.val + (i : Int))) := by
    rw [List.perm_iff_count]
    intro x
    rw [count_flatMap_range]
    exact axis_count segment n fuel hn hf x
  have hlen := hperm.length_eq
  rw [length_flatMap_range] at hlen
  simpa using hlen

theorem axis_pack (segment : Segment) (n fuel : Nat) (hn : 1 ≤ n)
    (hf : segment.len ≤ (fuel : Int)) :
    ∃ L : Nat → List Int,
      (∀ k : Nat, forLoop fuel (k : Int) segment.len (n : Int) = some (L k)) ∧
      (∀ x : Int, ∑ k in Finset.range n, ((L k).map segment.elem).count x =
        ((List.range segment.len.toNat).map
          (fun i : Nat => segment.begin.val + (i : Int))).count x) ∧
      ∑ k in Finset.range n, ((L k).map segment.elem).length = segment.len.toNat :=
  ⟨fun k => (forLoop fuel (k : Int) segment.len (n : Int)).getD [],
    fun k => axis_some segment n fuel k hn hf,
    fun x => axis_count segment n fuel hn hf x,
    axis_length segment n fuel hn hf⟩

theorem triple_regroup {α β γ : Type} (A : List α) (B : List β) (C : List γ) :
    A.flatMap (fun x => B.flatMap (fun y => C.map (fun z => (x, y, z)))) =
      A.flatMap (fun x => (B.flatMap (fun y => C.map (fun z => (y, z)))).map
        (fun p => (x, p))) := by
  simp [List.map_flatMap, List.map_map, Function.comp_def]

/-- With unbounded integers in place of the 32-bit `int` counters:
for resource counts `n0, n1, n2 ≥ 1` there is an amount of fuel with which the 2-D
and 3-D nested block loop dispatch return at every coordinate tuple of the topology; over
the whole topology the body is called exactly once for each index tuple of
`[0, len0) × [0, len1)` (`× [0, len2)`), and the total number of calls is the product of the
per-axis extents. -/
theorem loop_nd_coverage_exact (segment0 segment1 segment2 : Segment) (n0 n1 n2 : Nat)
    (hn0 : 1 ≤ n0) (hn1 : 1 ≤ n1) (hn2 : 1 ≤ n2) :
    ∃ (fuel : Nat) (tr2 : Nat → Nat → List (Int × Int))
      (tr3 : Nat → Nat → Nat → List (Int × Int × Int)),
      (∀ k0 k1 : Nat, k0 < n0 → k1 < n1 →
        LoopExecute.cuda_block_xyz_loop2.exec fuel k0 n0 k1 n1 segment0 segment1 =
          some (tr2 k0 k1)) ∧
      (∀ k0 k1 k2 : Nat, k0 < n0 → k1 < n1 → k2 < n2 →
        LoopExecute.cuda_block_xyz_loop3.exec fuel k0 n0 k1 n1 k2 n2
          segment0 segment1 segment2 = some (tr3 k0 k1 k2)) ∧
      (∀ i j : Nat, (i : Int) < segment0.len → (j : Int) < segment1.len →
        (runAxes2 n0 n1 tr2).count
          (segment0.begin.val + (i : Int), segment1.begin.val + (j : Int)) = 1) ∧
      (runAxes2 n0 n1 tr2).length = segment0.len.toNat * segment1.len.toNat ∧
      (∀ i j k : Nat, (i : Int) < segment0.len → (j : Int) < segment1.len →
        (k : Int) < segment2.len →
        (runAxes3 n0 n1 n2 tr3).count
          (segment0.begin.val + (i : Int), segment1.begin.val + (j : Int),
            segment2.begin.val + (k : Int)) = 1) ∧
      (runAxes3 n0 n1 n2 tr3).length =
        segment0.len.toNat * segment1.len.toNat * segment2.len.toNat := by
  have hf0 : segment0.len ≤
      ((segment0.len.toNat + segment1.len.toNat + segment2.len.toNat : Nat) : Int) := by omega
  have hf1 : segment1.len ≤
      ((segment0.len.toNat + segment1.len.toNat + segment2.len.toNat : Nat) : Int) := by omega
  have hf2 : segment2.len ≤
      ((segment0.len.toNat + segment1.len.toNat + segment2.len.toNat : Nat) : Int) := by omega
  generalize segment0.len.toNat + segment1.len.toNat + segment2.len.toNat = fuel at hf0 hf1 hf2
  obtain ⟨L0, hs0, hc0, hl0⟩ := axis_pack segment0 n0 fuel hn0 hf0
  obtain ⟨L1, hs1, hc1, hl1⟩ := axis_pack segment1 n1 fuel hn1 hf1
  obtain ⟨L2, hs2, hc2, hl2⟩ := axis_pack segment2 n2 fuel hn2 hf2
  refine ⟨fuel,
    fun k0 k1 => ((L0 k0).map segment0.elem).flatMap (fun x =>
      ((L1 k1).map segment1.elem).map (fun y => (x, y))),
    fun k0 k1 k2 => ((L0 k0).map segment0.elem).flatMap (fun x =>
      ((L1 k1).map segment1.elem).flatMap (fun y =>
        ((L2 k2).map segment2.elem).map (fun z => (x, y, z)))), ?_, ?_, ?_, ?_, ?_, ?_⟩
  · intro k0 k1 _ _
    simp only [List.flatMap_map, List.map_map, Function.comp_def]
    exact loop2_nested fuel _ _ _ _ _ _ _ _ (hs0 k0) (hs1 k1)
      (fun x y => (segment0.elem x, segment1.elem y))
  · intro k0 k1 k2 _ _ _
    simp only [List.flatMap_map, List.map_map, Function.comp_def]
    exact loop3_nested fuel _ _ _ _ _ _ _ _ _ _ _ _ (hs0 k0) (hs1 k1) (hs2 k2)
      (fun x y z => (segment0.elem x, segment1.elem y, segment2.elem z))
  · intro i j hi hj
    unfold runAxes2
    rw [count_flatMap_range]
    simp only [count_flatMap_range, count_pairs]
    rw [← Finset.sum_mul_sum, hc0, hc1,
      count_offsets_range _ _ _ (by omega : i < segment0.len.toNat),
      count_offsets_range _ _ _ (by omega : j < segment1.len.toNat)]
    rfl
  · unfold runAxes2
    rw [length_flatMap_range]
    simp only [length_flatMap_range, length_pairs]
    rw [← Finset.sum_mul_sum, hl0, hl1]
  · intro i j k hi hj hk
    unfold runAxes3
    rw [count_flatMap_range]
    simp only [count_flatMap_range, triple_regroup, count_pairs]
    simp only [← Finset.mul_sum, ← Finset.sum_mul]
    rw [hc0, hc1, hc2,
      count_offsets_range _ _ _ (by omega : i < segment0.len.toNat),
      count_offsets_range _ _ _ (by omega : j < segment1.len.toNat),
      count_offsets_range _ _ _ (by omega : k < segment2.len.toNat)]
    rfl
  · unfold runAxes3
    rw [length_flatMap_range]
    simp only [length_flatMap_range, triple_regroup, length_pairs, List.length_map]
    simp only [← Finset.mul_sum, ← Finset.sum_mul]
    simp only [List.length_map] at hl0 hl1 hl2
    rw [hl0, hl1, hl2]
    ring

/-! ## Tile dispatch -/

theorem forLoop_scale (T len m n : Int) (hm : ∀ z : Int, z * T < len ↔ z < m) :
    ∀ (fuel : Nat) (t : Int),
      forLoop fuel (t * T) len (n * T) =
        (forLoop fuel t m n).map (fun l => l.map (fun q => q * T)) := by
  intro fuel
  induction fuel with
  | zero =>
    intro t
    by_cases h : t < m
    · simp [forLoop, h, (hm t).2 h]
    · simp [forLoop, h, (hm t).not.2 h]
  | succ f ih =>
    intro t
    have hstep : t * T + n * T = (t + n) * T := by ring
    by_cases h : t < m
    · simp only [forLoop, if_pos h, if_pos ((hm t).2 h), hstep, ih (t + n)]
      cases forLoop f (t + n) m n <;> simp
    · simp [forLoop, h, (hm t).not.2 h]

theorem axis_perm (len : Int) (n fuel : Nat) (hn : 1 ≤ n) (hf : len ≤ (fuel : Int)) :
    ∃ L : Nat → List Int,
      (∀ k : Nat, forLoop fuel (k : Int) len (n : Int) = some (L k)) ∧
      List.Perm ((List.range n).flatMap L) ((List.range len.toNat).map (fun i : Nat => (i : Int))) := by
  have hlen : Segment.len ⟨⟨0⟩, ⟨len⟩⟩ = len := by
    simp [Segment.len, numeric_iterator.sub]
  have helem : Segment.elem ⟨⟨0⟩, ⟨len⟩⟩ = fun t => t := by
    funext t
    simp [Segment_elem_eq]
  obtain ⟨L, hs, hc, _⟩ := axis_pack ⟨⟨0⟩, ⟨len⟩⟩ n fuel hn (by rw [hlen]; exact hf)
  rw [hlen] at hs hc
  refine ⟨L, hs, ?_⟩
  rw [List.perm_iff_count]
  intro x
  rw [count_flatMap_range]
  have := hc x
  simpa [helem] using this

theorem tile_lt_iff (T len : Int) (hT : 1 ≤ T) (z : Int) :
    z * T < len ↔ z < ⌈(len : ℚ) / (T : ℚ)⌉ := by
  rw [ceil_div_eq_loopCount len T hT, lt_loopCount_iff len T z hT]

theorem tile_loop_run (segment : Segment) (T : Int) (n : Nat) (hlen : 0 ≤ segment.len)
    (hT : 1 ≤ T) (hn : 1 ≤ n) :
    ∃ (fuel : Nat) (tr : Nat → List (Int × Int)),
      (∀ k : Nat,
        TileExecute.cuda_thread_xyz_loop.exec fuel k n T segment = some (tr k) ∧
        TileExecute.cuda_block_xyz_loop.exec fuel k n T segment = some (tr k)) ∧
      List.Perm (runAxis n tr)
        ((List.range ⌈(segment.len : ℚ) / (T : ℚ)⌉.toNat).map
          (fun q : Nat => ((q : Int) * T, T))) := by
  have hm := tile_lt_iff T segment.len hT
  have hmle : ⌈(segment.len : ℚ) / (T : ℚ)⌉ ≤ segment.len := by
    by_contra hcon
    have h1 := (hm segment.len).2 (by omega)
    have h2 : segment.len * 1 ≤ segment.len * T := Int.mul_le_mul_of_nonneg_left hT hlen
    omega
  obtain ⟨L, hs, hperm⟩ := axis_perm ⌈(segment.len : ℚ) / (T : ℚ)⌉ n segment.len.toNat hn
    (by omega)
  have hexec : ∀ k : Nat,
      forLoop segment.len.toNat ((k : Int) * T) segment.len ((n : Int) * T) =
        some ((L k).map (fun q => q * T)) := by
    intro k
    rw [forLoop_scale T segment.len _ (n : Int) hm, hs k]
    rfl
  have hperm2 := hperm.map (fun q : Int => (q * T, T))
  refine ⟨segment.len.toNat, fun k => (L k).map (fun q => (q * T, T)), ?_, ?_⟩
  · intro k
    simp [TileExecute.cuda_thread_xyz_loop.exec, TileExecute.cuda_block_xyz_loop.exec,
      hexec k, List.map_map, Function.comp_def]
  · have hrun : runAxis n (fun k => (L k).map (fun q => (q * T, T))) =
        ((List.range n).flatMap L).map (fun q : Int => (q * T, T)) := by
      simp [runAxis, List.map_flatMap]
    rw [hrun]
    simpa [List.map_map, Function.comp_def] using hperm2

theorem slice_begin (segment : Segment) (offset size : Int) :
    (segment.slice offset size).begin.val = segment.begin.val + offset := rfl

theorem slice_end (segment : Segment) (offset size : Int) :
    (segment.slice offset size).end_.val =
      min (segment.begin.val + offset + size) segment.end_.val := rfl

theorem segment_end_eq (segment : Segment) :
    segment.end_.val = segment.begin.val + segment.len := by
  simp [Segment.len, numeric_iterator.sub]

/-- With unbounded integers in place of the 32-bit `int` counters:
with `slice(offset, size)` returning the sub-range `[offset, min(offset + size, len))`,
for a segment of length `len ≥ 0`, a tile size `T ≥ 1` and `n ≥ 1` groups, the tiles given to
the body by the block-loop tile dispatch over the whole axis are, up to order, the `⌈len / T⌉`
tiles `slice(q * T, T)`; these are contiguous (each ends where the next begins, the first
begins at `begin()`, the last ends at `end()`), non-empty and pairwise disjoint, cover every
index of `[0, len)`, have size `T` except the last, of size `len - (⌈len / T⌉ - 1) * T`, and
none extends past the segment. -/
theorem tile_partition_exact (segment : Segment) (T : Int) (n : Nat) (hlen : 0 ≤ segment.len)
    (hT : 1 ≤ T) (hn : 1 ≤ n) :
    ∃ (fuel : Nat) (tr : Nat → List (Int × Int)),
      (∀ k : Nat, k < n →
        TileExecute.cuda_block_xyz_loop.exec fuel k n T segment = some (tr k)) ∧
      List.Perm ((runAxis n tr).map (fun c => segment.slice c.1 c.2))
        ((List.range ⌈(segment.len : ℚ) / (T : ℚ)⌉.toNat).map
          (fun q : Nat => segment.slice ((q : Int) * T) T)) ∧
      (∀ q : Nat, (q : Int) < ⌈(segment.len : ℚ) / (T : ℚ)⌉ →
        (segment.slice ((q : Int) * T) T).begin.val = segment.begin.val + (q : Int) * T ∧
        ((q : Int) + 1 < ⌈(segment.len : ℚ) / (T : ℚ)⌉ →
          (segment.slice ((q : Int) * T) T).end_.val =
            (segment.slice (((q + 1 : Nat) : Int) * T) T).begin.val ∧
          (segment.slice ((q : Int) * T) T).len = T) ∧
        ((q : Int) + 1 = ⌈(segment.len : ℚ) / (T : ℚ)⌉ →
          (segment.slice ((q : Int) * T) T).end_ = segment.end_ ∧
          (segment.slice ((q : Int) * T) T).len =
            segment.len - (⌈(segment.len : ℚ) / (T : ℚ)⌉ - 1) * T) ∧
        0 < (segment.slice ((q : Int) * T) T).len ∧
        (segment.slice ((q : Int) * T) T).len ≤ T ∧
        (segment.slice ((q : Int) * T) T).end_.val ≤ segment.end_.val) ∧
      (∀ i : Int, 0 ≤ i → i < segment.len →
        ∃ q : Nat, (q : Int) < ⌈(segment.len : ℚ) / (T : ℚ)⌉ ∧
          (segment.slice ((q : Int) * T) T).begin.val ≤ segment.begin.val + i ∧
          segment.begin.val + i < (segment.slice ((q : Int) * T) T).end_.val) ∧
      (∀ q q' : Nat, q < q' → (q' : Int) < ⌈(segment.len : ℚ) / (T : ℚ)⌉ →
        (segment.slice ((q : Int) * T) T).end_.val ≤
          (segment.slice ((q' : Int) * T) T).begin.val) := by
  have hm := tile_lt_iff T segment.len hT
  have hend := segment_end_eq segment
  obtain ⟨fuel, tr, hexec, hperm⟩ := tile_loop_run segment T n hlen hT hn
  refine ⟨fuel, tr, fun k _ => (hexec k).2, ?_, ?_, ?_, ?_⟩
  · have := hperm.map (fun c : Int × Int => segment.slice c.1 c.2)
    simpa [List.map_map, Function.comp_def] using this
  · intro q hq
    have hqlt := (hm (q : Int)).2 hq
    have hsucc : ((q + 1 : Nat) : Int) * T = (q : Int) * T + T := by push_cast; ring
    have hsucc' : ((q : Int) + 1) * T = (q : Int) * T + T := by ring
    refine ⟨rfl, ?_, ?_, ?_, ?_, ?_⟩
    · intro hq1
      have h1 := (hm ((q : Int) + 1)).2 hq1
      rw [hsucc'] at h1
      have hmin : min (segment.begin.val + (q : Int) * T + T) segment.end_.val =
          segment.begin.val + (q : Int) * T + T := min_eq_left (by omega)
      constructor
      · rw [slice_end, slice_begin, hmin, hsucc]; ring
      · simp only [Segment.len, numeric_iterator.sub, slice_end, slice_begin, hmin]; ring
    · intro hq1
      have h1 := (hm ((q : Int) + 1)).not.2 (by omega)
      rw [hsucc'] at h1
      have hmin : min (segment.begin.val + (q : Int) * T + T) segment.end_.val =
          segment.end_.val := min_eq_right (by omega)
      have hM : (⌈(segment.len : ℚ) / (T : ℚ)⌉ - 1) * T = (q : Int) * T := by
        rw [← hq1]; ring
      constructor
      · have : (segment.slice ((q : Int) * T) T).end_.val = segment.end_.val := by
          rw [slice_end, hmin]
        cases hse : (segment.slice ((q : Int) * T) T).end_
        cases hse2 : segment.end_
        simp only [hse, hse2] at this
        rw [this]
      · simp only [Segment.len, numeric_iterator.sub, slice_end, slice_begin, hmin, hM] at *
        omega
    · simp only [Segment.len, numeric_iterator.sub, slice_end, slice_begin]
      rcases le_total (segment.begin.val + (q : Int) * T + T) segment.end_.val with h | h
      · rw [min_eq_left h]; omega
      · rw [min_eq_right h]; omega
    · simp only [Segment.len, numeric_iterator.sub, slice_end, slice_begin]
      rcases le_total (segment.begin.val + (q : Int) * T + T) segment.end_.val with h | h
      · rw [min_eq_left h]; omega
      · rw [min_eq_right h]; omega
    · rw [slice_end]
      exact min_le_right _ _
  · intro i hi0 hil
    have hT0 : 0 < T := by omega
    have hq0 : 0 ≤ i / T := Int.ediv_nonneg hi0 (by omega)
    have h1 : i / T * T ≤ i := Int.ediv_mul_le i (by omega)
    have h2 : i < (i / T + 1) * T := Int.lt_ediv_add_one_mul_self i hT0
    have h2' : (i / T + 1) * T = i / T * T + T := by ring
    have hcast : (((i / T).toNat : Nat) : Int) = i / T := Int.toNat_of_nonneg hq0
    refine ⟨(i / T).toNat, ?_, ?_, ?_⟩
    · rw [hcast]
      exact (hm (i / T)).1 (by omega)
    · rw [slice_begin, hcast]; omega
    · rw [slice_end, hcast]
      rcases le_total (segment.begin.val + i / T * T + T) segment.end_.val with h | h
      · rw [min_eq_left h]; omega
      · rw [min_eq_right h]; omega
  · intro q q' hqq _
    have h1 : ((q : Int) + 1) * T ≤ (q' : Int) * T :=
      Int.mul_le_mul_of_nonneg_right (by exact_mod_cast hqq) (by omega)
    have h2 : ((q : Int) + 1) * T = (q : Int) * T + T := by ring
    rw [slice_end, slice_begin]
    have := min_le_left (segment.begin.val + (q : Int) * T + T) segment.end_.val
    omega

theorem forLoop_bounds (len step : Int) (hstep : 0 ≤ step) :
    ∀ (fuel : Nat) (t : Int) (l : List Int), 0 ≤ t → forLoop fuel t len step = some l →
      ∀ x ∈ l, 0 ≤ x ∧ x < len := by
  intro fuel
  induction fuel with
  | zero =>
    intro t l _ hl x hx
    by_cases hlt : t < len
    · simp [forLoop, hlt] at hl
    · simp only [forLoop, if_neg hlt, Option.some.injEq] at hl
      subst hl
      simp at hx
  | succ f ih =>
    intro t l ht hl x hx
    by_cases hlt : t < len
    · simp only [forLoop, if_pos hlt, Option.map_eq_some'] at hl
      obtain ⟨r, hr, rfl⟩ := hl
      rcases List.mem_cons.1 hx with rfl | hxr
      · exact ⟨ht, hlt⟩
      · exact ih (t + step) r (by omega) hr x hxr
    · simp only [forLoop, if_neg hlt, Option.some.injEq] at hl
      subst hl
      simp at hx

/-! ## Tile size zero -/

theorem tile_icount_loop (len T : Int) (c n : Nat) (hT : 1 ≤ T) (hn : 1 ≤ n) :
    ∃ m : Nat,
      (forLoop len.toNat ((c : Int) * T) len ((n : Int) * T)).map
          (fun l => l.map (fun tx => ((tx, T), Int.tdiv tx T))) =
        some ((List.range m).map (fun j : Nat =>
          ((((c : Int) + (j : Int) * (n : Int)) * T, T), (c : Int) + (j : Int) * (n : Int)))) ∧
      ∀ j : Nat, j < m → ((c : Int) + (j : Int) * (n : Int)) * T < len := by
  have hstep : 1 ≤ (n : Int) * T := by
    have : 0 < (n : Int) * T := Int.mul_pos (by exact_mod_cast hn) (by omega)
    omega
  have hk : 0 ≤ (c : Int) * T := Int.mul_nonneg (by omega) (by omega)
  have hclosed := forLoop_closed _ hstep len len.toNat ((c : Int) * T) (by omega)
  refine ⟨((len - (c : Int) * T + (n : Int) * T - 1) / ((n : Int) * T)).toNat, ?_, ?_⟩
  · rw [hclosed]
    simp only [Option.map_some', List.map_map, Option.some.injEq]
    apply List.map_congr_left
    intro j _
    have hval : (c : Int) * T + (j : Int) * ((n : Int) * T) =
        ((c : Int) + (j : Int) * (n : Int)) * T := by ring
    simp only [Function.comp_apply, hval]
    rw [Int.mul_tdiv_cancel _ (by omega : T ≠ 0)]
  · intro j hj
    have h := (lt_loopCount_iff (len - (c : Int) * T) ((n : Int) * T) (j : Int) hstep).1
      (by omega)
    have hval : ((c : Int) + (j : Int) * (n : Int)) * T =
        (c : Int) * T + (j : Int) * ((n : Int) * T) := by ring
    rw [hval]
    omega

/-- With unbounded integers in place of the 32-bit `int` counters:
for a tile size `T ≥ 1`, a coordinate `c` and a resource count `n ≥ 1`, every call
made by a `TileICountExecute` variant passes the tile `slice(offset, T)` with a tile index `i`
such that `offset = i * T` (so `offset % T = 0`) and `0 ≤ i < ⌈len / T⌉`; in direct mode
`i = c`, and the loop variants return with their `j`-th call having `i = c + j * n`. -/
theorem tile_icount_index_exact (segment : Segment) (T : Int) (c n : Nat) (hT : 1 ≤ T)
    (hn : 1 ≤ n) :
    (∀ e ∈ TileICountExecute.cuda_thread_xyz_direct.exec c T segment,
      e = (((c : Int) * T, T), (c : Int)) ∧ e.1.1 = e.2 * T ∧ Int.tmod e.1.1 T = 0 ∧
        0 ≤ e.2 ∧ e.2 < ⌈(segment.len : ℚ) / (T : ℚ)⌉) ∧
    (∀ e ∈ TileICountExecute.cuda_block_xyz_direct.exec c T segment,
      e = (((c : Int) * T, T), (c : Int)) ∧ e.1.1 = e.2 * T ∧ Int.tmod e.1.1 T = 0 ∧
        0 ≤ e.2 ∧ e.2 < ⌈(segment.len : ℚ) / (T : ℚ)⌉) ∧
    ∃ (fuel m : Nat),
      TileICountExecute.cuda_thread_xyz_loop.exec fuel c n T segment =
        some ((List.range m).map (fun j : Nat =>
          ((((c : Int) + (j : Int) * (n : Int)) * T, T), (c : Int) + (j : Int) * (n : Int)))) ∧
      TileICountExecute.cuda_block_xyz_loop.exec fuel c n T segment =
        some ((List.range m).map (fun j : Nat =>
          ((((c : Int) + (j : Int) * (n : Int)) * T, T), (c : Int) + (j : Int) * (n : Int)))) ∧
      ∀ j : Nat, j < m →
        Int.tmod (((c : Int) + (j : Int) * (n : Int)) * T) T = 0 ∧
        0 ≤ (c : Int) + (j : Int) * (n : Int) ∧
        (c : Int) + (j : Int) * (n : Int) < ⌈(segment.len : ℚ) / (T : ℚ)⌉ := by
  have hm := tile_lt_iff T segment.len hT
  have hdirect : ∀ e : (Int × Int) × Int,
      e ∈ (if (c : Int) * T < segment.len then
        [(((c : Int) * T, T), Int.tdiv ((c : Int) * T) T)] else []) →
      e = (((c : Int) * T, T), (c : Int)) ∧ e.1.1 = e.2 * T ∧ Int.tmod e.1.1 T = 0 ∧
        0 ≤ e.2 ∧ e.2 < ⌈(segment.len : ℚ) / (T : ℚ)⌉ := by
    intro e he
    by_cases hlt : (c : Int) * T < segment.len
    · rw [if_pos hlt, List.mem_singleton, Int.mul_tdiv_cancel _ (by omega : T ≠ 0)] at he
      subst he
      exact ⟨rfl, rfl, Int.mul_tmod_left _ _, by omega, (hm (c : Int)).1 hlt⟩
    · rw [if_neg hlt] at he
      simp at he
  obtain ⟨m, hloop, hlt⟩ := tile_icount_loop segment.len T c n hT hn
  refine ⟨fun e he => hdirect e he, fun e he => hdirect e he, segment.len.toNat, m, hloop,
    hloop, ?_⟩
  intro j hj
  have hnn : 0 ≤ (j : Int) * (n : Int) := Int.mul_nonneg (by omega) (by omega)
  exact ⟨Int.mul_tmod_left _ _, by omega, (hm _).1 (hlt j hj)⟩

/-! ## Launch -/

/-- C17 as stated fails for a negative count: with the conversion to a 32-bit unsigned
member, the context with group counts `(-1, 1, 1)` and lane counts `(1, 1, 1)` passes the
test (`-1` converts to `4294967295`), and `exec` requests a launch and a synchronize although
one of the six counts is not strictly positive. -/
theorem C17_counterexample :
    LaunchExecute.cuda_launch_t.exec toUnsigned32 false 0 ⟨⟨-1, 1, 1⟩, ⟨1, 1, 1⟩⟩ =
      [RuntimeCall.launch Kernel.launch_global_fcn ⟨4294967295, 1, 1⟩ ⟨1, 1, 1⟩ 0 0,
        RuntimeCall.synchronize 0] ∧
    ¬ (0 < (⟨-1, 1, 1⟩ : Teams).value0) := by
  decide

/-- C17 (amended): each `exec` variant requests a launch if and only if all six topology
counts, once converted by `static_cast<cuda_dim_member_t>`, are strictly positive; otherwise
it makes no request at all (no launch, no synchronize, hence no body invocation) and returns.
In particular, when the conversion maps `0` to `0`, a count equal to zero on any of the six
axes gives no request and no body invocation. -/
theorem C17_launch_viability (static_cast_member : Int → Int) (async : Bool)
    (nthreads stream : Nat) (ctx : LaunchContext) :
    ((0 < static_cast_member ctx.teams.value0 ∧ 0 < static_cast_member ctx.teams.value1 ∧
        0 < static_cast_member ctx.teams.value2 ∧ 0 < static_cast_member ctx.threads.value0 ∧
        0 < static_cast_member ctx.threads.value1 ∧
        0 < static_cast_member ctx.threads.value2) →
      (LaunchExecute.cuda_launch_t.exec static_cast_member async stream ctx).any
          RuntimeCall.isLaunch = true ∧
      (LaunchExecute.cuda_launch_t.exec_res static_cast_member async stream ctx).any
          RuntimeCall.isLaunch = true ∧
      (LaunchExecute.cuda_launch_t_nthreads.exec static_cast_member async nthreads stream
          ctx).any RuntimeCall.isLaunch = true) ∧
    (¬ (0 < static_cast_member ctx.teams.value0 ∧ 0 < static_cast_member ctx.teams.value1 ∧
        0 < static_cast_member ctx.teams.value2 ∧ 0 < static_cast_member ctx.threads.value0 ∧
        0 < static_cast_member ctx.threads.value1 ∧
        0 < static_cast_member ctx.threads.value2) →
      LaunchExecute.cuda_launch_t.exec static_cast_member async stream ctx = [] ∧
      LaunchExecute.cuda_launch_t.exec_res static_cast_member async stream ctx = [] ∧
      LaunchExecute.cuda_launch_t_nthreads.exec static_cast_member async nthreads stream ctx
        = []) ∧
    (static_cast_member 0 = 0 →
      (ctx.teams.value0 = 0 ∨ ctx.teams.value1 = 0 ∨ ctx.teams.value2 = 0 ∨
        ctx.threads.value0 = 0 ∨ ctx.threads.value1 = 0 ∨ ctx.threads.value2 = 0) →
      LaunchExecute.cuda_launch_t.exec static_cast_member async stream ctx = [] ∧
      LaunchExecute.cuda_launch_t.exec_res static_cast_member async stream ctx = [] ∧
      LaunchExecute.cuda_launch_t_nthreads.exec static_cast_member async nthreads stream ctx
        = [] ∧
      bodyInvocations
        (LaunchExecute.cuda_launch_t.exec static_cast_member async stream ctx) = 0 ∧
      bodyInvocations
        (LaunchExecute.cuda_launch_t.exec_res static_cast_member async stream ctx) = 0 ∧
      bodyInvocations
        (LaunchExecute.cuda_launch_t_nthreads.exec static_cast_member async nthreads stream
          ctx) = 0) := by
  have hnot : ¬ (0 < static_cast_member ctx.teams.value0 ∧
        0 < static_cast_member ctx.teams.value1 ∧
        0 < static_cast_member ctx.teams.value2 ∧ 0 < static_cast_member ctx.threads.value0 ∧
        0 < static_cast_member ctx.threads.value1 ∧
        0 < static_cast_member ctx.threads.value2) →
      LaunchExecute.cuda_launch_t.exec static_cast_member async stream ctx = [] ∧
      LaunchExecute.cuda_launch_t.exec_res static_cast_member async stream ctx = [] ∧
      LaunchExecute.cuda_launch_t_nthreads.exec static_cast_member async nthreads stream ctx
        = [] := by
    intro h
    simp only [LaunchExecute.cuda_launch_t.exec, LaunchExecute.cuda_launch_t.exec_res,
      LaunchExecute.cuda_launch_t_nthreads.exec, gt_iff_lt, if_neg h, and_self]
  refine ⟨?_, hnot, ?_⟩
  · intro h
    simp only [LaunchExecute.cuda_launch_t.exec, LaunchExecute.cuda_launch_t.exec_res,
      LaunchExecute.cuda_launch_t_nthreads.exec, gt_iff_lt, if_pos h]
    simp [RuntimeCall.isLaunch]
  · intro h0 hz
    have hv : ¬ (0 < static_cast_member ctx.teams.value0 ∧
        0 < static_cast_member ctx.teams.value1 ∧
        0 < static_cast_member ctx.teams.value2 ∧ 0 < static_cast_member ctx.threads.value0 ∧
        0 < static_cast_member ctx.threads.value1 ∧
        0 < static_cast_member ctx.threads.value2) := by
      rintro ⟨h1, h2, h3, h4, h5, h6⟩
      rcases hz with hz | hz | hz | hz | hz | hz
      · rw [hz, h0] at h1; omega
      · rw [hz, h0] at h2; omega
      · rw [hz, h0] at h3; omega
      · rw [hz, h0] at h4; omega
      · rw [hz, h0] at h5; omega
      · rw [hz, h0] at h6; omega
    obtain ⟨e1, e2, e3⟩ := hnot hv
    rw [e1, e2, e3]
    exact ⟨rfl, rfl, rfl, rfl, rfl, rfl⟩

theorem C17_launch_viability_witness :
    LaunchExecute.cuda_launch_t.exec toUnsigned32 false 7 ⟨⟨4, 0, 1⟩, ⟨32, 1, 1⟩⟩ = [] ∧
    LaunchExecute.cuda_launch_t.exec_res toUnsigned32 false 7 ⟨⟨4, 0, 1⟩, ⟨32, 1, 1⟩⟩ = [] ∧
    LaunchExecute.cuda_launch_t_nthreads.exec toUnsigned32 false 128 7
      ⟨⟨4, 0, 1⟩, ⟨32, 1, 1⟩⟩ = [] ∧
    bodyInvocations
      (LaunchExecute.cuda_launch_t.exec toUnsigned32 false 7 ⟨⟨4, 0, 1⟩, ⟨32, 1, 1⟩⟩) = 0 ∧
    bodyInvocations
      (LaunchExecute.cuda_launch_t.exec_res toUnsigned32 false 7 ⟨⟨4, 0, 1⟩, ⟨32, 1, 1⟩⟩)
        = 0 ∧
    bodyInvocations
      (LaunchExecute.cuda_launch_t_nthreads.exec toUnsigned32 false 128 7
        ⟨⟨4, 0, 1⟩, ⟨32, 1, 1⟩⟩) = 0 :=
  (C17_launch_viability toUnsigned32 false 128 7 ⟨⟨4, 0, 1⟩, ⟨32, 1, 1⟩⟩).2.2 (by decide)
    (Or.inr (Or.inl rfl))

/-- C18: on a viable topology (all six counts strictly positive, within the range of `int`,
which the conversion to the launch-dimension member type preserves) each `exec` variant
makes exactly one launch request, with group counts `(teams.value[0..2])` and lane counts
`(threads.value[0..2])`, followed by exactly one synchronize on the same stream when `async`
is false and by nothing when `async` is true. -/
theorem C18_launch_sequencing (static_cast_member : Int → Int) (async : Bool)
    (nthreads stream : Nat) (ctx : LaunchContext)
    (hcast : ∀ v : Int, 0 < v → v ≤ 2147483647 → static_cast_member v = v)
    (hteams : (0 < ctx.teams.value0 ∧ ctx.teams.value0 ≤ 2147483647) ∧
      (0 < ctx.teams.value1 ∧ ctx.teams.value1 ≤ 2147483647) ∧
      (0 < ctx.teams.value2 ∧ ctx.teams.value2 ≤ 2147483647))
    (hthreads : (0 < ctx.threads.value0 ∧ ctx.threads.value0 ≤ 2147483647) ∧
      (0 < ctx.threads.value1 ∧ ctx.threads.value1 ≤ 2147483647) ∧
      (0 < ctx.threads.value2 ∧ ctx.threads.value2 ≤ 2147483647)) :
    LaunchExecute.cuda_launch_t.exec static_cast_member async stream ctx =
      RuntimeCall.launch Kernel.launch_global_fcn
        ⟨ctx.teams.value0, ctx.teams.value1, ctx.teams.value2⟩
        ⟨ctx.threads.value0, ctx.threads.value1, ctx.threads.value2⟩ 0 stream ::
        (if async = true then [] else [RuntimeCall.synchronize stream]) ∧
    LaunchExecute.cuda_launch_t.exec_res static_cast_member async stream ctx =
      RuntimeCall.launch Kernel.launch_global_fcn
        ⟨ctx.teams.value0, ctx.teams.value1, ctx.teams.value2⟩
        ⟨ctx.threads.value0, ctx.threads.value1, ctx.threads.value2⟩ 0 stream ::
        (if async = true then [] else [RuntimeCall.synchronize stream]) ∧
    LaunchExecute.cuda_launch_t_nthreads.exec static_cast_member async nthreads stream ctx =
      RuntimeCall.launch (Kernel.launch_global_fcn_fixed nthreads)
        ⟨ctx.teams.value0, ctx.teams.value1, ctx.teams.value2⟩
        ⟨ctx.threads.value0, ctx.threads.value1, ctx.threads.value2⟩ 0 stream ::
        (if async = true then [] else [RuntimeCall.synchronize stream]) := by
  obtain ⟨⟨a0, a1⟩, ⟨b0, b1⟩, ⟨c0, c1⟩⟩ := hteams
  obtain ⟨⟨d0, d1⟩, ⟨e0, e1⟩, ⟨f0, f1⟩⟩ := hthreads
  have hv : 0 < ctx.teams.value0 ∧ 0 < ctx.teams.value1 ∧ 0 < ctx.teams.value2 ∧
      0 < ctx.threads.value0 ∧ 0 < ctx.threads.value1 ∧ 0 < ctx.threads.value2 :=
    ⟨a0, b0, c0, d0, e0, f0⟩
  simp only [LaunchExecute.cuda_launch_t.exec, LaunchExecute.cuda_launch_t.exec_res,
    LaunchExecute.cuda_launch_t_nthreads.exec, hcast _ a0 a1, hcast _ b0 b1, hcast _ c0 c1,
    hcast _ d0 d1, hcast _ e0 e1, hcast _ f0 f1, gt_iff_lt, if_pos hv]
  cases async <;> simp

theorem toUnsigned32_of_int_pos (v : Int) (h0 : 0 < v) (h1 : v ≤ 2147483647) :
    toUnsigned32 v = v := by
  unfold toUnsigned32
  omega

theorem C18_launch_sequencing_witness :
    LaunchExecute.cuda_launch_t.exec toUnsigned32 false 7 ⟨⟨4, 2, 1⟩, ⟨32, 8, 1⟩⟩ =
      RuntimeCall.launch Kernel.launch_global_fcn ⟨4, 2, 1⟩ ⟨32, 8, 1⟩ 0 7 ::
        (if false = true then [] else [RuntimeCall.synchronize 7]) ∧
    LaunchExecute.cuda_launch_t.exec_res toUnsigned32 false 7 ⟨⟨4, 2, 1⟩, ⟨32, 8, 1⟩⟩ =
      RuntimeCall.launch Kernel.launch_global_fcn ⟨4, 2, 1⟩ ⟨32, 8, 1⟩ 0 7 ::
        (if false = true then [] else [RuntimeCall.synchronize 7]) ∧
    LaunchExecute.cuda_launch_t_nthreads.exec toUnsigned32 false 128 7
        ⟨⟨4, 2, 1⟩, ⟨32, 8, 1⟩⟩ =
      RuntimeCall.launch (Kernel.launch_global_fcn_fixed 128) ⟨4, 2, 1⟩ ⟨32, 8, 1⟩ 0 7 ::
        (if false = true then [] else [RuntimeCall.synchronize 7]) :=
  C18_launch_sequencing toUnsigned32 false 128 7 ⟨⟨4, 2, 1⟩, ⟨32, 8, 1⟩⟩
    toUnsigned32_of_int_pos (by decide) (by decide)

/-! ## Cursor arithmetic -/

/-- C24: for a strided cursor with offset `v` and stride `s` and an integer `k`:
dereference yields `v`; `it + k` dereferences to `v + k * s` and `it - k` to `v - k * s`;
`it[k]` is `v + k * s`; `it += k` leaves the cursor at `v + k * s` with the stride unchanged
(likewise `it -= k` at `v - k * s`); `++it` and `--it` move the offset by `+s` and `-s` and
keep the stride. -/
theorem C24_strided_advance (v s k : Int) :
    strided_numeric_iterator.deref ⟨v, s⟩ = v ∧
    strided_numeric_iterator.deref (strided_numeric_iterator.addOffset ⟨v, s⟩ k) = v + k * s ∧
    strided_numeric_iterator.deref (strided_numeric_iterator.subOffset ⟨v, s⟩ k) = v - k * s ∧
    strided_numeric_iterator.index ⟨v, s⟩ k = v + k * s ∧
    strided_numeric_iterator.addAssign ⟨v, s⟩ k = ⟨v + k * s, s⟩ ∧
    strided_numeric_iterator.subAssign ⟨v, s⟩ k = ⟨v - k * s, s⟩ ∧
    strided_numeric_iterator.inc ⟨v, s⟩ = ⟨v + s, s⟩ ∧
    strided_numeric_iterator.dec ⟨v, s⟩ = ⟨v - s, s⟩ :=
  ⟨rfl, rfl, rfl, rfl, rfl, rfl, rfl, rfl⟩

/-- C25 as stated fails: the two-argument constructor stores the stride it is given, so
`strided_numeric_iterator(5, 0)` is a constructed value whose stride is 0. -/
theorem C25_counterexample :
    strided_numeric_iterator.Reachable (fun _ => True) (strided_numeric_iterator.ctor 5 0) ∧
    ¬ (1 ≤ (strided_numeric_iterator.ctor 5 0).stride) :=
  ⟨strided_numeric_iterator.Reachable.ctor 5 0 trivial, by decide⟩

/-- C25 (amended): when every stride argument given to the two-argument constructor is at
least 1, `stride ≥ 1` holds for every value reachable from the constructors through copy,
`++`, `--`, `+=`, `-=`, `+ k` and `- k`. -/
theorem C25_stride_invariant (it : strided_numeric_iterator)
    (h : strided_numeric_iterator.Reachable (fun stride => 1 ≤ stride) it) :
    1 ≤ it.stride := by
  induction h with
  | default_ctor => decide
  | ctor rhs stride hs => exact hs
  | ctor_one rhs => exact le_refl (1 : Int)
  | copy_ctor a _ ih => exact ih
  | inc a _ ih => exact ih
  | dec a _ ih => exact ih
  | addAssign a k _ ih => exact ih
  | subAssign a k _ ih => exact ih
  | addOffset a k _ _ => exact le_refl (1 : Int)
  | subOffset a k _ _ => exact le_refl (1 : Int)

theorem C25_stride_invariant_witness :
    1 ≤ (strided_numeric_iterator.addAssign
      (strided_numeric_iterator.inc (strided_numeric_iterator.ctor 5 3)) 2).stride :=
  C25_stride_invariant _
    (strided_numeric_iterator.Reachable.addAssign _ 2
      (strided_numeric_iterator.Reachable.inc _
        (strided_numeric_iterator.Reachable.ctor 5 3 (by decide))))

/-- C26: for unstrided cursors `a`, `b` with offsets `x`, `y` and an integer `k`:
`*a = x`, `*(a + k) = x + k`, `*(a - k) = x - k`, `a[k] = x + k`, `a - b = x - y`,
`(a + k) - a = k`, and each of `==`, `!=`, `<`, `>`, `<=`, `>=` on `a`, `b` agrees with the same
comparison of `x` and `y`. -/
theorem C26_numeric_iterator_arithmetic (x y k : Int) :
    numeric_iterator.deref ⟨x⟩ = x ∧
    numeric_iterator.deref (numeric_iterator.addOffset ⟨x⟩ k) = x + k ∧
    numeric_iterator.deref (numeric_iterator.subOffset ⟨x⟩ k) = x - k ∧
    numeric_iterator.index ⟨x⟩ k = x + k ∧
    numeric_iterator.sub ⟨x⟩ ⟨y⟩ = x - y ∧
    numeric_iterator.sub (numeric_iterator.addOffset ⟨x⟩ k) ⟨x⟩ = k ∧
    (base_iterator.eq (numeric_iterator.toBase ⟨x⟩) (numeric_iterator.toBase ⟨y⟩) = true ↔
      x = y) ∧
    (base_iterator.ne (numeric_iterator.toBase ⟨x⟩) (numeric_iterator.toBase ⟨y⟩) = true ↔
      x ≠ y) ∧
    (base_iterator.lt (numeric_iterator.toBase ⟨x⟩) (numeric_iterator.toBase ⟨y⟩) = true ↔
      x < y) ∧
    (base_iterator.gt (numeric_iterator.toBase ⟨x⟩) (numeric_iterator.toBase ⟨y⟩) = true ↔
      x > y) ∧
    (base_iterator.le (numeric_iterator.toBase ⟨x⟩) (numeric_iterator.toBase ⟨y⟩) = true ↔
      x ≤ y) ∧
    (base_iterator.ge (numeric_iterator.toBase ⟨x⟩) (numeric_iterator.toBase ⟨y⟩) = true ↔
      x ≥ y) := by
  refine ⟨rfl, rfl, rfl, rfl, rfl, ?_, ?_, ?_, ?_, ?_, ?_, ?_⟩
  · simp [numeric_iterator.sub, numeric_iterator.addOffset]
  · simp [base_iterator.eq, numeric_iterator.toBase]
  · simp [base_iterator.ne, numeric_iterator.toBase]
  · simp [base_iterator.lt, numeric_iterator.toBase]
  · simp [base_iterator.gt, numeric_iterator.toBase]
  · simp [base_iterator.le, numeric_iterator.toBase]
  · simp [base_iterator.ge, numeric_iterator.toBase]

/-! ## Strided distance and visited offsets -/

/-- C29 as stated fails: with stride 3, `begin.val = 0` and `end.val = 2` the difference
`end - begin` is 0, although the offset `0 = begin.val + 0 * 3` is below `end.val`, so the
offsets below `end.val` are not the `j < 0`. -/
theorem C29_counterexample :
    strided_numeric_iterator.sub ⟨2, 3⟩ ⟨0, 3⟩ = 0 ∧
    ¬ (∀ j : Nat, (j : Int) < strided_numeric_iterator.sub ⟨2, 3⟩ ⟨0, 3⟩ ↔
      (0 : Int) + (j : Int) * 3 < 2) := by
  refine ⟨by decide, ?_⟩
  intro h
  have h0 := (h 0).2 (by decide)
  revert h0
  decide

/-- C29 (amended): for a stride `s ≥ 1` and strided cursors `begin`, `end` of that stride with
`begin.val ≤ end.val`: when the gap `end.val - begin.val` is at least `s` or is 0, `end - begin`
is the number of offsets `begin.val + j * s` (`j ≥ 0`) below `end.val`, that is, those offsets
are exactly the ones with `j < end - begin`; when the gap is positive and smaller than `s`,
`end - begin` is 0. -/
theorem C29_strided_distance_counts (s : Int) (hs : 1 ≤ s)
    (b e : strided_numeric_iterator) (hb : b.stride = s) (he : e.stride = s)
    (hbe : b.val ≤ e.val) :
    ((s ≤ e.val - b.val ∨ e.val = b.val) →
      0 ≤ strided_numeric_iterator.sub e b ∧
      ∀ j : Nat, (j : Int) < strided_numeric_iterator.sub e b ↔
        b.val + (j : Int) * s < e.val) ∧
    ((0 < e.val - b.val ∧ e.val - b.val < s) → strided_numeric_iterator.sub e b = 0) := by
  have _ := hb
  constructor
  · rintro (hge | heq)
    · have hd0 : 0 ≤ e.val - b.val := by omega
      have hsub : strided_numeric_iterator.sub e b = (e.val - b.val + s - 1) / s := by
        rw [← ceil_div_eq_loopCount _ _ hs, ceil_div_eq _ _ hs]
        simp only [strided_numeric_iterator.sub, he]
        rw [if_neg (by omega), Int.tmod_eq_emod hd0 (by omega),
          Int.tdiv_eq_ediv hd0 (by omega)]
      rw [hsub]
      refine ⟨Int.ediv_nonneg (by omega) (by omega), ?_⟩
      intro j
      rw [lt_loopCount_iff (e.val - b.val) s (j : Int) hs]
      constructor <;> intro h <;> omega
    · have hsub : strided_numeric_iterator.sub e b = 0 := by
        simp only [strided_numeric_iterator.sub, he]
        rw [if_pos (by omega)]
      rw [hsub]
      refine ⟨le_refl _, ?_⟩
      intro j
      have hj : 0 ≤ (j : Int) * s := Int.mul_nonneg (by omega) (by omega)
      constructor <;> intro h <;> omega
  · rintro ⟨_, hlt⟩
    simp only [strided_numeric_iterator.sub, he]
    rw [if_pos hlt]

theorem C29_strided_distance_counts_witness :
    0 ≤ strided_numeric_iterator.sub ⟨7, 3⟩ ⟨0, 3⟩ ∧
    ∀ j : Nat, (j : Int) < strided_numeric_iterator.sub ⟨7, 3⟩ ⟨0, 3⟩ ↔
      (0 : Int) + (j : Int) * 3 < 7 :=
  (C29_strided_distance_counts 3 (by decide) ⟨0, 3⟩ ⟨7, 3⟩ rfl rfl (by decide)).1
    (Or.inl (by decide))

/-- C30 fails on the code: with stride 3, `a.val = 8` and `b.val = 7`, the inherited
`operator==` gives `a == b` false while the overridden `operator!=` gives `a != b` false as
well, so `a == b` does not hold although `a != b` does not hold. -/
theorem C30_strided_eq_ne_not_complementary :
    base_iterator.eq (strided_numeric_iterator.toBase ⟨8, 3⟩)
      (strided_numeric_iterator.toBase ⟨7, 3⟩) = false ∧
    strided_numeric_iterator.ne ⟨8, 3⟩ ⟨7, 3⟩ = false := by
  decide

/-! ## Bitwise-AND reduction test -/

theorem foldl_and_zero (f : Nat → Nat) (l : List Nat) :
    l.foldl (fun r i => r &&& f i) 0 = 0 := by
  induction l with
  | nil => rfl
  | cons a t ih => simpa [List.foldl_cons] using ih

theorem two_and (x : Nat) : 2 &&& x = 0 ∨ 2 &&& x = 2 := by
  by_cases hx : x.testBit 1 = true
  · right
    apply Nat.eq_of_testBit_eq
    intro i
    rw [Nat.testBit_and]
    by_cases hi : i = 1
    · subst hi; simp [hx]
    · have h2 : Nat.testBit 2 i = false := by
        have := @Nat.testBit_two_pow_of_ne 1 i (fun h => hi h.symm)
        simpa using this
      simp [h2]
  · left
    apply Nat.eq_of_testBit_eq
    intro i
    rw [Nat.testBit_and]
    by_cases hi : i = 1
    · subst hi; simp [hx]
    · have h2 : Nat.testBit 2 i = false := by
        have := @Nat.testBit_two_pow_of_ne 1 i (fun h => hi h.symm)
        simpa using this
      simp [h2]

theorem foldl_and_two (f : Nat → Nat) (l : List Nat) :
    ((∀ i ∈ l, 2 &&& f i = 2) → l.foldl (fun r i => r &&& f i) 2 = 2) ∧
    ((∃ i ∈ l, 2 &&& f i = 0) → l.foldl (fun r i => r &&& f i) 2 = 0) := by
  induction l with
  | nil => simp
  | cons a t ih =>
    constructor
    · intro h
      rw [List.foldl_cons, h a (List.mem_cons_self _ _)]
      exact ih.1 (fun i hi => h i (List.mem_cons_of_mem _ hi))
    · rintro ⟨i, hi, h0⟩
      rw [List.foldl_cons]
      rcases two_and (f a) with ha | ha
      · rw [ha]; exact foldl_and_zero f t
      · rw [ha]
        rcases List.mem_cons.1 hi with rfl | hit
        · omega
        · exact ih.2 ⟨i, hit, h0⟩

theorem forall_pair (f : Nat → Nat) (l : List Nat) (s1 s2 : ReduceBitAnd) :
    forall_ l (fun (st : ReduceBitAnd × ReduceBitAnd) idx =>
        (st.1.andAssign (f idx), st.2.andAssign (f idx))) (s1, s2) =
      (⟨l.foldl (fun r i => r &&& f i) s1.val⟩, ⟨l.foldl (fun r i => r &&& f i) s2.val⟩) := by
  induction l generalizing s1 s2 with
  | nil => rfl
  | cons a t ih =>
    simp only [forall_, List.foldl_cons] at ih ⊢
    rw [ih]
    rfl

theorem forall_single (f : Nat → Nat) (l : List Nat) (s1 : ReduceBitAnd) :
    forall_ l (fun (st : ReduceBitAnd) idx => st.andAssign (f idx)) s1 =
      ⟨l.foldl (fun r i => r &&& f i) s1.val⟩ := by
  induction l generalizing s1 with
  | nil => rfl
  | cons a t ih =>
    simp only [forall_, List.foldl_cons] at ih ⊢
    rw [ih]
    rfl

/-- C27: for every array, every range `[first, last)` and every visiting order of the
`forall` runs, a `ReduceBitAnd` initialised with 0 and combined with the visited elements
holds the value of the sequential reference fold `ref_sum` (both are 0): the first
`ASSERT_EQ` of the test holds, and so does the third one, made after `reset(0)` and three
more `forall` runs. -/
theorem C27_reduce_bit_and_matches_reference (test_array : Nat → Nat) (first last : Nat)
    (order0 order1 order2 order3 : List Nat) :
    (forall_ order0 (fun (st : ReduceBitAnd) idx => st.andAssign (test_array idx))
      (ReduceBitAnd.init 0)).get = ref_sum test_array first last ∧
    (ForallReduceBitAndBitwiseTestImpl test_array first last
      order0 order1 order2 order3).1 = true ∧
    (ForallReduceBitAndBitwiseTestImpl test_array first last
      order0 order1 order2 order3).2.2 = true := by
  have href : ref_sum test_array first last = 0 := foldl_and_zero _ _
  refine ⟨?_, ?_, ?_⟩
  · rw [forall_single, href]
    exact foldl_and_zero _ _
  · simp only [ForallReduceBitAndBitwiseTestImpl, forall_pair, href, ReduceBitAnd.get,
      ReduceBitAnd.init, foldl_and_zero, decide_True]
  · simp only [ForallReduceBitAndBitwiseTestImpl, forall_single, href, ReduceBitAnd.get,
      ReduceBitAnd.reset, foldl_and_zero, decide_True]

/-- C28 fails on the code: the test compares the reduction started from 2 with `ref_sum`,
which is started from 0 and is therefore always 0.  With an array whose elements are all 2
(values of `rand() % 100`) the reduction holds `2 & 2 = 2`, so the second `ASSERT_EQ` of the
test fails, on the range `[0, 1)` and on the range `[0, 28)` of the test's first call. -/
theorem C28_second_assert_fails :
    (forall_ [0] (fun (st : ReduceBitAnd) idx => st.andAssign ((fun _ => 2) idx))
      (ReduceBitAnd.init 2)).get = 2 ∧
    ref_sum (fun _ => 2) 0 1 = 0 ∧
    (ForallReduceBitAndBitwiseTestImpl (fun _ => 2) 0 1 [0] [0] [0] [0]).2.1 = false ∧
    (ForallReduceBitAndBitwiseTestImpl (fun _ => 2) 0 28 (List.range' 0 28)
      (List.range' 0 28) (List.range' 0 28) (List.range' 0 28)).2.1 = false := by
  decide

/-- For every array and every range `[first, last)` visited once per index in
any order, a `ReduceBitAnd` initialised with 2 and combined with every element of the range
holds 2 when every element has bit 1 set and 0 when some element has bit 1 clear; it equals
`ref_sum` (which is 0) exactly in the second case, and that is when the second `ASSERT_EQ`
of the test holds. -/
theorem reduce_bit_and_init_two (test_array : Nat → Nat) (first last : Nat)
    (order0 order1 order2 order3 : List Nat)
    (horder : order0.Perm (List.range' first (last - first))) :
    ((∀ i : Nat, first ≤ i → i < last → 2 &&& test_array i = 2) →
      (forall_ order0 (fun (st : ReduceBitAnd) idx => st.andAssign (test_array idx))
        (ReduceBitAnd.init 2)).get = 2) ∧
    ((∃ i : Nat, first ≤ i ∧ i < last ∧ 2 &&& test_array i = 0) →
      (forall_ order0 (fun (st : ReduceBitAnd) idx => st.andAssign (test_array idx))
        (ReduceBitAnd.init 2)).get = 0) ∧
    ref_sum test_array first last = 0 ∧
    ((ForallReduceBitAndBitwiseTestImpl test_array first last
        order0 order1 order2 order3).2.1 = true ↔
      ∃ i : Nat, first ≤ i ∧ i < last ∧ 2 &&& test_array i = 0) := by
  have href : ref_sum test_array first last = 0 := foldl_and_zero _ _
  have hmem : ∀ i : Nat, i ∈ order0 ↔ first ≤ i ∧ i < last := by
    intro i
    rw [horder.mem_iff, List.mem_range']
    constructor
    · rintro ⟨j, hj, rfl⟩
      omega
    · rintro ⟨h1, h2⟩
      exact ⟨i - first, by omega, by omega⟩
  have hfold := foldl_and_two test_array order0
  have hall : (∀ i : Nat, first ≤ i → i < last → 2 &&& test_array i = 2) →
      order0.foldl (fun r i => r &&& test_array i) 2 = 2 :=
    fun h => hfold.1 (fun i hi => h i ((hmem i).1 hi).1 ((hmem i).1 hi).2)
  have hsome : (∃ i : Nat, first ≤ i ∧ i < last ∧ 2 &&& test_array i = 0) →
      order0.foldl (fun r i => r &&& test_array i) 2 = 0 := by
    rintro ⟨i, h1, h2, h0⟩
    exact hfold.2 ⟨i, (hmem i).2 ⟨h1, h2⟩, h0⟩
  refine ⟨?_, ?_, href, ?_⟩
  · intro h
    rw [forall_single]
    exact hall h
  · intro h
    rw [forall_single]
    exact hsome h
  · simp only [ForallReduceBitAndBitwiseTestImpl, forall_pair, href, ReduceBitAnd.get,
      ReduceBitAnd.init, decide_eq_true_eq]
    constructor
    · intro h0
      by_contra hno
      have hall' : ∀ i : Nat, first ≤ i → i < last → 2 &&& test_array i = 2 := by
        intro i h1 h2
        rcases two_and (test_array i) with hz | ht
        · exact absurd ⟨i, h1, h2, hz⟩ hno
        · exact ht
      rw [hall hall'] at h0
      omega
    · intro h
      exact hsome h

/-! ## ICount variants against the plain variants -/

theorem forLoopM_map {α β : Type} (f : α → β) (len step : Int) (body : Int → Option (List α)) :
    ∀ (fuel : Nat) (t : Int),
      (forLoopM fuel t len step body).map (fun l => l.map f) =
        forLoopM fuel t len step (fun x => (body x).map (fun l => l.map f)) := by
  intro fuel
  induction fuel with
  | zero =>
    intro t
    by_cases hlt : t < len <;> simp [forLoopM, hlt]
  | succ n ih =>
    intro t
    by_cases hlt : t < len
    · simp only [forLoopM, if_pos hlt]
      cases hb : body t with
      | none => simp
      | some calls =>
        simp only [Option.map_some']
        rw [← ih (t + step)]
        cases forLoopM n (t + step) len step body <;> simp
    · simp [forLoopM, hlt]

/-- C22: for every policy with a plain and an ICount dispatch, every coordinate, topology,
segment and amount of fuel, dropping the extra count arguments from the calls of the ICount
variant gives exactly the calls of the plain variant, in the same order (and the ICount
variant returns exactly when the plain one does); for the tile variants this is for a tile
size other than zero, where the index `tx / tile_size` is defined. -/
theorem C22_icount_erasure (fuel : Nat) (k0 n0 k1 n1 k2 n2 : Nat) (T : Int)
    (segment0 segment1 segment2 : Segment) :
    (LoopICountExecute.cuda_thread_xyz_loop.exec fuel k0 n0 segment0).map
        (fun l => l.map Prod.fst) =
      LoopExecute.cuda_thread_xyz_loop.exec fuel k0 n0 segment0 ∧
    (LoopICountExecute.cuda_thread_xyz_direct.exec k0 segment0).map Prod.fst =
      LoopExecute.cuda_thread_xyz_direct.exec k0 segment0 ∧
    (LoopICountExecute.cuda_block_xyz_loop.exec fuel k0 n0 segment0).map
        (fun l => l.map Prod.fst) =
      LoopExecute.cuda_block_xyz_loop.exec fuel k0 n0 segment0 ∧
    (LoopICountExecute.cuda_block_xyz_direct.exec k0 segment0).map Prod.fst =
      LoopExecute.cuda_block_xyz_direct.exec k0 segment0 ∧
    (LoopICountExecute.cuda_block_xyz_direct2.exec k0 k1 segment0 segment1).map Prod.fst =
      LoopExecute.cuda_block_xyz_direct2.exec k0 k1 segment0 segment1 ∧
    (LoopICountExecute.cuda_block_xyz_direct3.exec k0 k1 k2 segment0 segment1 segment2).map
        Prod.fst =
      LoopExecute.cuda_block_xyz_direct3.exec k0 k1 k2 segment0 segment1 segment2 ∧
    (LoopICountExecute.cuda_block_xyz_loop2.exec fuel k0 n0 k1 n1 segment0 segment1).map
        (fun l => l.map Prod.fst) =
      LoopExecute.cuda_block_xyz_loop2.exec fuel k0 n0 k1 n1 segment0 segment1 ∧
    (LoopICountExecute.cuda_block_xyz_loop3.exec fuel k0 n0 k1 n1 k2 n2
        segment0 segment1 segment2).map (fun l => l.map Prod.fst) =
      LoopExecute.cuda_block_xyz_loop3.exec fuel k0 n0 k1 n1 k2 n2
        segment0 segment1 segment2 ∧
    (T ≠ 0 →
      (TileICountExecute.cuda_thread_xyz_loop.exec fuel k0 n0 T segment0).map
          (fun l => l.map Prod.fst) =
        TileExecute.cuda_thread_xyz_loop.exec fuel k0 n0 T segment0 ∧
      (TileICountExecute.cuda_thread_xyz_direct.exec k0 T segment0).map Prod.fst =
        TileExecute.cuda_thread_xyz_direct.exec k0 T segment0 ∧
      (TileICountExecute.cuda_block_xyz_loop.exec fuel k0 n0 T segment0).map
          (fun l => l.map Prod.fst) =
        TileExecute.cuda_block_xyz_loop.exec fuel k0 n0 T segment0 ∧
      (TileICountExecute.cuda_block_xyz_direct.exec k0 T segment0).map Prod.fst =
        TileExecute.cuda_block_xyz_direct.exec k0 T segment0) := by
  refine ⟨?_, ?_, ?_, ?_, ?_, ?_, ?_, ?_, ?_⟩
  · simp [LoopICountExecute.cuda_thread_xyz_loop.exec, LoopExecute.cuda_thread_xyz_loop.exec,
      Function.comp_def]
  · unfold LoopICountExecute.cuda_thread_xyz_direct.exec LoopExecute.cuda_thread_xyz_direct.exec
    simp only []
    split <;> rfl
  · simp [LoopICountExecute.cuda_block_xyz_loop.exec, LoopExecute.cuda_block_xyz_loop.exec,
      Function.comp_def]
  · unfold LoopICountExecute.cuda_block_xyz_direct.exec LoopExecute.cuda_block_xyz_direct.exec
    simp only []
    split <;> rfl
  · unfold LoopICountExecute.cuda_block_xyz_direct2.exec LoopExecute.cuda_block_xyz_direct2.exec
    simp only []
    split <;> rfl
  · unfold LoopICountExecute.cuda_block_xyz_direct3.exec LoopExecute.cuda_block_xyz_direct3.exec
    simp only []
    split <;> rfl
  · simp only [LoopICountExecute.cuda_block_xyz_loop2.exec,
      LoopExecute.cuda_block_xyz_loop2.exec, forLoopM_map, Option.map_some', List.map_cons,
      List.map_nil]
  · simp only [LoopICountExecute.cuda_block_xyz_loop3.exec,
      LoopExecute.cuda_block_xyz_loop3.exec, forLoopM_map, Option.map_some', List.map_cons,
      List.map_nil]
  · intro _
    refine ⟨?_, ?_, ?_, ?_⟩
    · simp [TileICountExecute.cuda_thread_xyz_loop.exec, TileExecute.cuda_thread_xyz_loop.exec,
        Function.comp_def]
    · unfold TileICountExecute.cuda_thread_xyz_direct.exec
        TileExecute.cuda_thread_xyz_direct.exec
      simp only []
      split <;> rfl
    · simp [TileICountExecute.cuda_block_xyz_loop.exec, TileExecute.cuda_block_xyz_loop.exec,
        Function.comp_def]
    · unfold TileICountExecute.cuda_block_xyz_direct.exec
        TileExecute.cuda_block_xyz_direct.exec
      simp only []
      split <;> rfl

theorem C22_icount_erasure_witness :
    (TileICountExecute.cuda_thread_xyz_loop.exec 10 0 2 4 ⟨⟨0⟩, ⟨10⟩⟩).map
        (fun l => l.map Prod.fst) =
      TileExecute.cuda_thread_xyz_loop.exec 10 0 2 4 ⟨⟨0⟩, ⟨10⟩⟩ ∧
    TileExecute.cuda_thread_xyz_loop.exec 10 0 2 4 ⟨⟨0⟩, ⟨10⟩⟩ = some [(0, 4), (8, 4)] :=
  ⟨((C22_icount_erasure 10 0 2 0 1 0 1 4 ⟨⟨0⟩, ⟨10⟩⟩ ⟨⟨0⟩, ⟨1⟩⟩ ⟨⟨0⟩, ⟨1⟩⟩).2.2.2.2.2.2.2.2
      (by decide)).1, by decide⟩

/-! ## Termination of the loop dispatch -/

theorem stable_result {α : Type} (X : Nat → Option α) (F : Nat) (v : α)
    (h : ∀ fuel : Nat, F ≤ fuel → X fuel = some v) :
    ∀ fuel : Nat, F ≤ fuel → (X F).isSome = true ∧ X fuel = X F := by
  intro fuel hf
  rw [h fuel hf, h F (le_refl F)]
  exact ⟨rfl, rfl⟩

theorem forLoop_returns (k n : Nat) (len : Int) (F : Nat) (hn : 1 ≤ n) (hF : len ≤ (F : Int)) :
    ∃ L : List Int, ∀ fuel : Nat, F ≤ fuel →
      forLoop fuel (k : Int) len (n : Int) = some L :=
  ⟨_, fun fuel hf =>
    forLoop_closed (n : Int) (by exact_mod_cast hn) len fuel (k : Int) (by omega)⟩

theorem tile_forLoop_returns (k n : Nat) (T len : Int) (F : Nat) (hn : 1 ≤ n) (hT : 1 ≤ T)
    (hF : len ≤ (F : Int)) :
    ∃ L : List Int, ∀ fuel : Nat, F ≤ fuel →
      forLoop fuel ((k : Int) * T) len ((n : Int) * T) = some L := by
  have hstep : 1 ≤ (n : Int) * T := by
    have : 0 < (n : Int) * T := Int.mul_pos (by exact_mod_cast hn) (by omega)
    omega
  have hk : 0 ≤ (k : Int) * T := Int.mul_nonneg (by omega) (by omega)
  exact ⟨_, fun fuel hf => forLoop_closed _ hstep len fuel _ (by omega)⟩

/-- With unbounded integers in place of the 32-bit `int` counters:
for every coordinate, every segment, resource counts `n0, n1, n2 ≥ 1` on the policy
axes and a tile size `T ≥ 1`, there is an amount of fuel from which on every loop-mode
dispatch (1-D thread and block, 2-D and 3-D block, plain and ICount, and the tile loops)
returns a finite list of body calls, the same list whatever further fuel is given. -/
theorem loop_dispatch_terminates_exact (k0 n0 k1 n1 k2 n2 : Nat) (T : Int)
    (segment0 segment1 segment2 : Segment) (hn0 : 1 ≤ n0) (hn1 : 1 ≤ n1) (hn2 : 1 ≤ n2)
    (hT : 1 ≤ T) :
    ∃ fuel0 : Nat, ∀ fuel : Nat, fuel0 ≤ fuel →
      ((LoopExecute.cuda_thread_xyz_loop.exec fuel0 k0 n0 segment0).isSome = true ∧
        LoopExecute.cuda_thread_xyz_loop.exec fuel k0 n0 segment0 =
          LoopExecute.cuda_thread_xyz_loop.exec fuel0 k0 n0 segment0) ∧
      ((LoopExecute.cuda_block_xyz_loop.exec fuel0 k0 n0 segment0).isSome = true ∧
        LoopExecute.cuda_block_xyz_loop.exec fuel k0 n0 segment0 =
          LoopExecute.cuda_block_xyz_loop.exec fuel0 k0 n0 segment0) ∧
      ((LoopExecute.cuda_block_xyz_loop2.exec fuel0 k0 n0 k1 n1 segment0 segment1).isSome
          = true ∧
        LoopExecute.cuda_block_xyz_loop2.exec fuel k0 n0 k1 n1 segment0 segment1 =
          LoopExecute.cuda_block_xyz_loop2.exec fuel0 k0 n0 k1 n1 segment0 segment1) ∧
      ((LoopExecute.cuda_block_xyz_loop3.exec fuel0 k0 n0 k1 n1 k2 n2
          segment0 segment1 segment2).isSome = true ∧
        LoopExecute.cuda_block_xyz_loop3.exec fuel k0 n0 k1 n1 k2 n2
            segment0 segment1 segment2 =
          LoopExecute.cuda_block_xyz_loop3.exec fuel0 k0 n0 k1 n1 k2 n2
            segment0 segment1 segment2) ∧
      ((LoopICountExecute.cuda_thread_xyz_loop.exec fuel0 k0 n0 segment0).isSome = true ∧
        LoopICountExecute.cuda_thread_xyz_loop.exec fuel k0 n0 segment0 =
          LoopICountExecute.cuda_thread_xyz_loop.exec fuel0 k0 n0 segment0) ∧
      ((LoopICountExecute.cuda_block_xyz_loop.exec fuel0 k0 n0 segment0).isSome = true ∧
        LoopICountExecute.cuda_block_xyz_loop.exec fuel k0 n0 segment0 =
          LoopICountExecute.cuda_block_xyz_loop.exec fuel0 k0 n0 segment0) ∧
      ((LoopICountExecute.cuda_block_xyz_loop2.exec fuel0 k0 n0 k1 n1
          segment0 segment1).isSome = true ∧
        LoopICountExecute.cuda_block_xyz_loop2.exec fuel k0 n0 k1 n1 segment0 segment1 =
          LoopICountExecute.cuda_block_xyz_loop2.exec fuel0 k0 n0 k1 n1 segment0 segment1) ∧
      ((LoopICountExecute.cuda_block_xyz_loop3.exec fuel0 k0 n0 k1 n1 k2 n2
          segment0 segment1 segment2).isSome = true ∧
        LoopICountExecute.cuda_block_xyz_loop3.exec fuel k0 n0 k1 n1 k2 n2
            segment0 segment1 segment2 =
          LoopICountExecute.cuda_block_xyz_loop3.exec fuel0 k0 n0 k1 n1 k2 n2
            segment0 segment1 segment2) ∧
      ((TileExecute.cuda_thread_xyz_loop.exec fuel0 k0 n0 T segment0).isSome = true ∧
        TileExecute.cuda_thread_xyz_loop.exec fuel k0 n0 T segment0 =
          TileExecute.cuda_thread_xyz_loop.exec fuel0 k0 n0 T segment0) ∧
      ((TileExecute.cuda_block_xyz_loop.exec fuel0 k0 n0 T segment0).isSome = true ∧
        TileExecute.cuda_block_xyz_loop.exec fuel k0 n0 T segment0 =
          TileExecute.cuda_block_xyz_loop.exec fuel0 k0 n0 T segment0) ∧
      ((TileICountExecute.cuda_thread_xyz_loop.exec fuel0 k0 n0 T segment0).isSome = true ∧
        TileICountExecute.cuda_thread_xyz_loop.exec fuel k0 n0 T segment0 =
          TileICountExecute.cuda_thread_xyz_loop.exec fuel0 k0 n0 T segment0) ∧
      ((TileICountExecute.cuda_block_xyz_loop.exec fuel0 k0 n0 T segment0).isSome = true ∧
        TileICountExecute.cuda_block_xyz_loop.exec fuel k0 n0 T segment0 =
          TileICountExecute.cuda_block_xyz_loop.exec fuel0 k0 n0 T segment0) := by
  obtain ⟨L0, h0⟩ := forLoop_returns k0 n0 segment0.len
    (segment0.len.toNat + segment1.len.toNat + segment2.len.toNat) hn0 (by omega)
  obtain ⟨L1, h1⟩ := forLoop_returns k1 n1 segment1.len
    (segment0.len.toNat + segment1.len.toNat + segment2.len.toNat) hn1 (by omega)
  obtain ⟨L2, h2⟩ := forLoop_returns k2 n2 segment2.len
    (segment0.len.toNat + segment1.len.toNat + segment2.len.toNat) hn2 (by omega)
  obtain ⟨LT, hT0⟩ := tile_forLoop_returns k0 n0 T segment0.len
    (segment0.len.toNat + segment1.len.toNat + segment2.len.toNat) hn0 hT (by omega)
  refine ⟨segment0.len.toNat + segment1.len.toNat + segment2.len.toNat, ?_⟩
  intro fuel hf
  refine ⟨?_, ?_, ?_, ?_, ?_, ?_, ?_, ?_, ?_, ?_, ?_, ?_⟩
  · refine stable_result (fun f => LoopExecute.cuda_thread_xyz_loop.exec f k0 n0 segment0) _
      (L0.map segment0.elem) (fun f hf' => ?_) fuel hf
    simp only [LoopExecute.cuda_thread_xyz_loop.exec, h0 f hf', Option.map_some']
  · refine stable_result (fun f => LoopExecute.cuda_block_xyz_loop.exec f k0 n0 segment0) _
      (L0.map segment0.elem) (fun f hf' => ?_) fuel hf
    simp only [LoopExecute.cuda_block_xyz_loop.exec, h0 f hf', Option.map_some']
  · exact stable_result _ _ _ (fun f hf' =>
      loop2_nested f _ _ _ _ _ _ L0 L1 (h0 f hf') (h1 f hf')
        (fun x y => (segment0.elem x, segment1.elem y))) fuel hf
  · exact stable_result _ _ _ (fun f hf' =>
      loop3_nested f _ _ _ _ _ _ _ _ _ L0 L1 L2 (h0 f hf') (h1 f hf') (h2 f hf')
        (fun x y z => (segment0.elem x, segment1.elem y, segment2.elem z))) fuel hf
  · refine stable_result (fun f => LoopICountExecute.cuda_thread_xyz_loop.exec f k0 n0 segment0) _ (L0.map (fun tx => (segment0.elem tx, tx)))
      (fun f hf' => ?_) fuel hf
    simp only [LoopICountExecute.cuda_thread_xyz_loop.exec, h0 f hf', Option.map_some']
  · refine stable_result (fun f => LoopICountExecute.cuda_block_xyz_loop.exec f k0 n0 segment0) _ (L0.map (fun tx => (segment0.elem tx, tx)))
      (fun f hf' => ?_) fuel hf
    simp only [LoopICountExecute.cuda_block_xyz_loop.exec, h0 f hf', Option.map_some']
  · exact stable_result _ _ _ (fun f hf' =>
      loop2_nested f _ _ _ _ _ _ L0 L1 (h0 f hf') (h1 f hf')
        (fun x y => ((segment0.elem x, segment1.elem y), (x, y)))) fuel hf
  · exact stable_result _ _ _ (fun f hf' =>
      loop3_nested f _ _ _ _ _ _ _ _ _ L0 L1 L2 (h0 f hf') (h1 f hf') (h2 f hf')
        (fun x y z => ((segment0.elem x, segment1.elem y, segment2.elem z), (x, y, z))))
      fuel hf
  · refine stable_result (fun f => TileExecute.cuda_thread_xyz_loop.exec f k0 n0 T segment0) _
      (LT.map (fun tx => (tx, T))) (fun f hf' => ?_) fuel hf
    simp only [TileExecute.cuda_thread_xyz_loop.exec, hT0 f hf', Option.map_some']
  · refine stable_result (fun f => TileExecute.cuda_block_xyz_loop.exec f k0 n0 T segment0) _
      (LT.map (fun tx => (tx, T))) (fun f hf' => ?_) fuel hf
    simp only [TileExecute.cuda_block_xyz_loop.exec, hT0 f hf', Option.map_some']
  · refine stable_result (fun f => TileICountExecute.cuda_thread_xyz_loop.exec f k0 n0 T segment0) _ (LT.map (fun tx => ((tx, T), Int.tdiv tx T)))
      (fun f hf' => ?_) fuel hf
    simp only [TileICountExecute.cuda_thread_xyz_loop.exec, hT0 f hf', Option.map_some']
  · refine stable_result (fun f => TileICountExecute.cuda_block_xyz_loop.exec f k0 n0 T segment0) _ (LT.map (fun tx => ((tx, T), Int.tdiv tx T)))
      (fun f hf' => ?_) fuel hf
    simp only [TileICountExecute.cuda_block_xyz_loop.exec, hT0 f hf', Option.map_some']

/-! ## Element index of the ICount variants -/

theorem forLoopM_mem {α : Type} (len step : Int) (hstep : 0 ≤ step)
    (body : Int → Option (List α)) :
    ∀ (fuel : Nat) (t : Int) (tr : List α), 0 ≤ t → forLoopM fuel t len step body = some tr →
      ∀ e ∈ tr, ∃ (x : Int) (calls : List α),
        0 ≤ x ∧ x < len ∧ body x = some calls ∧ e ∈ calls := by
  intro fuel
  induction fuel with
  | zero =>
    intro t tr _ htr e he
    by_cases hlt : t < len
    · simp [forLoopM, hlt] at htr
    · simp only [forLoopM, if_neg hlt, Option.some.injEq] at htr
      subst htr
      simp at he
  | succ n ih =>
    intro t tr ht htr e he
    by_cases hlt : t < len
    · simp only [forLoopM, if_pos hlt] at htr
      cases hb : body t with
      | none => simp [hb] at htr
      | some calls =>
        simp only [hb, Option.map_eq_some'] at htr
        obtain ⟨r, hr, rfl⟩ := htr
        rcases List.mem_append.1 he with hc | hrest
        · exact ⟨t, calls, ht, hlt, hb, hc⟩
        · exact ih (t + step) r (by omega) hr e hrest
    · simp only [forLoopM, if_neg hlt, Option.some.injEq] at htr
      subst htr
      simp at he

theorem icount_loop1_mem (fuel : Nat) (k n : Nat) (segment : Segment)
    (tr : List (Int × Int))
    (htr : (forLoop fuel (k : Int) segment.len (n : Int)).map
      (fun l => l.map (fun tx => (segment.elem tx, tx))) = some tr) :
    ∀ c ∈ tr, c.1 = segment.elem c.2 ∧ 0 ≤ c.2 ∧ c.2 < segment.len := by
  intro c hc
  simp only [Option.map_eq_some'] at htr
  obtain ⟨l, hl, rfl⟩ := htr
  obtain ⟨x, hx, rfl⟩ := List.mem_map.1 hc
  exact ⟨rfl, forLoop_bounds segment.len (n : Int) (by omega) fuel _ l (by omega) hl x hx⟩

/-- With unbounded integers in place of the 32-bit `int` counters:
in every index-granularity `LoopICountExecute` variant (1-D thread and block, direct
and loop; 2-D and 3-D block direct; 2-D and 3-D block loop) every body call passes, for each
axis, an element `e` and a count `i` with `e = *(segment.begin() + i)` and `0 ≤ i < len` for
the segment of that axis; for resource counts `≥ 1` the loop variants return. -/
theorem icount_element_index_exact (fuel : Nat) (k0 n0 k1 n1 k2 n2 : Nat)
    (segment0 segment1 segment2 : Segment) :
    (∀ c ∈ LoopICountExecute.cuda_thread_xyz_direct.exec k0 segment0,
      c.1 = segment0.elem c.2 ∧ 0 ≤ c.2 ∧ c.2 < segment0.len) ∧
    (∀ c ∈ LoopICountExecute.cuda_block_xyz_direct.exec k0 segment0,
      c.1 = segment0.elem c.2 ∧ 0 ≤ c.2 ∧ c.2 < segment0.len) ∧
    (∀ tr, LoopICountExecute.cuda_thread_xyz_loop.exec fuel k0 n0 segment0 = some tr →
      ∀ c ∈ tr, c.1 = segment0.elem c.2 ∧ 0 ≤ c.2 ∧ c.2 < segment0.len) ∧
    (∀ tr, LoopICountExecute.cuda_block_xyz_loop.exec fuel k0 n0 segment0 = some tr →
      ∀ c ∈ tr, c.1 = segment0.elem c.2 ∧ 0 ≤ c.2 ∧ c.2 < segment0.len) ∧
    (∀ c ∈ LoopICountExecute.cuda_block_xyz_direct2.exec k0 k1 segment0 segment1,
      (c.1.1 = segment0.elem c.2.1 ∧ 0 ≤ c.2.1 ∧ c.2.1 < segment0.len) ∧
      (c.1.2 = segment1.elem c.2.2 ∧ 0 ≤ c.2.2 ∧ c.2.2 < segment1.len)) ∧
    (∀ c ∈ LoopICountExecute.cuda_block_xyz_direct3.exec k0 k1 k2 segment0 segment1 segment2,
      (c.1.1 = segment0.elem c.2.1 ∧ 0 ≤ c.2.1 ∧ c.2.1 < segment0.len) ∧
      (c.1.2.1 = segment1.elem c.2.2.1 ∧ 0 ≤ c.2.2.1 ∧ c.2.2.1 < segment1.len) ∧
      (c.1.2.2 = segment2.elem c.2.2.2 ∧ 0 ≤ c.2.2.2 ∧ c.2.2.2 < segment2.len)) ∧
    (∀ tr, LoopICountExecute.cuda_block_xyz_loop2.exec fuel k0 n0 k1 n1 segment0 segment1 =
        some tr →
      ∀ c ∈ tr,
        (c.1.1 = segment0.elem c.2.1 ∧ 0 ≤ c.2.1 ∧ c.2.1 < segment0.len) ∧
        (c.1.2 = segment1.elem c.2.2 ∧ 0 ≤ c.2.2 ∧ c.2.2 < segment1.len)) ∧
    (∀ tr, LoopICountExecute.cuda_block_xyz_loop3.exec fuel k0 n0 k1 n1 k2 n2
        segment0 segment1 segment2 = some tr →
      ∀ c ∈ tr,
        (c.1.1 = segment0.elem c.2.1 ∧ 0 ≤ c.2.1 ∧ c.2.1 < segment0.len) ∧
        (c.1.2.1 = segment1.elem c.2.2.1 ∧ 0 ≤ c.2.2.1 ∧ c.2.2.1 < segment1.len) ∧
        (c.1.2.2 = segment2.elem c.2.2.2 ∧ 0 ≤ c.2.2.2 ∧ c.2.2.2 < segment2.len)) ∧
    (1 ≤ n0 → 1 ≤ n1 → 1 ≤ n2 → ∃ fuel1 : Nat,
      (LoopICountExecute.cuda_thread_xyz_loop.exec fuel1 k0 n0 segment0).isSome = true ∧
      (LoopICountExecute.cuda_block_xyz_loop.exec fuel1 k0 n0 segment0).isSome = true ∧
      (LoopICountExecute.cuda_block_xyz_loop2.exec fuel1 k0 n0 k1 n1
        segment0 segment1).isSome = true ∧
      (LoopICountExecute.cuda_block_xyz_loop3.exec fuel1 k0 n0 k1 n1 k2 n2
        segment0 segment1 segment2).isSome = true) := by
  have hk0 : (0 : Int) ≤ (k0 : Int) := by omega
  have hk1 : (0 : Int) ≤ (k1 : Int) := by omega
  have hk2 : (0 : Int) ≤ (k2 : Int) := by omega
  have hg0 : (0 : Int) ≤ (n0 : Int) := by omega
  have hg1 : (0 : Int) ≤ (n1 : Int) := by omega
  have hg2 : (0 : Int) ≤ (n2 : Int) := by omega
  refine ⟨?_, ?_, ?_, ?_, ?_, ?_, ?_, ?_, ?_⟩
  · intro c hc
    unfold LoopICountExecute.cuda_thread_xyz_direct.exec at hc
    simp only [] at hc
    split at hc
    · rw [List.mem_singleton] at hc; subst hc; exact ⟨rfl, hk0, by assumption⟩
    · simp at hc
  · intro c hc
    unfold LoopICountExecute.cuda_block_xyz_direct.exec at hc
    simp only [] at hc
    split at hc
    · rw [List.mem_singleton] at hc; subst hc; exact ⟨rfl, hk0, by assumption⟩
    · simp at hc
  · intro tr htr
    exact icount_loop1_mem fuel k0 n0 segment0 tr htr
  · intro tr htr
    exact icount_loop1_mem fuel k0 n0 segment0 tr htr
  · intro c hc
    unfold LoopICountExecute.cuda_block_xyz_direct2.exec at hc
    simp only [] at hc
    split at hc
    · rename_i h
      rw [List.mem_singleton] at hc; subst hc
      exact ⟨⟨rfl, hk0, h.1⟩, ⟨rfl, hk1, h.2⟩⟩
    · simp at hc
  · intro c hc
    unfold LoopICountExecute.cuda_block_xyz_direct3.exec at hc
    simp only [] at hc
    split at hc
    · rename_i h
      rw [List.mem_singleton] at hc; subst hc
      exact ⟨⟨rfl, hk0, h.1⟩, ⟨rfl, hk1, h.2.1⟩, ⟨rfl, hk2, h.2.2⟩⟩
    · simp at hc
  · intro tr htr c hc
    obtain ⟨x, cx, hx0, hxl, hbx, hcx⟩ :=
      forLoopM_mem segment0.len (n0 : Int) hg0 _ fuel _ tr hk0 htr c hc
    obtain ⟨y, cy, hy0, hyl, hby, hcy⟩ :=
      forLoopM_mem segment1.len (n1 : Int) hg1 _ fuel _ cx hk1 hbx c hcx
    simp only [Option.some.injEq] at hby
    subst hby
    rw [List.mem_singleton] at hcy
    subst hcy
    exact ⟨⟨rfl, hx0, hxl⟩, ⟨rfl, hy0, hyl⟩⟩
  · intro tr htr c hc
    obtain ⟨x, cx, hx0, hxl, hbx, hcx⟩ :=
      forLoopM_mem segment0.len (n0 : Int) hg0 _ fuel _ tr hk0 htr c hc
    obtain ⟨y, cy, hy0, hyl, hby, hcy⟩ :=
      forLoopM_mem segment1.len (n1 : Int) hg1 _ fuel _ cx hk1 hbx c hcx
    obtain ⟨z, cz, hz0, hzl, hbz, hcz⟩ :=
      forLoopM_mem segment2.len (n2 : Int) hg2 _ fuel _ cy hk2 hby c hcy
    simp only [Option.some.injEq] at hbz
    subst hbz
    rw [List.mem_singleton] at hcz
    subst hcz
    exact ⟨⟨rfl, hx0, hxl⟩, ⟨rfl, hy0, hyl⟩, ⟨rfl, hz0, hzl⟩⟩
  · intro hn0 hn1 hn2
    obtain ⟨L0, h0⟩ := forLoop_returns k0 n0 segment0.len
      (segment0.len.toNat + segment1.len.toNat + segment2.len.toNat) hn0 (by omega)
    obtain ⟨L1, h1⟩ := forLoop_returns k1 n1 segment1.len
      (segment0.len.toNat + segment1.len.toNat + segment2.len.toNat) hn1 (by omega)
    obtain ⟨L2, h2⟩ := forLoop_returns k2 n2 segment2.len
      (segment0.len.toNat + segment1.len.toNat + segment2.len.toNat) hn2 (by omega)
    refine ⟨segment0.len.toNat + segment1.len.toNat + segment2.len.toNat, ?_, ?_, ?_, ?_⟩
    · simp only [LoopICountExecute.cuda_thread_xyz_loop.exec, h0 _ (le_refl _),
        Option.map_some', Option.isSome_some]
    · simp only [LoopICountExecute.cuda_block_xyz_loop.exec, h0 _ (le_refl _),
        Option.map_some', Option.isSome_some]
    · have := loop2_nested _ _ _ _ _ _ _ L0 L1 (h0 _ (le_refl _)) (h1 _ (le_refl _))
        (fun x y => ((segment0.elem x, segment1.elem y), (x, y)))
      simp only [LoopICountExecute.cuda_block_xyz_loop2.exec, this, Option.isSome_some]
    · have := loop3_nested _ _ _ _ _ _ _ _ _ _ L0 L1 L2 (h0 _ (le_refl _)) (h1 _ (le_refl _))
        (h2 _ (le_refl _))
        (fun x y z => ((segment0.elem x, segment1.elem y, segment2.elem z), (x, y, z)))
      simp only [LoopICountExecute.cuda_block_xyz_loop3.exec, this, Option.isSome_some]

/-! ## Strided advance by `+ k`, distance after `+=` -/

/-- C31 fails on the code: with offset 0 and stride 3, `it + 1` is built by the one-argument
constructor and has stride 1, so `(it + 1) + 1` dereferences to 4 and `++(it + 1)` to 4,
while `it + 2` dereferences to `0 + 2 * 3 = 6`. -/
theorem C31_strided_plus_drops_stride :
    (strided_numeric_iterator.addOffset ⟨0, 3⟩ 1).stride = 1 ∧
    strided_numeric_iterator.deref
      (strided_numeric_iterator.addOffset (strided_numeric_iterator.addOffset ⟨0, 3⟩ 1) 1) = 4 ∧
    strided_numeric_iterator.deref (strided_numeric_iterator.addOffset ⟨0, 3⟩ (1 + 1)) = 6 ∧
    strided_numeric_iterator.deref
      (strided_numeric_iterator.inc (strided_numeric_iterator.addOffset ⟨0, 3⟩ 1)) = 4 := by
  decide

/-- C32: for a stride `s ≥ 1` and strided cursors `a`, `b` of that stride, the difference
`a - b` is never negative, it is 0 whenever `a.val < b.val + s`, and for `k ≥ 0` the cursor
obtained from `b` by `+= k` is at distance `k` from `b`. -/
theorem C32_strided_distance_nonneg (s : Int) (hs : 1 ≤ s) (a b : strided_numeric_iterator)
    (ha : a.stride = s) (hb : b.stride = s) (k : Int) (hk : 0 ≤ k) :
    0 ≤ strided_numeric_iterator.sub a b ∧
    (a.val < b.val + s → strided_numeric_iterator.sub a b = 0) ∧
    strided_numeric_iterator.sub (strided_numeric_iterator.addAssign b k) b = k := by
  refine ⟨?_, ?_, ?_⟩
  · simp only [strided_numeric_iterator.sub, ha]
    by_cases hlt : a.val - b.val < s
    · rw [if_pos hlt]
    · have hd0 : 0 ≤ a.val - b.val := by omega
      have hq : 0 ≤ Int.tdiv (a.val - b.val) s := by
        rw [Int.tdiv_eq_ediv hd0 (by omega)]
        exact Int.ediv_nonneg hd0 (by omega)
      rw [if_neg hlt]
      split <;> omega
  · intro h
    simp only [strided_numeric_iterator.sub, ha]
    rw [if_pos (by omega)]
  · simp only [strided_numeric_iterator.sub, strided_numeric_iterator.addAssign, hb]
    have hdiff : b.val + k * s - b.val = k * s := by ring
    rw [hdiff]
    by_cases hk0 : k = 0
    · subst hk0
      simp only [zero_mul]
      rw [if_pos (by omega)]
    · have hk1 : 1 ≤ k := by omega
      have hge : s ≤ k * s := by
        have := Int.mul_le_mul_of_nonneg_right hk1 (by omega : 0 ≤ s)
        simpa using this
      rw [if_neg (by omega), Int.mul_tmod_left, Int.mul_tdiv_cancel _ (by omega : s ≠ 0)]
      simp

theorem C32_strided_distance_nonneg_witness :
    0 ≤ strided_numeric_iterator.sub ⟨7, 3⟩ ⟨0, 3⟩ ∧
    ((7 : Int) < 0 + 3 → strided_numeric_iterator.sub ⟨7, 3⟩ ⟨0, 3⟩ = 0) ∧
    strided_numeric_iterator.sub (strided_numeric_iterator.addAssign ⟨0, 3⟩ 5) ⟨0, 3⟩ = 5 :=
  C32_strided_distance_nonneg 3 (by decide) ⟨7, 3⟩ ⟨0, 3⟩ rfl rfl 5 (by decide)

/-! ## Direct dispatch on a topology smaller than the segment -/

/-- For an `Enumerater` built from a wrapped iterator `w`, a value `v` and an offset `o`,
whose wrapped iterator addition satisfies `(x + a) + b = x + (a + b)`: `*e` is the pair
`(o + v, w + v)`, `e[k]` is `(o + v + k, w + v + k)`, `e[0] = *e`, and after `++e` the
dereferenced pair is the previous `e[1]`. -/
theorem enumerater_pairs_additive {W : Type} (plus : W → Int → W)
    (hplus : ∀ (x : W) (a b : Int), plus (plus x a) b = plus x (a + b))
    (w : W) (v o k : Int) :
    Enumerater.deref plus (Enumerater.ctor w v o) = (o + v, plus w v) ∧
    Enumerater.index plus (Enumerater.ctor w v o) k = (o + v + k, plus (plus w v) k) ∧
    Enumerater.index plus (Enumerater.ctor w v o) 0 =
      Enumerater.deref plus (Enumerater.ctor w v o) ∧
    Enumerater.deref plus (Enumerater.inc (Enumerater.ctor w v o)) =
      Enumerater.index plus (Enumerater.ctor w v o) 1 := by
  refine ⟨rfl, ?_, ?_, ?_⟩
  · simp only [Enumerater.index, Enumerater.ctor, Prod.mk.injEq, and_true]
    ring
  · simp only [Enumerater.index, Enumerater.deref, Enumerater.ctor, Prod.mk.injEq]
    refine ⟨by ring, ?_⟩
    rw [hplus]
    simp
  · simp only [Enumerater.index, Enumerater.deref, Enumerater.inc, Enumerater.ctor,
      Prod.mk.injEq]
    refine ⟨by ring, ?_⟩
    rw [hplus]

/-! ## Loop dispatch with a 32-bit counter -/

theorem wrap32_of_range (x : Int) (h0 : -2147483648 ≤ x) (h1 : x < 2147483648) :
    wrap32 x = x := by
  unfold wrap32
  omega

theorem forLoop32_of_forLoop (len step : Int) (hstep : 0 ≤ step)
    (hb : len + step ≤ 2147483648) :
    ∀ (fuel : Nat) (t : Int) (l : List Int), 0 ≤ t → forLoop fuel t len step = some l →
      forLoop32 fuel t len step = (l, true) := by
  intro fuel
  induction fuel with
  | zero =>
    intro t l _ hl
    by_cases hlt : t < len
    · simp [forLoop, hlt] at hl
    · simp only [forLoop, if_neg hlt, Option.some.injEq] at hl
      subst hl
      simp [forLoop32, hlt]
  | succ fuel ih =>
    intro t l ht hl
    by_cases hlt : t < len
    · simp only [forLoop, if_pos hlt, Option.map_eq_some'] at hl
      obtain ⟨l1, hl1, rfl⟩ := hl
      have hw : wrap32 (t + step) = t + step := wrap32_of_range _ (by omega) (by omega)
      have h32 := ih (t + step) l1 (by omega) hl1
      simp only [forLoop32, if_pos hlt, hw, h32]
    · simp only [forLoop, if_neg hlt, Option.some.injEq] at hl
      subst hl
      simp only [forLoop32, if_neg hlt]

/-- C34 as stated fails: with `len = 2 ^ 31 - 1`, resource count `n = 2 ^ 31 - 1` and starting
coordinate `k = 1`, the 32-bit counter goes from 1 to `1 + n = 2 ^ 31`, which wraps to
`-2 ^ 31 < len`, so the second body call gets the offset `-2 ^ 31`, outside `[0, len)`;
this holds for every amount of fuel of at least two iterations. -/
theorem C34_counterexample :
    LoopExecute.cuda_thread_xyz_loop.exec32 2 1 2147483647 ⟨⟨0⟩, ⟨2147483647⟩⟩ =
      ([1, -2147483648], false) ∧
    LoopExecute.cuda_block_xyz_loop.exec32 2 1 2147483647 ⟨⟨0⟩, ⟨2147483647⟩⟩ =
      ([1, -2147483648], false) ∧
    ∀ fuel : Nat, ∃ x ∈
      (LoopExecute.cuda_thread_xyz_loop.exec32 (fuel + 2) 1 2147483647
        ⟨⟨0⟩, ⟨2147483647⟩⟩).1, x < 0 := by
  refine ⟨by decide, by decide, ?_⟩
  intro fuel
  refine ⟨-2147483648, ?_, by decide⟩
  have hlen : Segment.len ⟨⟨0⟩, ⟨2147483647⟩⟩ = 2147483647 := by decide
  have h1 : wrap32 ((1 : Nat) : Int) = 1 := by decide
  have h2 : wrap32 2147483647 = 2147483647 := by decide
  have h3 : wrap32 (1 + ((2147483647 : Nat) : Int)) = -2147483648 := by decide
  simp only [LoopExecute.cuda_thread_xyz_loop.exec32, hlen, h1, h2, forLoop32, h3]
  simp [Segment_elem_eq]

/-- C34, amended with the no-wrap condition `len + n ≤ 2 ^ 31`: for a segment of length
`0 ≤ len ≤ 2 ^ 31 - 1`, a resource count `1 ≤ n ≤ 2 ^ 31 - 1` with `len + n ≤ 2 ^ 31` and a
starting coordinate `k < n`, the loop-mode dispatch (thread and block variants) with a
wrapping 32-bit counter ends within `len` iterations, makes the same body calls as with an
unbounded counter, and every offset passed to the body lies in `[0, len)`. -/
theorem C34_loop_32bit_in_range (segment : Segment) (k n : Nat)
    (hlen0 : 0 ≤ segment.len) (hlen : segment.len ≤ 2147483647)
    (hn1 : 1 ≤ n) (hn : n ≤ 2147483647) (hk : k < n)
    (hsum : segment.len + (n : Int) ≤ 2147483648) :
    ∃ l : List Int,
      (∀ fuel : Nat, segment.len.toNat ≤ fuel →
        LoopExecute.cuda_thread_xyz_loop.exec32 fuel k n segment =
          (l.map (fun tx => segment.elem tx), true) ∧
        LoopExecute.cuda_block_xyz_loop.exec32 fuel k n segment =
          (l.map (fun tx => segment.elem tx), true) ∧
        LoopExecute.cuda_thread_xyz_loop.exec fuel k n segment =
          some (l.map (fun tx => segment.elem tx))) ∧
      (∀ tx ∈ l, 0 ≤ tx ∧ tx < segment.len) := by
  obtain ⟨l, hl⟩ := forLoop_returns k n segment.len segment.len.toNat hn1 (by omega)
  have hwl : wrap32 segment.len = segment.len := wrap32_of_range _ (by omega) (by omega)
  have hwk : wrap32 (k : Int) = (k : Int) := wrap32_of_range _ (by omega) (by omega)
  refine ⟨l, ?_, ?_⟩
  · intro fuel hf
    have h32 := forLoop32_of_forLoop segment.len (n : Int) (by omega) hsum fuel (k : Int) l
      (by omega) (hl fuel hf)
    refine ⟨?_, ?_, ?_⟩
    · simp only [LoopExecute.cuda_thread_xyz_loop.exec32, hwl, hwk, h32]
    · simp only [LoopExecute.cuda_block_xyz_loop.exec32, hwl, hwk, h32]
    · simp only [LoopExecute.cuda_thread_xyz_loop.exec, hl fuel hf, Option.map_some']
  · exact forLoop_bounds segment.len (n : Int) (by omega) segment.len.toNat (k : Int) l
      (by omega) (hl _ (le_refl _))

theorem C34_loop_32bit_in_range_witness :
    ∃ l : List Int,
      (∀ fuel : Nat, (Segment.len ⟨⟨10⟩, ⟨40⟩⟩).toNat ≤ fuel →
        LoopExecute.cuda_thread_xyz_loop.exec32 fuel 3 8 ⟨⟨10⟩, ⟨40⟩⟩ =
          (l.map (fun tx => Segment.elem ⟨⟨10⟩, ⟨40⟩⟩ tx), true) ∧
        LoopExecute.cuda_block_xyz_loop.exec32 fuel 3 8 ⟨⟨10⟩, ⟨40⟩⟩ =
          (l.map (fun tx => Segment.elem ⟨⟨10⟩, ⟨40⟩⟩ tx), true) ∧
        LoopExecute.cuda_thread_xyz_loop.exec fuel 3 8 ⟨⟨10⟩, ⟨40⟩⟩ =
          some (l.map (fun tx => Segment.elem ⟨⟨10⟩, ⟨40⟩⟩ tx))) ∧
      (∀ tx ∈ l, 0 ≤ tx ∧ tx < Segment.len ⟨⟨10⟩, ⟨40⟩⟩) :=
  C34_loop_32bit_in_range ⟨⟨10⟩, ⟨40⟩⟩ 3 8 (by decide) (by decide) (by decide) (by decide)
    (by decide) (by decide)

/-! ## 32-bit counters against unbounded counters -/

theorem forLoop32_bounds (len step : Int) (hstep : 0 ≤ step) (hb : len + step ≤ 2147483648) :
    ∀ (fuel : Nat) (t : Int), 0 ≤ t →
      ∀ x ∈ (forLoop32 fuel t len step).1, 0 ≤ x ∧ x < len := by
  intro fuel
  induction fuel with
  | zero =>
    intro t _ x hx
    simp [forLoop32] at hx
  | succ f ih =>
    intro t ht x hx
    by_cases hlt : t < len
    · simp only [forLoop32, if_pos hlt] at hx
      rcases List.mem_cons.1 hx with rfl | hxr
      · exact ⟨ht, hlt⟩
      · have hw : wrap32 (t + step) = t + step := wrap32_of_range _ (by omega) (by omega)
        rw [hw] at hxr
        exact ih (t + step) (by omega) x hxr
    · simp [forLoop32, hlt] at hx

theorem loop32_of_loop {β : Type} (f : Int → β) (fuel : Nat) (t step len : Int) (L : List β)
    (ht0 : 0 ≤ t) (ht1 : t < 2147483648) (hstep : 0 ≤ step)
    (hlen0 : -2147483648 ≤ len) (hlen1 : len < 2147483648) (hsum : len + step ≤ 2147483648)
    (h : (forLoop fuel t len step).map (fun l => l.map f) = some L) :
    ((forLoop32 fuel (wrap32 t) (wrap32 len) step).1.map f,
      (forLoop32 fuel (wrap32 t) (wrap32 len) step).2) = (L, true) := by
  rw [wrap32_of_range t (by omega) ht1, wrap32_of_range len hlen0 hlen1]
  simp only [Option.map_eq_some'] at h
  obtain ⟨l, hl, rfl⟩ := h
  rw [forLoop32_of_forLoop len step hstep hsum fuel t l ht0 hl]

theorem forLoopM32_of_forLoopM {α : Type} (len step : Int) (hstep : 0 ≤ step)
    (hb : len + step ≤ 2147483648) (body : Int → Option (List α))
    (body32 : Int → List α × Bool)
    (hbody : ∀ (x : Int) (c : List α), 0 ≤ x → x < len → body x = some c →
      body32 x = (c, true)) :
    ∀ (fuel : Nat) (t : Int) (r : List α), 0 ≤ t → forLoopM fuel t len step body = some r →
      forLoopM32 fuel t len step body32 = (r, true) := by
  intro fuel
  induction fuel with
  | zero =>
    intro t r _ hr
    by_cases hlt : t < len
    · simp [forLoopM, hlt] at hr
    · simp only [forLoopM, if_neg hlt, Option.some.injEq] at hr
      subst hr
      simp [forLoopM32, hlt]
  | succ f ih =>
    intro t r ht hr
    by_cases hlt : t < len
    · simp only [forLoopM, if_pos hlt] at hr
      cases hbt : body t with
      | none => simp [hbt] at hr
      | some calls =>
        simp only [hbt, Option.map_eq_some'] at hr
        obtain ⟨r1, hr1, rfl⟩ := hr
        have hw : wrap32 (t + step) = t + step := wrap32_of_range _ (by omega) (by omega)
        have h32 := ih (t + step) r1 (by omega) hr1
        have hb32 := hbody t calls ht hlt hbt
        simp only [forLoopM32, if_pos hlt, hw, h32, hb32, if_true]
    · simp only [forLoopM, if_neg hlt, Option.some.injEq] at hr
      subst hr
      simp only [forLoopM32, if_neg hlt]

theorem forLoopM32_mem {α : Type} (len step : Int) (hstep : 0 ≤ step)
    (hb : len + step ≤ 2147483648) (body : Int → List α × Bool) :
    ∀ (fuel : Nat) (t : Int), 0 ≤ t →
      ∀ e ∈ (forLoopM32 fuel t len step body).1,
        ∃ x : Int, 0 ≤ x ∧ x < len ∧ e ∈ (body x).1 := by
  intro fuel
  induction fuel with
  | zero =>
    intro t _ e he
    simp [forLoopM32] at he
  | succ f ih =>
    intro t ht e he
    by_cases hlt : t < len
    · have hw : wrap32 (t + step) = t + step := wrap32_of_range _ (by omega) (by omega)
      by_cases hbt : (body t).2 = true
      · simp only [forLoopM32, if_pos hlt, hbt, if_true, hw] at he
        rcases List.mem_append.1 he with hc | hrest
        · exact ⟨t, ht, hlt, hc⟩
        · exact ih (t + step) (by omega) e hrest
      · simp only [forLoopM32, if_pos hlt, hbt] at he
        exact ⟨t, ht, hlt, by simpa using he⟩
    · simp [forLoopM32, hlt] at he

theorem loop2_32_mem {α : Type} (call : Int → Int → α) (fuel : Nat)
    (t0 len0 step0 t1 len1 step1 : Int)
    (hs0 : 0 ≤ step0) (hb0 : len0 + step0 ≤ 2147483648) (ht0 : 0 ≤ t0)
    (hs1 : 0 ≤ step1) (hb1 : len1 + step1 ≤ 2147483648) (ht1 : 0 ≤ t1) :
    ∀ c ∈ (forLoopM32 fuel t0 len0 step0 (fun bx =>
        forLoopM32 fuel t1 len1 step1 (fun by_ => ([call bx by_], true)))).1,
      ∃ x y : Int, (0 ≤ x ∧ x < len0) ∧ (0 ≤ y ∧ y < len1) ∧ c = call x y := by
  intro c hc
  obtain ⟨x, hx0, hxl, hcx⟩ := forLoopM32_mem len0 step0 hs0 hb0
    (fun bx => forLoopM32 fuel t1 len1 step1 (fun by_ => ([call bx by_], true))) fuel t0 ht0 c hc
  obtain ⟨y, hy0, hyl, hcy⟩ := forLoopM32_mem len1 step1 hs1 hb1
    (fun by_ => ([call x by_], true)) fuel t1 ht1 c hcx
  exact ⟨x, y, ⟨hx0, hxl⟩, ⟨hy0, hyl⟩, List.mem_singleton.1 hcy⟩

theorem loop3_32_mem {α : Type} (call : Int → Int → Int → α) (fuel : Nat)
    (t0 len0 step0 t1 len1 step1 t2 len2 step2 : Int)
    (hs0 : 0 ≤ step0) (hb0 : len0 + step0 ≤ 2147483648) (ht0 : 0 ≤ t0)
    (hs1 : 0 ≤ step1) (hb1 : len1 + step1 ≤ 2147483648) (ht1 : 0 ≤ t1)
    (hs2 : 0 ≤ step2) (hb2 : len2 + step2 ≤ 2147483648) (ht2 : 0 ≤ t2) :
    ∀ c ∈ (forLoopM32 fuel t0 len0 step0 (fun bx =>
        forLoopM32 fuel t1 len1 step1 (fun by_ =>
          forLoopM32 fuel t2 len2 step2 (fun bz => ([call bx by_ bz], true))))).1,
      ∃ x y z : Int, (0 ≤ x ∧ x < len0) ∧ (0 ≤ y ∧ y < len1) ∧ (0 ≤ z ∧ z < len2) ∧
        c = call x y z := by
  intro c hc
  obtain ⟨x, hx0, hxl, hcx⟩ := forLoopM32_mem len0 step0 hs0 hb0
    (fun bx => forLoopM32 fuel t1 len1 step1 (fun by_ =>
      forLoopM32 fuel t2 len2 step2 (fun bz => ([call bx by_ bz], true)))) fuel t0 ht0 c hc
  obtain ⟨y, z, hy, hz, hcz⟩ := loop2_32_mem (call x) fuel t1 len1 step1 t2 len2 step2
    hs1 hb1 ht1 hs2 hb2 ht2 c hcx
  exact ⟨x, y, z, ⟨hx0, hxl⟩, hy, hz, hcz⟩

theorem loop2_32_of_loop2 {α : Type} (call : Int → Int → α) (fuel : Nat)
    (t0 len0 step0 t1 len1 step1 : Int) (r : List α)
    (hs0 : 0 ≤ step0) (hb0 : len0 + step0 ≤ 2147483648) (ht0 : 0 ≤ t0)
    (hs1 : 0 ≤ step1) (hb1 : len1 + step1 ≤ 2147483648) (ht1 : 0 ≤ t1)
    (h : forLoopM fuel t0 len0 step0 (fun bx =>
      forLoopM fuel t1 len1 step1 (fun by_ => some [call bx by_])) = some r) :
    forLoopM32 fuel t0 len0 step0 (fun bx =>
      forLoopM32 fuel t1 len1 step1 (fun by_ => ([call bx by_], true))) = (r, true) :=
  forLoopM32_of_forLoopM len0 step0 hs0 hb0 _ _
    (fun x c _ _ hc => forLoopM32_of_forLoopM len1 step1 hs1 hb1 _ _
      (fun y d _ _ hd => by
        simp only [Option.some.injEq] at hd
        rw [hd]) fuel t1 c ht1 hc) fuel t0 r ht0 h

theorem loop3_32_of_loop3 {α : Type} (call : Int → Int → Int → α) (fuel : Nat)
    (t0 len0 step0 t1 len1 step1 t2 len2 step2 : Int) (r : List α)
    (hs0 : 0 ≤ step0) (hb0 : len0 + step0 ≤ 2147483648) (ht0 : 0 ≤ t0)
    (hs1 : 0 ≤ step1) (hb1 : len1 + step1 ≤ 2147483648) (ht1 : 0 ≤ t1)
    (hs2 : 0 ≤ step2) (hb2 : len2 + step2 ≤ 2147483648) (ht2 : 0 ≤ t2)
    (h : forLoopM fuel t0 len0 step0 (fun bx =>
      forLoopM fuel t1 len1 step1 (fun by_ =>
        forLoopM fuel t2 len2 step2 (fun bz => some [call bx by_ bz]))) = some r) :
    forLoopM32 fuel t0 len0 step0 (fun bx =>
      forLoopM32 fuel t1 len1 step1 (fun by_ =>
        forLoopM32 fuel t2 len2 step2 (fun bz => ([call bx by_ bz], true)))) = (r, true) :=
  forLoopM32_of_forLoopM len0 step0 hs0 hb0 _ _
    (fun x c _ _ hc => loop2_32_of_loop2 (call x) fuel t1 len1 step1 t2 len2 step2 c
      hs1 hb1 ht1 hs2 hb2 ht2 hc) fuel t0 r ht0 h

theorem loop_exec32_of_exec (fuel k n : Nat) (segment : Segment) (L : List Int)
    (hk : (k : Int) < 2147483648) (hlen0 : -2147483648 ≤ segment.len)
    (hlen1 : segment.len < 2147483648) (hsum : segment.len + (n : Int) ≤ 2147483648) :
    (LoopExecute.cuda_thread_xyz_loop.exec fuel k n segment = some L →
      LoopExecute.cuda_thread_xyz_loop.exec32 fuel k n segment = (L, true)) ∧
    (LoopExecute.cuda_block_xyz_loop.exec fuel k n segment = some L →
      LoopExecute.cuda_block_xyz_loop.exec32 fuel k n segment = (L, true)) :=
  ⟨fun h => loop32_of_loop (fun tx => segment.elem tx) fuel (k : Int) (n : Int) segment.len L
      (by omega) hk (by omega) hlen0 hlen1 hsum h,
   fun h => loop32_of_loop (fun tx => segment.elem tx) fuel (k : Int) (n : Int) segment.len L
      (by omega) hk (by omega) hlen0 hlen1 hsum h⟩

theorem icount_loop_exec32_of_exec (fuel k n : Nat) (segment : Segment) (L : List (Int × Int))
    (hk : (k : Int) < 2147483648) (hlen0 : -2147483648 ≤ segment.len)
    (hlen1 : segment.len < 2147483648) (hsum : segment.len + (n : Int) ≤ 2147483648) :
    (LoopICountExecute.cuda_thread_xyz_loop.exec fuel k n segment = some L →
      LoopICountExecute.cuda_thread_xyz_loop.exec32 fuel k n segment = (L, true)) ∧
    (LoopICountExecute.cuda_block_xyz_loop.exec fuel k n segment = some L →
      LoopICountExecute.cuda_block_xyz_loop.exec32 fuel k n segment = (L, true)) :=
  ⟨fun h => loop32_of_loop (fun tx => (segment.elem tx, tx)) fuel (k : Int) (n : Int)
      segment.len L (by omega) hk (by omega) hlen0 hlen1 hsum h,
   fun h => loop32_of_loop (fun tx => (segment.elem tx, tx)) fuel (k : Int) (n : Int)
      segment.len L (by omega) hk (by omega) hlen0 hlen1 hsum h⟩

theorem loop2_exec32_of_exec (fuel k0 n0 k1 n1 : Nat) (segment0 segment1 : Segment)
    (hk0 : (k0 : Int) < 2147483648) (hl0 : -2147483648 ≤ segment0.len)
    (hu0 : segment0.len < 2147483648) (hs0 : segment0.len + (n0 : Int) ≤ 2147483648)
    (hk1 : (k1 : Int) < 2147483648) (hl1 : -2147483648 ≤ segment1.len)
    (hu1 : segment1.len < 2147483648) (hs1 : segment1.len + (n1 : Int) ≤ 2147483648) :
    (∀ L, LoopExecute.cuda_block_xyz_loop2.exec fuel k0 n0 k1 n1 segment0 segment1 = some L →
      LoopExecute.cuda_block_xyz_loop2.exec32 fuel k0 n0 k1 n1 segment0 segment1 = (L, true)) ∧
    (∀ L, LoopICountExecute.cuda_block_xyz_loop2.exec fuel k0 n0 k1 n1 segment0 segment1 =
        some L →
      LoopICountExecute.cuda_block_xyz_loop2.exec32 fuel k0 n0 k1 n1 segment0 segment1 =
        (L, true)) := by
  constructor
  · intro L h
    unfold LoopExecute.cuda_block_xyz_loop2.exec32
    simp only []
    rw [wrap32_of_range _ (by omega) hk0, wrap32_of_range _ (by omega) hk1,
      wrap32_of_range _ hl0 hu0, wrap32_of_range _ hl1 hu1]
    exact loop2_32_of_loop2 (fun x y => (segment0.elem x, segment1.elem y)) fuel _ _ _ _ _ _ L
      (by omega) hs0 (by omega) (by omega) hs1 (by omega) h
  · intro L h
    unfold LoopICountExecute.cuda_block_xyz_loop2.exec32
    simp only []
    rw [wrap32_of_range _ (by omega) hk0, wrap32_of_range _ (by omega) hk1,
      wrap32_of_range _ hl0 hu0, wrap32_of_range _ hl1 hu1]
    exact loop2_32_of_loop2 (fun x y => ((segment0.elem x, segment1.elem y), (x, y))) fuel
      _ _ _ _ _ _ L (by omega) hs0 (by omega) (by omega) hs1 (by omega) h

theorem loop3_exec32_of_exec (fuel k0 n0 k1 n1 k2 n2 : Nat)
    (segment0 segment1 segment2 : Segment)
    (hk0 : (k0 : Int) < 2147483648) (hl0 : -2147483648 ≤ segment0.len)
    (hu0 : segment0.len < 2147483648) (hs0 : segment0.len + (n0 : Int) ≤ 2147483648)
    (hk1 : (k1 : Int) < 2147483648) (hl1 : -2147483648 ≤ segment1.len)
    (hu1 : segment1.len < 2147483648) (hs1 : segment1.len + (n1 : Int) ≤ 2147483648)
    (hk2 : (k2 : Int) < 2147483648) (hl2 : -2147483648 ≤ segment2.len)
    (hu2 : segment2.len < 2147483648) (hs2 : segment2.len + (n2 : Int) ≤ 2147483648) :
    (∀ L, LoopExecute.cuda_block_xyz_loop3.exec fuel k0 n0 k1 n1 k2 n2
        segment0 segment1 segment2 = some L →
      LoopExecute.cuda_block_xyz_loop3.exec32 fuel k0 n0 k1 n1 k2 n2
        segment0 segment1 segment2 = (L, true)) ∧
    (∀ L, LoopICountExecute.cuda_block_xyz_loop3.exec fuel k0 n0 k1 n1 k2 n2
        segment0 segment1 segment2 = some L →
      LoopICountExecute.cuda_block_xyz_loop3.exec32 fuel k0 n0 k1 n1 k2 n2
        segment0 segment1 segment2 = (L, true)) := by
  constructor
  · intro L h
    unfold LoopExecute.cuda_block_xyz_loop3.exec32
    simp only []
    rw [wrap32_of_range _ (by omega) hk0, wrap32_of_range _ (by omega) hk1,
      wrap32_of_range _ (by omega) hk2, wrap32_of_range _ hl0 hu0,
      wrap32_of_range _ hl1 hu1, wrap32_of_range _ hl2 hu2]
    exact loop3_32_of_loop3
      (fun x y z => (segment0.elem x, segment1.elem y, segment2.elem z)) fuel
      _ _ _ _ _ _ _ _ _ L (by omega) hs0 (by omega) (by omega) hs1 (by omega)
      (by omega) hs2 (by omega) h
  · intro L h
    unfold LoopICountExecute.cuda_block_xyz_loop3.exec32
    simp only []
    rw [wrap32_of_range _ (by omega) hk0, wrap32_of_range _ (by omega) hk1,
      wrap32_of_range _ (by omega) hk2, wrap32_of_range _ hl0 hu0,
      wrap32_of_range _ hl1 hu1, wrap32_of_range _ hl2 hu2]
    exact loop3_32_of_loop3
      (fun x y z => ((segment0.elem x, segment1.elem y, segment2.elem z), (x, y, z))) fuel
      _ _ _ _ _ _ _ _ _ L (by omega) hs0 (by omega) (by omega) hs1 (by omega)
      (by omega) hs2 (by omega) h

theorem tile_exec32_of_exec (fuel k n : Nat) (T : Int) (segment : Segment)
    (L : List (Int × Int)) (hT : 0 ≤ T) (hk : (k : Int) * T < 2147483648)
    (hlen0 : -2147483648 ≤ segment.len) (hlen1 : segment.len < 2147483648)
    (hsum : segment.len + (n : Int) * T ≤ 2147483648) :
    (TileExecute.cuda_thread_xyz_loop.exec fuel k n T segment = some L →
      TileExecute.cuda_thread_xyz_loop.exec32 fuel k n T segment = (L, true)) ∧
    (TileExecute.cuda_block_xyz_loop.exec fuel k n T segment = some L →
      TileExecute.cuda_block_xyz_loop.exec32 fuel k n T segment = (L, true)) :=
  ⟨fun h => loop32_of_loop (fun tx => (tx, T)) fuel ((k : Int) * T) ((n : Int) * T)
      segment.len L (Int.mul_nonneg (by omega) hT) hk (Int.mul_nonneg (by omega) hT)
      hlen0 hlen1 hsum h,
   fun h => loop32_of_loop (fun tx => (tx, T)) fuel ((k : Int) * T) ((n : Int) * T)
      segment.len L (Int.mul_nonneg (by omega) hT) hk (Int.mul_nonneg (by omega) hT)
      hlen0 hlen1 hsum h⟩

theorem tile_icount_exec32_of_exec (fuel k n : Nat) (T : Int) (segment : Segment)
    (L : List ((Int × Int) × Int)) (hT : 1 ≤ T) (hk : (k : Int) * T < 2147483648)
    (hlen0 : -2147483648 ≤ segment.len) (hlen1 : segment.len < 2147483648)
    (hsum : segment.len + (n : Int) * T ≤ 2147483648) :
    (TileICountExecute.cuda_thread_xyz_loop.exec fuel k n T segment = some L →
      TileICountExecute.cuda_thread_xyz_loop.exec32 fuel k n T segment =
        (L.map (fun e => (e.1, some e.2)), true)) ∧
    (TileICountExecute.cuda_block_xyz_loop.exec fuel k n T segment = some L →
      TileICountExecute.cuda_block_xyz_loop.exec32 fuel k n T segment =
        (L.map (fun e => (e.1, some e.2)), true)) := by
  have hT0 : T ≠ 0 := by omega
  have hkey : (forLoop fuel ((k : Int) * T) segment.len ((n : Int) * T)).map
        (fun l => l.map (fun tx => ((tx, T), Int.tdiv tx T))) = some L →
      (forLoop fuel ((k : Int) * T) segment.len ((n : Int) * T)).map
        (fun l => l.map (fun tx => ((tx, T), tileIndex tx T))) =
        some (L.map (fun e => (e.1, some e.2))) := by
    intro h
    simp only [Option.map_eq_some'] at h
    obtain ⟨l, hl, rfl⟩ := h
    simp [hl, tileIndex, hT0, Function.comp_def]
  exact ⟨fun h => loop32_of_loop (fun tx => ((tx, T), tileIndex tx T)) fuel ((k : Int) * T)
      ((n : Int) * T) segment.len _ (Int.mul_nonneg (by omega) (by omega)) hk
      (Int.mul_nonneg (by omega) (by omega)) hlen0 hlen1 hsum (hkey h),
    fun h => loop32_of_loop (fun tx => ((tx, T), tileIndex tx T)) fuel ((k : Int) * T)
      ((n : Int) * T) segment.len _ (Int.mul_nonneg (by omega) (by omega)) hk
      (Int.mul_nonneg (by omega) (by omega)) hlen0 hlen1 hsum (hkey h)⟩

theorem global_tx_eq (t B b : Nat) (h : ((t + B * b : Nat) : Int) < 2147483648) :
    LoopExecute.cuda_global_thread.tx t B b = ((t + B * b : Nat) : Int) :=
  wrap32_of_range _ (by omega) h

theorem global_exec32_eq (t B b : Nat) (segment : Segment)
    (h : ((t + B * b : Nat) : Int) < 2147483648)
    (hlen0 : -2147483648 ≤ segment.len) (hlen1 : segment.len < 2147483648) :
    LoopExecute.cuda_global_thread.exec32 t B b segment =
      LoopExecute.cuda_global_thread.exec t B b segment := by
  unfold LoopExecute.cuda_global_thread.exec32 LoopExecute.cuda_global_thread.exec
  simp only [global_tx_eq t B b h, wrap32_of_range _ hlen0 hlen1]

theorem global2_exec32_eq (t0 B0 b0 t1 B1 b1 : Nat) (segment0 segment1 : Segment)
    (h0 : ((t0 + B0 * b0 : Nat) : Int) < 2147483648)
    (h1 : ((t1 + B1 * b1 : Nat) : Int) < 2147483648)
    (hl0 : -2147483648 ≤ segment0.len) (hu0 : segment0.len < 2147483648)
    (hl1 : -2147483648 ≤ segment1.len) (hu1 : segment1.len < 2147483648) :
    LoopExecute.cuda_global_thread2.exec32 t0 B0 b0 t1 B1 b1 segment0 segment1 =
      LoopExecute.cuda_global_thread2.exec t0 B0 b0 t1 B1 b1 segment0 segment1 := by
  unfold LoopExecute.cuda_global_thread2.exec32 LoopExecute.cuda_global_thread2.exec
  simp only [global_tx_eq t0 B0 b0 h0, global_tx_eq t1 B1 b1 h1,
    wrap32_of_range _ hl0 hu0, wrap32_of_range _ hl1 hu1]

theorem runAxis_congr {α : Type} (n : Nat) (f g : Nat → List α)
    (h : ∀ i : Nat, i < n → f i = g i) : runAxis n f = runAxis n g := by
  unfold runAxis
  induction n with
  | zero => simp
  | succ m ih =>
    rw [List.range_succ, List.flatMap_append, List.flatMap_append,
      ih (fun i hi => h i (by omega)), List.flatMap_singleton, List.flatMap_singleton,
      h m (by omega)]

theorem runAxes2_congr {α : Type} (n0 n1 : Nat) (f g : Nat → Nat → List α)
    (h : ∀ i j : Nat, i < n0 → j < n1 → f i j = g i j) :
    runAxes2 n0 n1 f = runAxes2 n0 n1 g :=
  runAxis_congr n0 _ _ (fun i hi => runAxis_congr n1 _ _ (fun j hj => h i j hi hj))

/-! ## Loop dispatch, 1-D, with 32-bit counters -/

/-- C1 as stated fails: with `gridDim = 2 ^ 31 - 1` and block 1 on the segment `[0, 2)` the
32-bit counter wraps and the body is called with the offsets `1, -2 ^ 31, -1`; on a segment of
length `2 ^ 31 - 1` the same block goes on to call the body for the index `2 ^ 31 - 2`, which
is not `1` modulo `n`, and block `2 ^ 31 - 2` calls the body for that index too. -/
theorem C1_counterexample :
    LoopExecute.cuda_block_xyz_loop.exec32 4 1 2147483647 ⟨⟨0⟩, ⟨2⟩⟩ =
      ([1, -2147483648, -1], true) ∧
    LoopExecute.cuda_block_xyz_loop.exec32 4 1 2147483647 ⟨⟨0⟩, ⟨2147483647⟩⟩ =
      ([1, -2147483648, -1, 2147483646], false) ∧
    (2147483646 : Int) ∈
      (LoopExecute.cuda_block_xyz_loop.exec32 4 2147483646 2147483647
        ⟨⟨0⟩, ⟨2147483647⟩⟩).1 ∧
    (2147483646 : Nat) % 2147483647 ≠ 1 := by
  decide

/-- C1 (amended): for a segment of length `len ≥ 0` and a resource count `n ≥ 1` with
`len + n ≤ 2 ^ 31`, there is an amount of fuel with which the loop dispatch with 32-bit
counters (thread and block variants) ends at every coordinate `k < n`; every call it makes is
for a logical index of `[0, len)`; the index `i` is called once by coordinate `i % n` and by
no other coordinate, hence exactly once over the whole topology. -/
theorem C1_loop_1d_coverage (segment : Segment) (n : Nat) (hn : 1 ≤ n)
    (hlen : 0 ≤ segment.len) (hsum : segment.len + (n : Int) ≤ 2147483648) :
    ∃ (fuel : Nat) (tr : Nat → List Int),
      (∀ k : Nat, k < n →
        LoopExecute.cuda_thread_xyz_loop.exec32 fuel k n segment = (tr k, true) ∧
        LoopExecute.cuda_block_xyz_loop.exec32 fuel k n segment = (tr k, true) ∧
        (∀ x ∈ tr k, ∃ i : Nat, (i : Int) < segment.len ∧ x = segment.elem i)) ∧
      (∀ i : Nat, (i : Int) < segment.len →
        (∀ k : Nat, k < n → (tr k).count (segment.elem i) = if k = i % n then 1 else 0) ∧
        (∑ k in Finset.range n, (tr k).count (segment.elem i)) = 1) := by
  obtain ⟨fuel, tr, h1, h2⟩ := loop_1d_coverage_exact segment n hn
  refine ⟨fuel, tr, fun k hk => ?_, h2⟩
  have hb := loop_exec32_of_exec fuel k n segment (tr k) (by omega) (by omega) (by omega) hsum
  exact ⟨hb.1 (h1 k hk).1, hb.2 (h1 k hk).2.1, (h1 k hk).2.2⟩

theorem C1_loop_1d_coverage_witness :
    ∃ (fuel : Nat) (tr : Nat → List Int),
      (∀ k : Nat, k < 8 →
        LoopExecute.cuda_thread_xyz_loop.exec32 fuel k 8 ⟨⟨0⟩, ⟨100⟩⟩ = (tr k, true) ∧
        LoopExecute.cuda_block_xyz_loop.exec32 fuel k 8 ⟨⟨0⟩, ⟨100⟩⟩ = (tr k, true) ∧
        (∀ x ∈ tr k, ∃ i : Nat, (i : Int) < Segment.len ⟨⟨0⟩, ⟨100⟩⟩ ∧
          x = Segment.elem ⟨⟨0⟩, ⟨100⟩⟩ i)) ∧
      (∀ i : Nat, (i : Int) < Segment.len ⟨⟨0⟩, ⟨100⟩⟩ →
        (∀ k : Nat, k < 8 →
          (tr k).count (Segment.elem ⟨⟨0⟩, ⟨100⟩⟩ i) = if k = i % 8 then 1 else 0) ∧
        (∑ k in Finset.range 8, (tr k).count (Segment.elem ⟨⟨0⟩, ⟨100⟩⟩ i)) = 1) :=
  C1_loop_1d_coverage ⟨⟨0⟩, ⟨100⟩⟩ 8 (by decide) (by decide) (by decide)

/-- C11 as stated fails: for coordinate 1 with resource count `2 ^ 31 - 1` on the segment
`[10, 12)` the claimed sequence is the single call `begin + 1 = 11`, but the 32-bit counter
wraps and the body is called with `11`, `10 - 2 ^ 31` and `9`, not in increasing order. -/
theorem C11_counterexample :
    LoopExecute.cuda_thread_xyz_loop.exec32 4 1 2147483647 ⟨⟨10⟩, ⟨12⟩⟩ =
      ([11, -2147483638, 9], true) ∧
    LoopExecute.cuda_block_xyz_loop.exec32 4 1 2147483647 ⟨⟨10⟩, ⟨12⟩⟩ =
      ([11, -2147483638, 9], true) ∧
    (List.range 1).map (fun j : Nat => (10 : Int) + (1 + (j : Int) * 2147483647)) = [11] ∧
    ¬ ((1 : Int) + 1 * 2147483647 < Segment.len ⟨⟨10⟩, ⟨12⟩⟩) := by
  decide

/-- C11 (amended): for a coordinate `k < 2 ^ 31`, a resource count `n ≥ 1` and a segment of
length `len ≥ -2 ^ 31` with `len + n ≤ 2 ^ 31`, the loop dispatch with 32-bit counters (thread
and block variants) ends, and its body calls are `begin + k`, `begin + k + n`,
`begin + k + 2n`, ... for exactly the offsets `k + j * n < len`, in strictly increasing order;
there is none when `k ≥ len` and there are `⌈(len - k) / n⌉` of them otherwise. -/
theorem C11_loop_1d_sequence (segment : Segment) (k n : Nat) (hn : 1 ≤ n)
    (hk : (k : Int) < 2147483648) (hlen : -2147483648 ≤ segment.len)
    (hsum : segment.len + (n : Int) ≤ 2147483648) :
    ∃ (fuel m : Nat),
      LoopExecute.cuda_thread_xyz_loop.exec32 fuel k n segment =
        ((List.range m).map
          (fun j : Nat => segment.begin.val + ((k : Int) + (j : Int) * (n : Int))), true) ∧
      LoopExecute.cuda_block_xyz_loop.exec32 fuel k n segment =
        ((List.range m).map
          (fun j : Nat => segment.begin.val + ((k : Int) + (j : Int) * (n : Int))), true) ∧
      (∀ j : Nat, j < m ↔ (k : Int) + (j : Int) * (n : Int) < segment.len) ∧
      List.Pairwise (fun a b : Int => a < b) ((List.range m).map
          (fun j : Nat => segment.begin.val + ((k : Int) + (j : Int) * (n : Int)))) ∧
      (segment.len ≤ (k : Int) → m = 0) ∧
      ((k : Int) < segment.len →
        (m : Int) = ⌈((segment.len - (k : Int) : Int) : ℚ) / ((n : Int) : ℚ)⌉) := by
  obtain ⟨fuel, m, h1, h2, h3⟩ := loop_1d_sequence_exact segment k n hn
  exact ⟨fuel, m,
    (loop_exec32_of_exec fuel k n segment _ hk hlen (by omega) hsum).1 h1,
    (loop_exec32_of_exec fuel k n segment _ hk hlen (by omega) hsum).2 h2, h3⟩

theorem C11_loop_1d_sequence_witness :
    ∃ (fuel m : Nat),
      LoopExecute.cuda_thread_xyz_loop.exec32 fuel 3 8 ⟨⟨10⟩, ⟨40⟩⟩ =
        ((List.range m).map
          (fun j : Nat => (10 : Int) + (((3 : Nat) : Int) + (j : Int) * ((8 : Nat) : Int))),
          true) ∧
      LoopExecute.cuda_block_xyz_loop.exec32 fuel 3 8 ⟨⟨10⟩, ⟨40⟩⟩ =
        ((List.range m).map
          (fun j : Nat => (10 : Int) + (((3 : Nat) : Int) + (j : Int) * ((8 : Nat) : Int))),
          true) ∧
      (∀ j : Nat, j < m ↔
        ((3 : Nat) : Int) + (j : Int) * ((8 : Nat) : Int) < Segment.len ⟨⟨10⟩, ⟨40⟩⟩) ∧
      List.Pairwise (fun a b : Int => a < b) ((List.range m).map
          (fun j : Nat => (10 : Int) + (((3 : Nat) : Int) + (j : Int) * ((8 : Nat) : Int)))) ∧
      (Segment.len ⟨⟨10⟩, ⟨40⟩⟩ ≤ ((3 : Nat) : Int) → m = 0) ∧
      (((3 : Nat) : Int) < Segment.len ⟨⟨10⟩, ⟨40⟩⟩ →
        (m : Int) = ⌈((Segment.len ⟨⟨10⟩, ⟨40⟩⟩ - ((3 : Nat) : Int) : Int) : ℚ) /
          (((8 : Nat) : Int) : ℚ)⌉) :=
  C11_loop_1d_sequence ⟨⟨10⟩, ⟨40⟩⟩ 3 8 (by decide) (by decide) (by decide) (by decide)

/-! ## Global-thread dispatch with 32-bit coordinates -/

/-- C10 as stated fails: with `B = 1024` lanes per group and `G = 2 ^ 22 + 1` groups, the
coordinate of thread 0 of block `2 ^ 22` is `1024 * 2 ^ 22 = 2 ^ 32`, which wraps to 0, the
coordinate of thread 0 of block 0; on the segment `[0, 5)` both pairs pass the index 0 to the
body. -/
theorem C10_counterexample :
    LoopExecute.cuda_global_thread.tx 0 1024 4194304 =
      LoopExecute.cuda_global_thread.tx 0 1024 0 ∧
    LoopExecute.cuda_global_thread.exec32 0 1024 4194304 ⟨⟨0⟩, ⟨5⟩⟩ = [0] ∧
    LoopExecute.cuda_global_thread.exec32 0 1024 0 ⟨⟨0⟩, ⟨5⟩⟩ = [0] ∧
    Segment.len ⟨⟨0⟩, ⟨5⟩⟩ ≤ ((1024 * 4194305 : Nat) : Int) := by
  decide

/-- C10 (amended): with `B ≥ 1` lanes per group and `G` groups such that `B * G ≤ 2 ^ 31`,
the 32-bit coordinate `threadIdx + blockDim * blockIdx` is distinct for each pair of
`[0, B) × [0, G)` and ranges over exactly `[0, B * G)`; for a segment of length
`0 ≤ len ≤ B * G`, `len ≤ 2 ^ 31 - 1`, every pair makes at most one body call and the logical
index `i < len` is passed by the pair `(i % B, i / B)` and by no other pair. -/
theorem C10_global_thread_1d (B G : Nat) (hB : 1 ≤ B) (segment : Segment)
    (hlen0 : 0 ≤ segment.len) (hlen : segment.len ≤ ((B * G : Nat) : Int))
    (hBG : B * G ≤ 2147483648) (hlen1 : segment.len < 2147483648) :
    (∀ t b t' b' : Nat, t < B → b < G → t' < B → b' < G →
      LoopExecute.cuda_global_thread.tx t B b = LoopExecute.cuda_global_thread.tx t' B b' →
      t = t' ∧ b = b') ∧
    (∀ t b : Nat, t < B → b < G →
      0 ≤ LoopExecute.cuda_global_thread.tx t B b ∧
      LoopExecute.cuda_global_thread.tx t B b < ((B * G : Nat) : Int)) ∧
    (∀ c : Nat, c < B * G →
      c % B < B ∧ c / B < G ∧ LoopExecute.cuda_global_thread.tx (c % B) B (c / B) = (c : Int)) ∧
    (∀ t b : Nat, (LoopExecute.cuda_global_thread.exec32 t B b segment).length ≤ 1) ∧
    (∀ i : Nat, (i : Int) < segment.len →
      (i % B < B ∧ i / B < G) ∧
      ∀ t b : Nat, t < B → b < G →
        (LoopExecute.cuda_global_thread.exec32 t B b segment).count
            (segment.begin.val + (i : Int))
          = if t = i % B ∧ b = i / B then 1 else 0) := by
  obtain ⟨hinj, hlt, hsplit, _, hcount⟩ := global_thread_1d_exact B G hB segment hlen0 hlen
  have hfit : ∀ t b : Nat, t < B → b < G → ((t + B * b : Nat) : Int) < 2147483648 := by
    intro t b ht hb
    have := hlt t b ht hb
    omega
  have htx : ∀ t b : Nat, t < B → b < G →
      LoopExecute.cuda_global_thread.tx t B b = ((t + B * b : Nat) : Int) :=
    fun t b ht hb => global_tx_eq t B b (hfit t b ht hb)
  refine ⟨?_, ?_, ?_, ?_, ?_⟩
  · intro t b t' b' ht hb ht' hb' h
    rw [htx t b ht hb, htx t' b' ht' hb'] at h
    exact hinj t b t' b' ht ht' (by exact_mod_cast h)
  · intro t b ht hb
    rw [htx t b ht hb]
    have := hlt t b ht hb
    omega
  · intro c hc
    obtain ⟨h1, h2, h3⟩ := hsplit c hc
    refine ⟨h1, h2, ?_⟩
    rw [htx _ _ h1 h2, h3]
  · intro t b
    unfold LoopExecute.cuda_global_thread.exec32
    simp only []
    split <;> simp
  · intro i hi
    refine ⟨(hcount i hi).1, ?_⟩
    intro t b ht hb
    rw [global_exec32_eq t B b segment (hfit t b ht hb) (by omega) hlen1]
    exact (hcount i hi).2 t b ht hb

theorem C10_global_thread_1d_witness :
    (LoopExecute.cuda_global_thread.exec32 1 4 2 ⟨⟨10⟩, ⟨20⟩⟩).count
        ((10 : Int) + ((9 : Nat) : Int))
      = if 1 = 9 % 4 ∧ 2 = 9 / 4 then 1 else 0 :=
  ((C10_global_thread_1d 4 3 (by decide) ⟨⟨10⟩, ⟨20⟩⟩ (by decide) (by decide) (by decide)
    (by decide)).2.2.2.2 9 (by decide)).2 1 2 (by decide) (by decide)

/-- C9 as stated fails for the global-thread variant: with 1024 lanes per group and
`n0 = 2 ^ 31 + 1` coordinates on axis 0, the coordinate `2 ^ 31` (thread 0 of block `2 ^ 21`)
becomes `tx = -2 ^ 31 < len0`, so on segments of lengths 5 and 3 the body is also called with
`(begin0 - 2 ^ 31, begin1)`, which is no index pair of the segments. -/
theorem C9_counterexample :
    LoopExecute.cuda_global_thread2.exec32 0 1024 2097152 0 8 0 ⟨⟨0⟩, ⟨5⟩⟩ ⟨⟨0⟩, ⟨3⟩⟩ =
      [(-2147483648, 0)] ∧
    ((-2147483648, 0) : Int × Int) ∈ runAxes2 2147483649 8 (fun i j =>
      LoopExecute.cuda_global_thread2.exec32 (i % 1024) 1024 (i / 1024) (j % 8) 8 (j / 8)
        ⟨⟨0⟩, ⟨5⟩⟩ ⟨⟨0⟩, ⟨3⟩⟩) ∧
    Segment.len ⟨⟨0⟩, ⟨5⟩⟩ ≤ ((2147483649 : Nat) : Int) ∧
    Segment.len ⟨⟨0⟩, ⟨3⟩⟩ ≤ ((8 : Nat) : Int) := by
  refine ⟨by decide, ?_, by decide, by decide⟩
  unfold runAxes2
  refine List.mem_flatMap.2 ⟨2147483648, List.mem_range.2 (by decide), ?_⟩
  refine List.mem_flatMap.2 ⟨0, List.mem_range.2 (by decide), ?_⟩
  decide

/-- C9 (amended): for segments of lengths `len0, len1 ≥ 0` and a topology with `n0 ≥ len0`,
`n1 ≥ len1` coordinates on the two policy axes, the 2-D direct dispatch (block variant, and
global-thread variant with 32-bit coordinates for any lanes-per-group `B0, B1 ≥ 1` when
`n0, n1 ≤ 2 ^ 31` and `len0, len1 ≤ 2 ^ 31 - 1`) run at every coordinate pair of
`[0, n0) × [0, n1)` makes exactly `len0 * len1` body calls, without duplicates, and the calls
are exactly the pairs `(begin0 + i, begin1 + j)` with `i < len0`, `j < len1`. -/
theorem C9_direct_2d_coverage (segment0 segment1 : Segment) (n0 n1 : Nat)
    (h0 : 0 ≤ segment0.len) (h1 : 0 ≤ segment1.len)
    (hn0 : segment0.len ≤ (n0 : Int)) (hn1 : segment1.len ≤ (n1 : Int)) :
    ∀ run : List (Int × Int),
      (run = runAxes2 n0 n1
          (fun i j => LoopExecute.cuda_block_xyz_direct2.exec i j segment0 segment1) ∨
       ∃ B0 B1 : Nat, 1 ≤ B0 ∧ 1 ≤ B1 ∧ n0 ≤ 2147483648 ∧ n1 ≤ 2147483648 ∧
        segment0.len < 2147483648 ∧ segment1.len < 2147483648 ∧
        run = runAxes2 n0 n1 (fun i j =>
          LoopExecute.cuda_global_thread2.exec32 (i % B0) B0 (i / B0) (j % B1) B1 (j / B1)
            segment0 segment1)) →
      run.length = segment0.len.toNat * segment1.len.toNat ∧
      run.Nodup ∧
      (∀ x : Int × Int, x ∈ run ↔
        ∃ i j : Nat, (i : Int) < segment0.len ∧ (j : Int) < segment1.len ∧
          x = (segment0.begin.val + (i : Int), segment1.begin.val + (j : Int))) := by
  intro run hrun
  refine direct_2d_coverage_exact segment0 segment1 n0 n1 h0 h1 hn0 hn1 run ?_
  rcases hrun with h | ⟨B0, B1, hB0, hB1, hb0, hb1, hu0, hu1, rfl⟩
  · exact Or.inl h
  · refine Or.inr ⟨B0, B1, hB0, hB1, ?_⟩
    refine runAxes2_congr n0 n1 _ _ (fun i j hi hj => ?_)
    refine global2_exec32_eq _ _ _ _ _ _ segment0 segment1 ?_ ?_ (by omega) hu0 (by omega) hu1
    · rw [Nat.mod_add_div]; omega
    · rw [Nat.mod_add_div]; omega

theorem C9_direct_2d_coverage_witness :
    (runAxes2 8 8 (fun i j =>
      LoopExecute.cuda_global_thread2.exec32 (i % 4) 4 (i / 4) (j % 2) 2 (j / 2)
        ⟨⟨0⟩, ⟨5⟩⟩ ⟨⟨0⟩, ⟨3⟩⟩)).length =
      (Segment.len ⟨⟨0⟩, ⟨5⟩⟩).toNat * (Segment.len ⟨⟨0⟩, ⟨3⟩⟩).toNat ∧
    (Segment.len ⟨⟨0⟩, ⟨5⟩⟩).toNat * (Segment.len ⟨⟨0⟩, ⟨3⟩⟩).toNat = 15 :=
  ⟨(C9_direct_2d_coverage ⟨⟨0⟩, ⟨5⟩⟩ ⟨⟨0⟩, ⟨3⟩⟩ 8 8 (by decide) (by decide) (by decide)
      (by decide) _ (Or.inr ⟨4, 2, by decide, by decide, by decide, by decide, by decide,
        by decide, rfl⟩)).1, by decide⟩

/-! ## Nested loop dispatch with 32-bit counters -/

/-- C12 as stated fails: with `gridDim.x = 2 ^ 31 - 1`, block `(1, 0)` of the 2-D loop
dispatch on segments of lengths 2 and 1 calls the body with `(1, 0)`, `(-2 ^ 31, 0)` and
`(-1, 0)` (and the 3-D dispatch likewise), more calls than the `len0 * len1` index pairs; on
a first segment of length `2 ^ 31 - 1` the index pair `(2 ^ 31 - 2, 0)` is passed to the body
by block `(1, 0)` and by block `(2 ^ 31 - 2, 0)`. -/
theorem C12_counterexample :
    LoopExecute.cuda_block_xyz_loop2.exec32 4 1 2147483647 0 1 ⟨⟨0⟩, ⟨2⟩⟩ ⟨⟨0⟩, ⟨1⟩⟩ =
      ([(1, 0), (-2147483648, 0), (-1, 0)], true) ∧
    LoopExecute.cuda_block_xyz_loop3.exec32 4 1 2147483647 0 1 0 1
        ⟨⟨0⟩, ⟨2⟩⟩ ⟨⟨0⟩, ⟨1⟩⟩ ⟨⟨0⟩, ⟨1⟩⟩ =
      ([(1, 0, 0), (-2147483648, 0, 0), (-1, 0, 0)], true) ∧
    ((2147483646, 0) : Int × Int) ∈
      (LoopExecute.cuda_block_xyz_loop2.exec32 4 1 2147483647 0 1
        ⟨⟨0⟩, ⟨2147483647⟩⟩ ⟨⟨0⟩, ⟨1⟩⟩).1 ∧
    ((2147483646, 0) : Int × Int) ∈
      (LoopExecute.cuda_block_xyz_loop2.exec32 4 2147483646 2147483647 0 1
        ⟨⟨0⟩, ⟨2147483647⟩⟩ ⟨⟨0⟩, ⟨1⟩⟩).1 := by
  decide

/-- C12 (amended): for segments of lengths `len0, len1, len2 ≥ 0` and resource counts
`n0, n1, n2 ≥ 1` with `len_i + n_i ≤ 2 ^ 31` on every axis, there is an amount of fuel with
which the 2-D and 3-D nested block loop dispatch with 32-bit counters end at every coordinate
tuple of the topology; over the whole topology the body is called exactly once for each index
tuple of `[0, len0) × [0, len1)` (`× [0, len2)`), and the total number of calls is the product
of the per-axis extents. -/
theorem C12_loop_nd_coverage (segment0 segment1 segment2 : Segment) (n0 n1 n2 : Nat)
    (hn0 : 1 ≤ n0) (hn1 : 1 ≤ n1) (hn2 : 1 ≤ n2)
    (hl0 : 0 ≤ segment0.len) (hl1 : 0 ≤ segment1.len) (hl2 : 0 ≤ segment2.len)
    (hs0 : segment0.len + (n0 : Int) ≤ 2147483648)
    (hs1 : segment1.len + (n1 : Int) ≤ 2147483648)
    (hs2 : segment2.len + (n2 : Int) ≤ 2147483648) :
    ∃ (fuel : Nat) (tr2 : Nat → Nat → List (Int × Int))
      (tr3 : Nat → Nat → Nat → List (Int × Int × Int)),
      (∀ k0 k1 : Nat, k0 < n0 → k1 < n1 →
        LoopExecute.cuda_block_xyz_loop2.exec32 fuel k0 n0 k1 n1 segment0 segment1 =
          (tr2 k0 k1, true)) ∧
      (∀ k0 k1 k2 : Nat, k0 < n0 → k1 < n1 → k2 < n2 →
        LoopExecute.cuda_block_xyz_loop3.exec32 fuel k0 n0 k1 n1 k2 n2
          segment0 segment1 segment2 = (tr3 k0 k1 k2, true)) ∧
      (∀ i j : Nat, (i : Int) < segment0.len → (j : Int) < segment1.len →
        (runAxes2 n0 n1 tr2).count
          (segment0.begin.val + (i : Int), segment1.begin.val + (j : Int)) = 1) ∧
      (runAxes2 n0 n1 tr2).length = segment0.len.toNat * segment1.len.toNat ∧
      (∀ i j k : Nat, (i : Int) < segment0.len → (j : Int) < segment1.len →
        (k : Int) < segment2.len →
        (runAxes3 n0 n1 n2 tr3).count
          (segment0.begin.val + (i : Int), segment1.begin.val + (j : Int),
            segment2.begin.val + (k : Int)) = 1) ∧
      (runAxes3 n0 n1 n2 tr3).length =
        segment0.len.toNat * segment1.len.toNat * segment2.len.toNat := by
  obtain ⟨fuel, tr2, tr3, h2, h3, hrest⟩ :=
    loop_nd_coverage_exact segment0 segment1 segment2 n0 n1 n2 hn0 hn1 hn2
  refine ⟨fuel, tr2, tr3, ?_, ?_, hrest⟩
  · intro k0 k1 hk0 hk1
    exact (loop2_exec32_of_exec fuel k0 n0 k1 n1 segment0 segment1
      (by omega) (by omega) (by omega) hs0 (by omega) (by omega) (by omega) hs1).1 _
      (h2 k0 k1 hk0 hk1)
  · intro k0 k1 k2 hk0 hk1 hk2
    exact (loop3_exec32_of_exec fuel k0 n0 k1 n1 k2 n2 segment0 segment1 segment2
      (by omega) (by omega) (by omega) hs0 (by omega) (by omega) (by omega) hs1
      (by omega) (by omega) (by omega) hs2).1 _ (h3 k0 k1 k2 hk0 hk1 hk2)

theorem C12_loop_nd_coverage_witness :
    ∃ (fuel : Nat) (tr2 : Nat → Nat → List (Int × Int))
      (tr3 : Nat → Nat → Nat → List (Int × Int × Int)),
      (∀ k0 k1 : Nat, k0 < 2 → k1 < 3 →
        LoopExecute.cuda_block_xyz_loop2.exec32 fuel k0 2 k1 3 ⟨⟨0⟩, ⟨5⟩⟩ ⟨⟨10⟩, ⟨14⟩⟩ =
          (tr2 k0 k1, true)) ∧
      (∀ k0 k1 k2 : Nat, k0 < 2 → k1 < 3 → k2 < 1 →
        LoopExecute.cuda_block_xyz_loop3.exec32 fuel k0 2 k1 3 k2 1
          ⟨⟨0⟩, ⟨5⟩⟩ ⟨⟨10⟩, ⟨14⟩⟩ ⟨⟨20⟩, ⟨22⟩⟩ = (tr3 k0 k1 k2, true)) ∧
      (∀ i j : Nat, (i : Int) < Segment.len ⟨⟨0⟩, ⟨5⟩⟩ → (j : Int) < Segment.len ⟨⟨10⟩, ⟨14⟩⟩ →
        (runAxes2 2 3 tr2).count ((0 : Int) + (i : Int), (10 : Int) + (j : Int)) = 1) ∧
      (runAxes2 2 3 tr2).length =
        (Segment.len ⟨⟨0⟩, ⟨5⟩⟩).toNat * (Segment.len ⟨⟨10⟩, ⟨14⟩⟩).toNat ∧
      (∀ i j k : Nat, (i : Int) < Segment.len ⟨⟨0⟩, ⟨5⟩⟩ →
        (j : Int) < Segment.len ⟨⟨10⟩, ⟨14⟩⟩ → (k : Int) < Segment.len ⟨⟨20⟩, ⟨22⟩⟩ →
        (runAxes3 2 3 1 tr3).count
          ((0 : Int) + (i : Int), (10 : Int) + (j : Int), (20 : Int) + (k : Int)) = 1) ∧
      (runAxes3 2 3 1 tr3).length =
        (Segment.len ⟨⟨0⟩, ⟨5⟩⟩).toNat * (Segment.len ⟨⟨10⟩, ⟨14⟩⟩).toNat *
          (Segment.len ⟨⟨20⟩, ⟨22⟩⟩).toNat :=
  C12_loop_nd_coverage ⟨⟨0⟩, ⟨5⟩⟩ ⟨⟨10⟩, ⟨14⟩⟩ ⟨⟨20⟩, ⟨22⟩⟩ 2 3 1
    (by decide) (by decide) (by decide) (by decide) (by decide) (by decide)
    (by decide) (by decide) (by decide)

theorem forLoopM32_of_forLoop32 {α : Type} (len step : Int) (body : Int → List α × Bool)
    (g : Int → List α) (hbody : ∀ x : Int, body x = (g x, true)) :
    ∀ (fuel : Nat) (t : Int) (l : List Int), forLoop32 fuel t len step = (l, true) →
      forLoopM32 fuel t len step body = (l.flatMap g, true) := by
  intro fuel
  induction fuel with
  | zero =>
    intro t l hl
    simp only [forLoop32, Prod.mk.injEq] at hl
    simp only [forLoopM32, ← hl.1, hl.2, List.flatMap_nil]
  | succ f ih =>
    intro t l hl
    by_cases hlt : t < len
    · simp only [forLoop32, if_pos hlt, Prod.mk.injEq] at hl
      have hrec := ih (wrap32 (t + step)) _ (Prod.ext rfl hl.2)
      simp only [forLoopM32, if_pos hlt, hbody t, if_true, hrec, ← hl.1, List.flatMap_cons]
    · simp only [forLoop32, if_neg hlt, Prod.mk.injEq] at hl
      simp only [forLoopM32, if_neg hlt, ← hl.1, List.flatMap_nil]

theorem loop32_split {β : Type} (f : Int → β) (r : List Int × Bool) (tr : List β)
    (h : (r.1.map f, r.2) = (tr, true)) : r = (r.1, true) ∧ tr = r.1.map f := by
  simp only [Prod.mk.injEq] at h
  exact ⟨Prod.ext rfl h.2, h.1.symm⟩

/-- C13: for one coordinate tuple and any amount of fuel within which the per-axis 1-D block
loops (with 32-bit counters) end with the sequences `tr0, tr1, tr2`, the 2-D and 3-D nested
loop dispatch end with the Cartesian product of those sequences, axis 0 outermost and the last
axis innermost, and the 2-D ICount variant with the product of the 1-D ICount sequences in the
same order; each component comes from the 1-D sequence of its own axis, which depends only on
that axis's coordinate, resource count and segment.  Such fuel exists whenever, on every axis,
the coordinate is below `2 ^ 31`, `n ≥ 1`, `len ≥ -2 ^ 31` and `len + n ≤ 2 ^ 31`. -/
theorem C13_loop_nd_order (k0 n0 k1 n1 k2 n2 : Nat) (segment0 segment1 segment2 : Segment) :
    (∀ (fuel : Nat) (tr0 tr1 tr2 : List Int),
      LoopExecute.cuda_block_xyz_loop.exec32 fuel k0 n0 segment0 = (tr0, true) →
      LoopExecute.cuda_block_xyz_loop.exec32 fuel k1 n1 segment1 = (tr1, true) →
      LoopExecute.cuda_block_xyz_loop.exec32 fuel k2 n2 segment2 = (tr2, true) →
      LoopExecute.cuda_block_xyz_loop2.exec32 fuel k0 n0 k1 n1 segment0 segment1 =
        (tr0.flatMap (fun x => tr1.map (fun y => (x, y))), true) ∧
      LoopExecute.cuda_block_xyz_loop3.exec32 fuel k0 n0 k1 n1 k2 n2
          segment0 segment1 segment2 =
        (tr0.flatMap (fun x => tr1.flatMap (fun y => tr2.map (fun z => (x, y, z)))), true) ∧
      LoopICountExecute.cuda_block_xyz_loop2.exec32 fuel k0 n0 k1 n1 segment0 segment1 =
        ((LoopICountExecute.cuda_block_xyz_loop.exec32 fuel k0 n0 segment0).1.flatMap
          (fun p => (LoopICountExecute.cuda_block_xyz_loop.exec32 fuel k1 n1 segment1).1.map
            (fun q => ((p.1, q.1), (p.2, q.2)))), true)) ∧
    (1 ≤ n0 → 1 ≤ n1 → 1 ≤ n2 →
      (k0 : Int) < 2147483648 → (k1 : Int) < 2147483648 → (k2 : Int) < 2147483648 →
      -2147483648 ≤ segment0.len → -2147483648 ≤ segment1.len → -2147483648 ≤ segment2.len →
      segment0.len + (n0 : Int) ≤ 2147483648 → segment1.len + (n1 : Int) ≤ 2147483648 →
      segment2.len + (n2 : Int) ≤ 2147483648 →
      ∃ (fuel : Nat) (tr0 tr1 tr2 : List Int),
        LoopExecute.cuda_block_xyz_loop.exec32 fuel k0 n0 segment0 = (tr0, true) ∧
        LoopExecute.cuda_block_xyz_loop.exec32 fuel k1 n1 segment1 = (tr1, true) ∧
        LoopExecute.cuda_block_xyz_loop.exec32 fuel k2 n2 segment2 = (tr2, true)) := by
  constructor
  · intro fuel tr0 tr1 tr2 h0 h1 h2
    obtain ⟨e0, rfl⟩ := loop32_split (fun bx => segment0.elem bx) _ tr0 h0
    obtain ⟨e1, rfl⟩ := loop32_split (fun bx => segment1.elem bx) _ tr1 h1
    obtain ⟨e2, rfl⟩ := loop32_split (fun bx => segment2.elem bx) _ tr2 h2
    have inner2 : ∀ (β : Type) (c : Int → β),
        forLoopM32 fuel (wrap32 (k2 : Int)) (wrap32 segment2.len) (n2 : Int)
          (fun bz => ([c bz], true)) =
        ((forLoop32 fuel (wrap32 (k2 : Int)) (wrap32 segment2.len) (n2 : Int)).1.map c,
          true) := by
      intro β c
      rw [forLoopM32_of_forLoop32 _ _ _ (fun bz => [c bz]) (fun _ => rfl) fuel _ _ e2,
        flatMap_unit_eq_map]
    have inner1 : ∀ (β : Type) (c : Int → β),
        forLoopM32 fuel (wrap32 (k1 : Int)) (wrap32 segment1.len) (n1 : Int)
          (fun by_ => ([c by_], true)) =
        ((forLoop32 fuel (wrap32 (k1 : Int)) (wrap32 segment1.len) (n1 : Int)).1.map c,
          true) := by
      intro β c
      rw [forLoopM32_of_forLoop32 _ _ _ (fun by_ => [c by_]) (fun _ => rfl) fuel _ _ e1,
        flatMap_unit_eq_map]
    refine ⟨?_, ?_, ?_⟩
    · unfold LoopExecute.cuda_block_xyz_loop2.exec32
      simp only []
      rw [forLoopM32_of_forLoop32 _ _ _ _ (fun bx => inner1 _ _) fuel _ _ e0]
      simp only [List.flatMap_map, List.map_map, Function.comp_def]
    · unfold LoopExecute.cuda_block_xyz_loop3.exec32
      simp only []
      rw [forLoopM32_of_forLoop32 _ _ _ _
        (fun bx => forLoopM32_of_forLoop32 _ _ _ _ (fun by_ => inner2 _ _) fuel _ _ e1)
        fuel _ _ e0]
      simp only [List.flatMap_map, List.map_map, Function.comp_def]
    · unfold LoopICountExecute.cuda_block_xyz_loop2.exec32
        LoopICountExecute.cuda_block_xyz_loop.exec32
      simp only []
      rw [forLoopM32_of_forLoop32 _ _ _ _ (fun bx => inner1 _ _) fuel _ _ e0]
      simp only [List.flatMap_map, List.map_map, Function.comp_def]
  · intro hn0 hn1 hn2 hk0 hk1 hk2 hl0 hl1 hl2 hs0 hs1 hs2
    obtain ⟨L0, h0⟩ := forLoop_returns k0 n0 segment0.len
      (segment0.len.toNat + segment1.len.toNat + segment2.len.toNat) hn0 (by omega)
    obtain ⟨L1, h1⟩ := forLoop_returns k1 n1 segment1.len
      (segment0.len.toNat + segment1.len.toNat + segment2.len.toNat) hn1 (by omega)
    obtain ⟨L2, h2⟩ := forLoop_returns k2 n2 segment2.len
      (segment0.len.toNat + segment1.len.toNat + segment2.len.toNat) hn2 (by omega)
    refine ⟨segment0.len.toNat + segment1.len.toNat + segment2.len.toNat,
      L0.map (fun bx => segment0.elem bx), L1.map (fun bx => segment1.elem bx),
      L2.map (fun bx => segment2.elem bx), ?_, ?_, ?_⟩
    · exact (loop_exec32_of_exec _ k0 n0 segment0 _ hk0 hl0 (by omega) hs0).2
        (by simp only [LoopExecute.cuda_block_xyz_loop.exec, h0 _ (le_refl _),
          Option.map_some'])
    · exact (loop_exec32_of_exec _ k1 n1 segment1 _ hk1 hl1 (by omega) hs1).2
        (by simp only [LoopExecute.cuda_block_xyz_loop.exec, h1 _ (le_refl _),
          Option.map_some'])
    · exact (loop_exec32_of_exec _ k2 n2 segment2 _ hk2 hl2 (by omega) hs2).2
        (by simp only [LoopExecute.cuda_block_xyz_loop.exec, h2 _ (le_refl _),
          Option.map_some'])

theorem C13_loop_nd_order_witness :
    LoopExecute.cuda_block_xyz_loop2.exec32 6 1 2 0 2 ⟨⟨0⟩, ⟨5⟩⟩ ⟨⟨10⟩, ⟨13⟩⟩ =
      ([1, 3].flatMap (fun x => [10, 12].map (fun y => (x, y))), true) ∧
    LoopExecute.cuda_block_xyz_loop3.exec32 6 1 2 0 2 0 1
        ⟨⟨0⟩, ⟨5⟩⟩ ⟨⟨10⟩, ⟨13⟩⟩ ⟨⟨20⟩, ⟨22⟩⟩ =
      ([1, 3].flatMap (fun x => [10, 12].flatMap (fun y => [20, 21].map
        (fun z => (x, y, z)))), true) :=
  ⟨((C13_loop_nd_order 1 2 0 2 0 1 ⟨⟨0⟩, ⟨5⟩⟩ ⟨⟨10⟩, ⟨13⟩⟩ ⟨⟨20⟩, ⟨22⟩⟩).1 6
      [1, 3] [10, 12] [20, 21] (by decide) (by decide) (by decide)).1,
   ((C13_loop_nd_order 1 2 0 2 0 1 ⟨⟨0⟩, ⟨5⟩⟩ ⟨⟨10⟩, ⟨13⟩⟩ ⟨⟨20⟩, ⟨22⟩⟩).1 6
      [1, 3] [10, 12] [20, 21] (by decide) (by decide) (by decide)).2.1⟩

/-! ## Tile dispatch with 32-bit counters -/

theorem coord_mul_lt (k n : Nat) (T : Int) (hT : 1 ≤ T) (hk : k < n) :
    0 ≤ (k : Int) * T ∧ (k : Int) * T < (n : Int) * T := by
  have h1 : 0 ≤ (k : Int) * T := Int.mul_nonneg (by omega) (by omega)
  have h2 : ((k : Int) + 1) * T ≤ (n : Int) * T :=
    Int.mul_le_mul_of_nonneg_right (by omega) (by omega)
  have h3 : ((k : Int) + 1) * T = (k : Int) * T + T := by ring
  omega

/-- C15 as stated fails: with tile size `2 ^ 30`, 3 groups and the segment `[0, 10)`, group 0
of the block-loop tile dispatch hands the body, after the tile `slice(0, 2 ^ 30) = [0, 10)`,
the tiles `slice(-2 ^ 30, 2 ^ 30) = [-2 ^ 30, 0)` and `slice(-2 ^ 31, 2 ^ 30)`, which lie
outside the segment. -/
theorem C15_counterexample :
    (TileExecute.cuda_block_xyz_loop.exec32 4 0 3 1073741824 ⟨⟨0⟩, ⟨10⟩⟩).1.map
        (fun c => Segment.slice ⟨⟨0⟩, ⟨10⟩⟩ c.1 c.2) =
      [⟨⟨0⟩, ⟨10⟩⟩, ⟨⟨-1073741824⟩, ⟨0⟩⟩, ⟨⟨-2147483648⟩, ⟨-1073741824⟩⟩] ∧
    (TileExecute.cuda_block_xyz_loop.exec32 4 0 3 1073741824 ⟨⟨0⟩, ⟨10⟩⟩).2 = true := by
  decide

/-- C15 (amended): with `slice(offset, size)` returning the sub-range
`[offset, min(offset + size, len))`, for a segment of length `len ≥ 0`, a tile size `T ≥ 1`
and `n ≥ 1` groups with `len + n * T ≤ 2 ^ 31`, the tiles given to the body by the loop-mode
tile dispatch with 32-bit counters over the whole axis are, up to order, the `⌈len / T⌉`
tiles `slice(q * T, T)`; these are contiguous (each ends where the next begins, the first
begins at `begin()`, the last ends at `end()`), non-empty and pairwise disjoint, cover every
index of `[0, len)`, have size `T` except the last, of size `len - (⌈len / T⌉ - 1) * T`, and
none extends past the segment. -/
theorem C15_tile_partition (segment : Segment) (T : Int) (n : Nat) (hlen : 0 ≤ segment.len)
    (hT : 1 ≤ T) (hn : 1 ≤ n) (hsum : segment.len + (n : Int) * T ≤ 2147483648) :
    ∃ (fuel : Nat) (tr : Nat → List (Int × Int)),
      (∀ k : Nat, k < n →
        TileExecute.cuda_block_xyz_loop.exec32 fuel k n T segment = (tr k, true) ∧
        TileExecute.cuda_thread_xyz_loop.exec32 fuel k n T segment = (tr k, true)) ∧
      List.Perm ((runAxis n tr).map (fun c => segment.slice c.1 c.2))
        ((List.range ⌈(segment.len : ℚ) / (T : ℚ)⌉.toNat).map
          (fun q : Nat => segment.slice ((q : Int) * T) T)) ∧
      (∀ q : Nat, (q : Int) < ⌈(segment.len : ℚ) / (T : ℚ)⌉ →
        (segment.slice ((q : Int) * T) T).begin.val = segment.begin.val + (q : Int) * T ∧
        ((q : Int) + 1 < ⌈(segment.len : ℚ) / (T : ℚ)⌉ →
          (segment.slice ((q : Int) * T) T).end_.val =
            (segment.slice (((q + 1 : Nat) : Int) * T) T).begin.val ∧
          (segment.slice ((q : Int) * T) T).len = T) ∧
        ((q : Int) + 1 = ⌈(segment.len : ℚ) / (T : ℚ)⌉ →
          (segment.slice ((q : Int) * T) T).end_ = segment.end_ ∧
          (segment.slice ((q : Int) * T) T).len =
            segment.len - (⌈(segment.len : ℚ) / (T : ℚ)⌉ - 1) * T) ∧
        0 < (segment.slice ((q : Int) * T) T).len ∧
        (segment.slice ((q : Int) * T) T).len ≤ T ∧
        (segment.slice ((q : Int) * T) T).end_.val ≤ segment.end_.val) ∧
      (∀ i : Int, 0 ≤ i → i < segment.len →
        ∃ q : Nat, (q : Int) < ⌈(segment.len : ℚ) / (T : ℚ)⌉ ∧
          (segment.slice ((q : Int) * T) T).begin.val ≤ segment.begin.val + i ∧
          segment.begin.val + i < (segment.slice ((q : Int) * T) T).end_.val) ∧
      (∀ q q' : Nat, q < q' → (q' : Int) < ⌈(segment.len : ℚ) / (T : ℚ)⌉ →
        (segment.slice ((q : Int) * T) T).end_.val ≤
          (segment.slice ((q' : Int) * T) T).begin.val) := by
  have hnT : 1 ≤ (n : Int) * T := by
    have := (coord_mul_lt 0 n T hT (by omega)).2
    omega
  obtain ⟨fuel, tr, h1, hrest⟩ := tile_partition_exact segment T n hlen hT hn
  refine ⟨fuel, tr, ?_, hrest⟩
  intro k hk
  have hkT := coord_mul_lt k n T hT hk
  have hb := tile_exec32_of_exec fuel k n T segment (tr k) (by omega) (by omega) (by omega)
    (by omega) hsum
  exact ⟨hb.2 (h1 k hk), hb.1 (h1 k hk)⟩

theorem C15_tile_partition_witness :
    (∃ (fuel : Nat) (tr : Nat → List (Int × Int)), ∀ k : Nat, k < 2 →
      TileExecute.cuda_block_xyz_loop.exec32 fuel k 2 4 ⟨⟨0⟩, ⟨10⟩⟩ = (tr k, true) ∧
      TileExecute.cuda_thread_xyz_loop.exec32 fuel k 2 4 ⟨⟨0⟩, ⟨10⟩⟩ = (tr k, true)) ∧
    (runAxis 2 (fun k =>
        (TileExecute.cuda_block_xyz_loop.exec32 10 k 2 4 ⟨⟨0⟩, ⟨10⟩⟩).1)).map
      (fun c => Segment.slice ⟨⟨0⟩, ⟨10⟩⟩ c.1 c.2) =
      [⟨⟨0⟩, ⟨4⟩⟩, ⟨⟨8⟩, ⟨10⟩⟩, ⟨⟨4⟩, ⟨8⟩⟩] :=
  ⟨(C15_tile_partition ⟨⟨0⟩, ⟨10⟩⟩ 4 2 (by decide) (by decide) (by decide) (by decide)).elim
      (fun fuel h => h.elim (fun tr h2 => ⟨fuel, tr, h2.1⟩)),
    by decide⟩

theorem tile_loop32_mem {β : Type} (f : Int → β) (fuel : Nat) (t step len : Int)
    (ht0 : 0 ≤ t) (ht1 : t < 2147483648) (hstep : 0 ≤ step)
    (hlen0 : -2147483648 ≤ len) (hlen1 : len < 2147483648) (hsum : len + step ≤ 2147483648) :
    ∀ c ∈ (forLoop32 fuel (wrap32 t) (wrap32 len) step).1.map f,
      ∃ tx : Int, c = f tx ∧ 0 ≤ tx ∧ tx < len := by
  intro c hc
  rw [wrap32_of_range t (by omega) ht1, wrap32_of_range len hlen0 hlen1] at hc
  obtain ⟨tx, htx, rfl⟩ := List.mem_map.1 hc
  exact ⟨tx, rfl, forLoop32_bounds len step hstep hsum fuel t ht0 tx htx⟩

/-- C20 as stated fails: with tile size `65536` and `65537` groups on the segment `[0, 10)`,
group `c = 65536` of the block-loop ICount tile dispatch has `bx = 65536 * 65536 = 2 ^ 32`,
which wraps to 0, so its first call passes the tile index `0`, not `c + 0 * n = 65536`; with
tile size `2 ^ 30`, coordinate 2 of the direct variant passes `slice(-2 ^ 31, 2 ^ 30)` with
the tile index `-2 < 0`. -/
theorem C20_counterexample :
    TileICountExecute.cuda_block_xyz_loop.exec32 2 65536 65537 65536 ⟨⟨0⟩, ⟨10⟩⟩ =
      ([((0, 65536), some 0)], true) ∧
    ((65536 : Nat) : Int) + ((0 : Nat) : Int) * ((65537 : Nat) : Int) ≠ 0 ∧
    TileICountExecute.cuda_block_xyz_direct.exec32 2 1073741824 ⟨⟨0⟩, ⟨10⟩⟩ =
      [((-2147483648, 1073741824), some (-2))] ∧
    TileICountExecute.cuda_thread_xyz_direct.exec32 2 1073741824 ⟨⟨0⟩, ⟨10⟩⟩ =
      [((-2147483648, 1073741824), some (-2))] := by
  decide

/-- C20 (amended): for a tile size `T ≥ 1`, a coordinate `c` with `c * T < 2 ^ 31`, a
resource count `n ≥ 1` and a segment of length `-2 ^ 31 ≤ len < 2 ^ 31` with
`len + n * T ≤ 2 ^ 31`, every call made by a `TileICountExecute` variant with 32-bit counters
passes the tile `slice(offset, T)` with a tile index `i` such that `offset = i * T` (so
`offset % T = 0`) and `0 ≤ i < ⌈len / T⌉`; in direct mode `i = c`, and the loop variants end
with their `j`-th call having `i = c + j * n`. -/
theorem C20_tile_icount_index (segment : Segment) (T : Int) (c n : Nat) (hT : 1 ≤ T)
    (hn : 1 ≤ n) (hc : (c : Int) * T < 2147483648) (hlen0 : -2147483648 ≤ segment.len)
    (hlen1 : segment.len < 2147483648)
    (hsum : segment.len + (n : Int) * T ≤ 2147483648) :
    (∀ e ∈ TileICountExecute.cuda_thread_xyz_direct.exec32 c T segment,
      e = (((c : Int) * T, T), some (c : Int)) ∧ Int.tmod e.1.1 T = 0 ∧
        (c : Int) < ⌈(segment.len : ℚ) / (T : ℚ)⌉) ∧
    (∀ e ∈ TileICountExecute.cuda_block_xyz_direct.exec32 c T segment,
      e = (((c : Int) * T, T), some (c : Int)) ∧ Int.tmod e.1.1 T = 0 ∧
        (c : Int) < ⌈(segment.len : ℚ) / (T : ℚ)⌉) ∧
    ∃ (fuel m : Nat),
      TileICountExecute.cuda_thread_xyz_loop.exec32 fuel c n T segment =
        ((List.range m).map (fun j : Nat =>
          ((((c : Int) + (j : Int) * (n : Int)) * T, T),
            some ((c : Int) + (j : Int) * (n : Int)))), true) ∧
      TileICountExecute.cuda_block_xyz_loop.exec32 fuel c n T segment =
        ((List.range m).map (fun j : Nat =>
          ((((c : Int) + (j : Int) * (n : Int)) * T, T),
            some ((c : Int) + (j : Int) * (n : Int)))), true) ∧
      ∀ j : Nat, j < m →
        Int.tmod (((c : Int) + (j : Int) * (n : Int)) * T) T = 0 ∧
        0 ≤ (c : Int) + (j : Int) * (n : Int) ∧
        (c : Int) + (j : Int) * (n : Int) < ⌈(segment.len : ℚ) / (T : ℚ)⌉ := by
  have hm := tile_lt_iff T segment.len hT
  have hT0 : T ≠ 0 := by omega
  have hc0 : 0 ≤ (c : Int) * T := Int.mul_nonneg (by omega) (by omega)
  have hwk : wrap32 ((c : Int) * T) = (c : Int) * T := wrap32_of_range _ (by omega) hc
  have hwl : wrap32 segment.len = segment.len := wrap32_of_range _ hlen0 hlen1
  have hdirect : ∀ e : (Int × Int) × Option Int,
      e ∈ (if (c : Int) * T < segment.len then
        [(((c : Int) * T, T), tileIndex ((c : Int) * T) T)] else []) →
      e = (((c : Int) * T, T), some (c : Int)) ∧ Int.tmod e.1.1 T = 0 ∧
        (c : Int) < ⌈(segment.len : ℚ) / (T : ℚ)⌉ := by
    intro e he
    by_cases hlt : (c : Int) * T < segment.len
    · rw [if_pos hlt, List.mem_singleton] at he
      simp only [tileIndex, if_neg hT0, Int.mul_tdiv_cancel _ hT0] at he
      subst he
      exact ⟨rfl, Int.mul_tmod_left _ _, (hm (c : Int)).1 hlt⟩
    · rw [if_neg hlt] at he
      simp at he
  obtain ⟨_, _, fuel, m, h1, h2, h3⟩ := tile_icount_index_exact segment T c n hT hn
  have hb := fun L => tile_icount_exec32_of_exec fuel c n T segment L hT hc hlen0 hlen1 hsum
  refine ⟨?_, ?_, fuel, m, ?_, ?_, h3⟩
  · intro e he
    unfold TileICountExecute.cuda_thread_xyz_direct.exec32 at he
    simp only [hwk, hwl] at he
    exact hdirect e he
  · intro e he
    unfold TileICountExecute.cuda_block_xyz_direct.exec32 at he
    simp only [hwk, hwl] at he
    exact hdirect e he
  · rw [(hb _).1 h1]
    simp only [List.map_map, Function.comp_def]
  · rw [(hb _).2 h2]
    simp only [List.map_map, Function.comp_def]

theorem C20_tile_icount_index_witness :
    (∀ e ∈ TileICountExecute.cuda_thread_xyz_direct.exec32 2 4 ⟨⟨0⟩, ⟨10⟩⟩,
      e = ((((2 : Nat) : Int) * 4, (4 : Int)), some ((2 : Nat) : Int)) ∧
        Int.tmod e.1.1 4 = 0 ∧
        ((2 : Nat) : Int) < ⌈((Segment.len ⟨⟨0⟩, ⟨10⟩⟩ : Int) : ℚ) / ((4 : Int) : ℚ)⌉) ∧
    TileICountExecute.cuda_thread_xyz_direct.exec32 2 4 ⟨⟨0⟩, ⟨10⟩⟩ = [((8, 4), some 2)] ∧
    TileICountExecute.cuda_block_xyz_loop.exec32 10 0 2 4 ⟨⟨0⟩, ⟨10⟩⟩ =
      ([((0, 4), some 0), ((8, 4), some 2)], true) :=
  ⟨(C20_tile_icount_index ⟨⟨0⟩, ⟨10⟩⟩ 4 2 2 (by decide) (by decide) (by decide) (by decide)
      (by decide) (by decide)).1, by decide, by decide⟩

/-! ## ICount element index with 32-bit counters -/

/-- C21 as stated fails: with `gridDim = 2 ^ 31 - 1`, block 1 of the 1-D ICount loop dispatch
on the segment `[0, 2)` passes the counts `1`, `-2 ^ 31` and `-1` to the body (and the 2-D
variant the counts `(1, 0)`, `(-2 ^ 31, 0)`, `(-1, 0)`): two of them are negative. -/
theorem C21_counterexample :
    LoopICountExecute.cuda_block_xyz_loop.exec32 4 1 2147483647 ⟨⟨0⟩, ⟨2⟩⟩ =
      ([(1, 1), (-2147483648, -2147483648), (-1, -1)], true) ∧
    LoopICountExecute.cuda_thread_xyz_loop.exec32 4 1 2147483647 ⟨⟨0⟩, ⟨2⟩⟩ =
      ([(1, 1), (-2147483648, -2147483648), (-1, -1)], true) ∧
    LoopICountExecute.cuda_block_xyz_loop2.exec32 4 1 2147483647 0 1
        ⟨⟨0⟩, ⟨2⟩⟩ ⟨⟨0⟩, ⟨1⟩⟩ =
      ([((1, 0), (1, 0)), ((-2147483648, 0), (-2147483648, 0)), ((-1, 0), (-1, 0))],
        true) := by
  decide

/-- C21 (amended): in every index-granularity `LoopICountExecute` variant every body call
passes, for each axis, an element `e` and a count `i` with `e = *(segment.begin() + i)` and
`0 ≤ i < len` for the segment of that axis: in the direct variants (1-D thread and block, 2-D
and 3-D block) always, and in the loop variants with 32-bit counters (1-D thread and block,
2-D and 3-D block), within any amount of fuel, when on every axis the coordinate is below
`2 ^ 31`, `-2 ^ 31 ≤ len < 2 ^ 31` and `len + n ≤ 2 ^ 31`; for resource counts `≥ 1` the loop
variants then end. -/
theorem C21_icount_element_index (k0 n0 k1 n1 k2 n2 : Nat)
    (segment0 segment1 segment2 : Segment)
    (hk0 : (k0 : Int) < 2147483648) (hl0 : -2147483648 ≤ segment0.len)
    (hu0 : segment0.len < 2147483648) (hs0 : segment0.len + (n0 : Int) ≤ 2147483648)
    (hk1 : (k1 : Int) < 2147483648) (hl1 : -2147483648 ≤ segment1.len)
    (hu1 : segment1.len < 2147483648) (hs1 : segment1.len + (n1 : Int) ≤ 2147483648)
    (hk2 : (k2 : Int) < 2147483648) (hl2 : -2147483648 ≤ segment2.len)
    (hu2 : segment2.len < 2147483648) (hs2 : segment2.len + (n2 : Int) ≤ 2147483648) :
    (∀ c ∈ LoopICountExecute.cuda_thread_xyz_direct.exec k0 segment0,
      c.1 = segment0.elem c.2 ∧ 0 ≤ c.2 ∧ c.2 < segment0.len) ∧
    (∀ c ∈ LoopICountExecute.cuda_block_xyz_direct.exec k0 segment0,
      c.1 = segment0.elem c.2 ∧ 0 ≤ c.2 ∧ c.2 < segment0.len) ∧
    (∀ fuel : Nat, ∀ c ∈ (LoopICountExecute.cuda_thread_xyz_loop.exec32 fuel k0 n0 segment0).1,
      c.1 = segment0.elem c.2 ∧ 0 ≤ c.2 ∧ c.2 < segment0.len) ∧
    (∀ fuel : Nat, ∀ c ∈ (LoopICountExecute.cuda_block_xyz_loop.exec32 fuel k0 n0 segment0).1,
      c.1 = segment0.elem c.2 ∧ 0 ≤ c.2 ∧ c.2 < segment0.len) ∧
    (∀ c ∈ LoopICountExecute.cuda_block_xyz_direct2.exec k0 k1 segment0 segment1,
      (c.1.1 = segment0.elem c.2.1 ∧ 0 ≤ c.2.1 ∧ c.2.1 < segment0.len) ∧
      (c.1.2 = segment1.elem c.2.2 ∧ 0 ≤ c.2.2 ∧ c.2.2 < segment1.len)) ∧
    (∀ c ∈ LoopICountExecute.cuda_block_xyz_direct3.exec k0 k1 k2 segment0 segment1 segment2,
      (c.1.1 = segment0.elem c.2.1 ∧ 0 ≤ c.2.1 ∧ c.2.1 < segment0.len) ∧
      (c.1.2.1 = segment1.elem c.2.2.1 ∧ 0 ≤ c.2.2.1 ∧ c.2.2.1 < segment1.len) ∧
      (c.1.2.2 = segment2.elem c.2.2.2 ∧ 0 ≤ c.2.2.2 ∧ c.2.2.2 < segment2.len)) ∧
    (∀ fuel : Nat, ∀ c ∈
        (LoopICountExecute.cuda_block_xyz_loop2.exec32 fuel k0 n0 k1 n1 segment0 segment1).1,
      (c.1.1 = segment0.elem c.2.1 ∧ 0 ≤ c.2.1 ∧ c.2.1 < segment0.len) ∧
      (c.1.2 = segment1.elem c.2.2 ∧ 0 ≤ c.2.2 ∧ c.2.2 < segment1.len)) ∧
    (∀ fuel : Nat, ∀ c ∈
        (LoopICountExecute.cuda_block_xyz_loop3.exec32 fuel k0 n0 k1 n1 k2 n2
          segment0 segment1 segment2).1,
      (c.1.1 = segment0.elem c.2.1 ∧ 0 ≤ c.2.1 ∧ c.2.1 < segment0.len) ∧
      (c.1.2.1 = segment1.elem c.2.2.1 ∧ 0 ≤ c.2.2.1 ∧ c.2.2.1 < segment1.len) ∧
      (c.1.2.2 = segment2.elem c.2.2.2 ∧ 0 ≤ c.2.2.2 ∧ c.2.2.2 < segment2.len)) ∧
    (1 ≤ n0 → 1 ≤ n1 → 1 ≤ n2 → ∃ fuel1 : Nat,
      (LoopICountExecute.cuda_thread_xyz_loop.exec32 fuel1 k0 n0 segment0).2 = true ∧
      (LoopICountExecute.cuda_block_xyz_loop.exec32 fuel1 k0 n0 segment0).2 = true ∧
      (LoopICountExecute.cuda_block_xyz_loop2.exec32 fuel1 k0 n0 k1 n1
        segment0 segment1).2 = true ∧
      (LoopICountExecute.cuda_block_xyz_loop3.exec32 fuel1 k0 n0 k1 n1 k2 n2
        segment0 segment1 segment2).2 = true) := by
  have hex := icount_element_index_exact 0 k0 n0 k1 n1 k2 n2 segment0 segment1 segment2
  have hw0 : wrap32 (k0 : Int) = (k0 : Int) := wrap32_of_range _ (by omega) hk0
  have hw1 : wrap32 (k1 : Int) = (k1 : Int) := wrap32_of_range _ (by omega) hk1
  have hw2 : wrap32 (k2 : Int) = (k2 : Int) := wrap32_of_range _ (by omega) hk2
  have hv0 : wrap32 segment0.len = segment0.len := wrap32_of_range _ hl0 hu0
  have hv1 : wrap32 segment1.len = segment1.len := wrap32_of_range _ hl1 hu1
  have hv2 : wrap32 segment2.len = segment2.len := wrap32_of_range _ hl2 hu2
  have h1d : ∀ fuel : Nat,
      ∀ c ∈ (forLoop32 fuel (wrap32 (k0 : Int)) (wrap32 segment0.len) (n0 : Int)).1.map
        (fun tx => (segment0.elem tx, tx)),
      c.1 = segment0.elem c.2 ∧ 0 ≤ c.2 ∧ c.2 < segment0.len := by
    intro fuel c hc
    obtain ⟨tx, rfl, h0, h1⟩ := tile_loop32_mem (fun tx => (segment0.elem tx, tx)) fuel
      (k0 : Int) (n0 : Int) segment0.len (by omega) hk0 (by omega) hl0 hu0 hs0 c hc
    exact ⟨rfl, h0, h1⟩
  refine ⟨hex.1, hex.2.1, fun fuel c hc => h1d fuel c hc, fun fuel c hc => h1d fuel c hc,
    hex.2.2.2.2.1, hex.2.2.2.2.2.1, ?_, ?_, ?_⟩
  · intro fuel
    unfold LoopICountExecute.cuda_block_xyz_loop2.exec32
    simp only []
    rw [hw0, hw1, hv0, hv1]
    intro c hc
    obtain ⟨x, y, hx, hy, rfl⟩ := loop2_32_mem
      (fun x y => ((segment0.elem x, segment1.elem y), (x, y))) fuel
      (k0 : Int) segment0.len (n0 : Int) (k1 : Int) segment1.len (n1 : Int)
      (Int.ofNat_nonneg n0) hs0 (Int.ofNat_nonneg k0)
      (Int.ofNat_nonneg n1) hs1 (Int.ofNat_nonneg k1) c hc
    exact ⟨⟨rfl, hx⟩, ⟨rfl, hy⟩⟩
  · intro fuel
    unfold LoopICountExecute.cuda_block_xyz_loop3.exec32
    simp only []
    rw [hw0, hw1, hw2, hv0, hv1, hv2]
    intro c hc
    obtain ⟨x, y, z, hx, hy, hz, rfl⟩ := loop3_32_mem
      (fun x y z => ((segment0.elem x, segment1.elem y, segment2.elem z), (x, y, z))) fuel
      (k0 : Int) segment0.len (n0 : Int) (k1 : Int) segment1.len (n1 : Int)
      (k2 : Int) segment2.len (n2 : Int)
      (Int.ofNat_nonneg n0) hs0 (Int.ofNat_nonneg k0)
      (Int.ofNat_nonneg n1) hs1 (Int.ofNat_nonneg k1)
      (Int.ofNat_nonneg n2) hs2 (Int.ofNat_nonneg k2) c hc
    exact ⟨⟨rfl, hx⟩, ⟨rfl, hy⟩, ⟨rfl, hz⟩⟩
  · intro hn0 hn1 hn2
    obtain ⟨fuel1, e1, e2, e3, e4⟩ := hex.2.2.2.2.2.2.2.2 hn0 hn1 hn2
    obtain ⟨L1, hL1⟩ := Option.isSome_iff_exists.1 e1
    obtain ⟨L2, hL2⟩ := Option.isSome_iff_exists.1 e2
    obtain ⟨L3, hL3⟩ := Option.isSome_iff_exists.1 e3
    obtain ⟨L4, hL4⟩ := Option.isSome_iff_exists.1 e4
    refine ⟨fuel1, ?_, ?_, ?_, ?_⟩
    · rw [(icount_loop_exec32_of_exec fuel1 k0 n0 segment0 L1 hk0 hl0 hu0 hs0).1 hL1]
    · rw [(icount_loop_exec32_of_exec fuel1 k0 n0 segment0 L2 hk0 hl0 hu0 hs0).2 hL2]
    · rw [(loop2_exec32_of_exec fuel1 k0 n0 k1 n1 segment0 segment1 hk0 hl0 hu0 hs0
        hk1 hl1 hu1 hs1).2 L3 hL3]
    · rw [(loop3_exec32_of_exec fuel1 k0 n0 k1 n1 k2 n2 segment0 segment1 segment2
        hk0 hl0 hu0 hs0 hk1 hl1 hu1 hs1 hk2 hl2 hu2 hs2).2 L4 hL4]

theorem C21_icount_element_index_witness :
    (∀ fuel : Nat, ∀ c ∈
        (LoopICountExecute.cuda_block_xyz_loop2.exec32 fuel 1 2 0 2
          ⟨⟨0⟩, ⟨5⟩⟩ ⟨⟨10⟩, ⟨13⟩⟩).1,
      (c.1.1 = Segment.elem ⟨⟨0⟩, ⟨5⟩⟩ c.2.1 ∧ 0 ≤ c.2.1 ∧ c.2.1 < Segment.len ⟨⟨0⟩, ⟨5⟩⟩) ∧
      (c.1.2 = Segment.elem ⟨⟨10⟩, ⟨13⟩⟩ c.2.2 ∧ 0 ≤ c.2.2 ∧
        c.2.2 < Segment.len ⟨⟨10⟩, ⟨13⟩⟩)) ∧
    LoopICountExecute.cuda_block_xyz_loop2.exec32 6 1 2 0 2 ⟨⟨0⟩, ⟨5⟩⟩ ⟨⟨10⟩, ⟨13⟩⟩ =
      ([((1, 10), (1, 0)), ((1, 12), (1, 2)), ((3, 10), (3, 0)), ((3, 12), (3, 2))], true) :=
  ⟨(C21_icount_element_index 1 2 0 2 0 1 ⟨⟨0⟩, ⟨5⟩⟩ ⟨⟨10⟩, ⟨13⟩⟩ ⟨⟨20⟩, ⟨22⟩⟩
      (by decide) (by decide) (by decide) (by decide) (by decide) (by decide) (by decide)
      (by decide) (by decide) (by decide) (by decide) (by decide)).2.2.2.2.2.2.1,
    by decide⟩

/-! ## Termination of the loop dispatch with 32-bit counters -/

theorem forLoop32_cycles :
    ∀ (fuel : Nat) (t : Int), t % 1024 = 0 → -2147483648 ≤ t → t < 2147483648 →
      (forLoop32 fuel t 2147483647 1024).2 = false := by
  intro fuel
  induction fuel with
  | zero =>
    intro t hm _ _
    have hlt : t < 2147483647 := by omega
    simp [forLoop32, hlt]
  | succ f ih =>
    intro t hm h0 h1
    have hlt : t < 2147483647 := by omega
    simp only [forLoop32, if_pos hlt]
    apply ih
    · unfold wrap32; omega
    · unfold wrap32; omega
    · unfold wrap32; omega

theorem stable32 {α β : Type} (X : Nat → Option α) (Y : Nat → β × Bool) (f : α → β)
    (fuel0 fuel : Nat) (hb : ∀ (fu : Nat) (L : α), X fu = some L → Y fu = (f L, true))
    (h : (X fuel0).isSome = true ∧ X fuel = X fuel0) :
    (Y fuel0).2 = true ∧ Y fuel = Y fuel0 := by
  obtain ⟨L, hL⟩ := Option.isSome_iff_exists.1 h.1
  rw [hb fuel0 L hL, hb fuel L (h.2.trans hL)]
  exact ⟨rfl, rfl⟩

/-- C23 as stated fails: on a segment of length `2 ^ 31 - 1` with resource count 1024,
coordinate 0 of the 1-D loop dispatch never ends: its 32-bit counter takes multiples of 1024
only, wraps from `2 ^ 31 - 1024` to `-2 ^ 31`, and is below `len` at every iteration. -/
theorem C23_counterexample :
    LoopExecute.cuda_block_xyz_loop.exec32 3 0 1024 ⟨⟨0⟩, ⟨2147483647⟩⟩ =
      ([0, 1024, 2048], false) ∧
    (1 : Nat) ≤ 1024 ∧
    ∀ fuel : Nat,
      (LoopExecute.cuda_block_xyz_loop.exec32 fuel 0 1024 ⟨⟨0⟩, ⟨2147483647⟩⟩).2 = false ∧
      (LoopExecute.cuda_thread_xyz_loop.exec32 fuel 0 1024 ⟨⟨0⟩, ⟨2147483647⟩⟩).2 = false := by
  refine ⟨by decide, by decide, ?_⟩
  intro fuel
  have hlen : wrap32 (Segment.len ⟨⟨0⟩, ⟨2147483647⟩⟩) = 2147483647 := by decide
  have hk : wrap32 ((0 : Nat) : Int) = 0 := by decide
  have h := forLoop32_cycles fuel 0 (by decide) (by decide) (by decide)
  constructor
  · simp only [LoopExecute.cuda_block_xyz_loop.exec32, hlen, hk]
    exact h
  · simp only [LoopExecute.cuda_thread_xyz_loop.exec32, hlen, hk]
    exact h

/-- C23 (amended): for coordinates below `2 ^ 31`, segments of length `-2 ^ 31 ≤ len`,
resource counts `n0, n1, n2 ≥ 1` with `len_i + n_i ≤ 2 ^ 31` on every policy axis, and a tile
size `T ≥ 1` with `k0 * T < 2 ^ 31` and `len0 + n0 * T ≤ 2 ^ 31`, there is an amount of fuel
from which on every loop-mode dispatch with 32-bit counters (1-D thread and block, 2-D and 3-D
block, plain and ICount, and the tile loops) ends with a finite list of body calls, the same
list whatever further fuel is given. -/
theorem C23_loop_dispatch_terminates (k0 n0 k1 n1 k2 n2 : Nat) (T : Int)
    (segment0 segment1 segment2 : Segment) (hn0 : 1 ≤ n0) (hn1 : 1 ≤ n1) (hn2 : 1 ≤ n2)
    (hT : 1 ≤ T)
    (hk0 : (k0 : Int) < 2147483648) (hl0 : -2147483648 ≤ segment0.len)
    (hs0 : segment0.len + (n0 : Int) ≤ 2147483648)
    (hk1 : (k1 : Int) < 2147483648) (hl1 : -2147483648 ≤ segment1.len)
    (hs1 : segment1.len + (n1 : Int) ≤ 2147483648)
    (hk2 : (k2 : Int) < 2147483648) (hl2 : -2147483648 ≤ segment2.len)
    (hs2 : segment2.len + (n2 : Int) ≤ 2147483648)
    (hkT : (k0 : Int) * T < 2147483648)
    (hsT : segment0.len + (n0 : Int) * T ≤ 2147483648) :
    ∃ fuel0 : Nat, ∀ fuel : Nat, fuel0 ≤ fuel →
      ((LoopExecute.cuda_thread_xyz_loop.exec32 fuel0 k0 n0 segment0).2 = true ∧
        LoopExecute.cuda_thread_xyz_loop.exec32 fuel k0 n0 segment0 =
          LoopExecute.cuda_thread_xyz_loop.exec32 fuel0 k0 n0 segment0) ∧
      ((LoopExecute.cuda_block_xyz_loop.exec32 fuel0 k0 n0 segment0).2 = true ∧
        LoopExecute.cuda_block_xyz_loop.exec32 fuel k0 n0 segment0 =
          LoopExecute.cuda_block_xyz_loop.exec32 fuel0 k0 n0 segment0) ∧
      ((LoopExecute.cuda_block_xyz_loop2.exec32 fuel0 k0 n0 k1 n1 segment0 segment1).2 = true ∧
        LoopExecute.cuda_block_xyz_loop2.exec32 fuel k0 n0 k1 n1 segment0 segment1 =
          LoopExecute.cuda_block_xyz_loop2.exec32 fuel0 k0 n0 k1 n1 segment0 segment1) ∧
      ((LoopExecute.cuda_block_xyz_loop3.exec32 fuel0 k0 n0 k1 n1 k2 n2 segment0 segment1 segment2).2 = true ∧
        LoopExecute.cuda_block_xyz_loop3.exec32 fuel k0 n0 k1 n1 k2 n2 segment0 segment1 segment2 =
          LoopExecute.cuda_block_xyz_loop3.exec32 fuel0 k0 n0 k1 n1 k2 n2 segment0 segment1 segment2) ∧
      ((LoopICountExecute.cuda_thread_xyz_loop.exec32 fuel0 k0 n0 segment0).2 = true ∧
        LoopICountExecute.cuda_thread_xyz_loop.exec32 fuel k0 n0 segment0 =
          LoopICountExecute.cuda_thread_xyz_loop.exec32 fuel0 k0 n0 segment0) ∧
      ((LoopICountExecute.cuda_block_xyz_loop.exec32 fuel0 k0 n0 segment0).2 = true ∧
        LoopICountExecute.cuda_block_xyz_loop.exec32 fuel k0 n0 segment0 =
          LoopICountExecute.cuda_block_xyz_loop.exec32 fuel0 k0 n0 segment0) ∧
      ((LoopICountExecute.cuda_block_xyz_loop2.exec32 fuel0 k0 n0 k1 n1 segment0 segment1).2 = true ∧
        LoopICountExecute.cuda_block_xyz_loop2.exec32 fuel k0 n0 k1 n1 segment0 segment1 =
          LoopICountExecute.cuda_block_xyz_loop2.exec32 fuel0 k0 n0 k1 n1 segment0 segment1) ∧
      ((LoopICountExecute.cuda_block_xyz_loop3.exec32 fuel0 k0 n0 k1 n1 k2 n2 segment0 segment1 segment2).2 = true ∧
        LoopICountExecute.cuda_block_xyz_loop3.exec32 fuel k0 n0 k1 n1 k2 n2 segment0 segment1 segment2 =
          LoopICountExecute.cuda_block_xyz_loop3.exec32 fuel0 k0 n0 k1 n1 k2 n2 segment0 segment1 segment2) ∧
      ((TileExecute.cuda_thread_xyz_loop.exec32 fuel0 k0 n0 T segment0).2 = true ∧
        TileExecute.cuda_thread_xyz_loop.exec32 fuel k0 n0 T segment0 =
          TileExecute.cuda_thread_xyz_loop.exec32 fuel0 k0 n0 T segment0) ∧
      ((TileExecute.cuda_block_xyz_loop.exec32 fuel0 k0 n0 T segment0).2 = true ∧
        TileExecute.cuda_block_xyz_loop.exec32 fuel k0 n0 T segment0 =
          TileExecute.cuda_block_xyz_loop.exec32 fuel0 k0 n0 T segment0) ∧
      ((TileICountExecute.cuda_thread_xyz_loop.exec32 fuel0 k0 n0 T segment0).2 = true ∧
        TileICountExecute.cuda_thread_xyz_loop.exec32 fuel k0 n0 T segment0 =
          TileICountExecute.cuda_thread_xyz_loop.exec32 fuel0 k0 n0 T segment0) ∧
      ((TileICountExecute.cuda_block_xyz_loop.exec32 fuel0 k0 n0 T segment0).2 = true ∧
        TileICountExecute.cuda_block_xyz_loop.exec32 fuel k0 n0 T segment0 =
          TileICountExecute.cuda_block_xyz_loop.exec32 fuel0 k0 n0 T segment0) := by
  have hu0 : segment0.len < 2147483648 := by omega
  have hu1 : segment1.len < 2147483648 := by omega
  have hu2 : segment2.len < 2147483648 := by omega
  obtain ⟨fuel0, hex⟩ := loop_dispatch_terminates_exact k0 n0 k1 n1 k2 n2 T
    segment0 segment1 segment2 hn0 hn1 hn2 hT
  refine ⟨fuel0, fun fuel hf => ?_⟩
  have h := hex fuel hf
  refine ⟨?_, ?_, ?_, ?_, ?_, ?_, ?_, ?_, ?_, ?_, ?_, ?_⟩
  · exact stable32 (fun fu => LoopExecute.cuda_thread_xyz_loop.exec fu k0 n0 segment0)
      (fun fu => LoopExecute.cuda_thread_xyz_loop.exec32 fu k0 n0 segment0) (fun L => L) fuel0 fuel
      (fun fu L hL => (loop_exec32_of_exec fu k0 n0 segment0 L hk0 hl0 hu0 hs0).1 hL) (h.1)
  · exact stable32 (fun fu => LoopExecute.cuda_block_xyz_loop.exec fu k0 n0 segment0)
      (fun fu => LoopExecute.cuda_block_xyz_loop.exec32 fu k0 n0 segment0) (fun L => L) fuel0 fuel
      (fun fu L hL => (loop_exec32_of_exec fu k0 n0 segment0 L hk0 hl0 hu0 hs0).2 hL) (h.2.1)
  · exact stable32 (fun fu => LoopExecute.cuda_block_xyz_loop2.exec fu k0 n0 k1 n1 segment0 segment1)
      (fun fu => LoopExecute.cuda_block_xyz_loop2.exec32 fu k0 n0 k1 n1 segment0 segment1) (fun L => L) fuel0 fuel
      (fun fu L hL => (loop2_exec32_of_exec fu k0 n0 k1 n1 segment0 segment1 hk0 hl0 hu0 hs0
        hk1 hl1 hu1 hs1).1 L hL) (h.2.2.1)
  · exact stable32 (fun fu => LoopExecute.cuda_block_xyz_loop3.exec fu k0 n0 k1 n1 k2 n2 segment0 segment1 segment2)
      (fun fu => LoopExecute.cuda_block_xyz_loop3.exec32 fu k0 n0 k1 n1 k2 n2 segment0 segment1 segment2) (fun L => L) fuel0 fuel
      (fun fu L hL => (loop3_exec32_of_exec fu k0 n0 k1 n1 k2 n2 segment0 segment1 segment2
        hk0 hl0 hu0 hs0 hk1 hl1 hu1 hs1 hk2 hl2 hu2 hs2).1 L hL) (h.2.2.2.1)
  · exact stable32 (fun fu => LoopICountExecute.cuda_thread_xyz_loop.exec fu k0 n0 segment0)
      (fun fu => LoopICountExecute.cuda_thread_xyz_loop.exec32 fu k0 n0 segment0) (fun L => L) fuel0 fuel
      (fun fu L hL => (icount_loop_exec32_of_exec fu k0 n0 segment0 L hk0 hl0 hu0 hs0).1 hL) (h.2.2.2.2.1)
  · exact stable32 (fun fu => LoopICountExecute.cuda_block_xyz_loop.exec fu k0 n0 segment0)
      (fun fu => LoopICountExecute.cuda_block_xyz_loop.exec32 fu k0 n0 segment0) (fun L => L) fuel0 fuel
      (fun fu L hL => (icount_loop_exec32_of_exec fu k0 n0 segment0 L hk0 hl0 hu0 hs0).2 hL) (h.2.2.2.2.2.1)
  · exact stable32 (fun fu => LoopICountExecute.cuda_block_xyz_loop2.exec fu k0 n0 k1 n1 segment0 segment1)
      (fun fu => LoopICountExecute.cuda_block_xyz_loop2.exec32 fu k0 n0 k1 n1 segment0 segment1) (fun L => L) fuel0 fuel
      (fun fu L hL => (loop2_exec32_of_exec fu k0 n0 k1 n1 segment0 segment1 hk0 hl0 hu0 hs0
        hk1 hl1 hu1 hs1).2 L hL) (h.2.2.2.2.2.2.1)
  · exact stable32 (fun fu => LoopICountExecute.cuda_block_xyz_loop3.exec fu k0 n0 k1 n1 k2 n2 segment0 segment1 segment2)
      (fun fu => LoopICountExecute.cuda_block_xyz_loop3.exec32 fu k0 n0 k1 n1 k2 n2 segment0 segment1 segment2) (fun L => L) fuel0 fuel
      (fun fu L hL => (loop3_exec32_of_exec fu k0 n0 k1 n1 k2 n2 segment0 segment1 segment2
        hk0 hl0 hu0 hs0 hk1 hl1 hu1 hs1 hk2 hl2 hu2 hs2).2 L hL) (h.2.2.2.2.2.2.2.1)
  · exact stable32 (fun fu => TileExecute.cuda_thread_xyz_loop.exec fu k0 n0 T segment0)
      (fun fu => TileExecute.cuda_thread_xyz_loop.exec32 fu k0 n0 T segment0) (fun L => L) fuel0 fuel
      (fun fu L hL => (tile_exec32_of_exec fu k0 n0 T segment0 L (by omega) hkT hl0 hu0 hsT).1 hL) (h.2.2.2.2.2.2.2.2.1)
  · exact stable32 (fun fu => TileExecute.cuda_block_xyz_loop.exec fu k0 n0 T segment0)
      (fun fu => TileExecute.cuda_block_xyz_loop.exec32 fu k0 n0 T segment0) (fun L => L) fuel0 fuel
      (fun fu L hL => (tile_exec32_of_exec fu k0 n0 T segment0 L (by omega) hkT hl0 hu0 hsT).2 hL) (h.2.2.2.2.2.2.2.2.2.1)
  · exact stable32 (fun fu => TileICountExecute.cuda_thread_xyz_loop.exec fu k0 n0 T segment0)
      (fun fu => TileICountExecute.cuda_thread_xyz_loop.exec32 fu k0 n0 T segment0) (fun L => L.map (fun e => (e.1, some e.2))) fuel0 fuel
      (fun fu L hL => (tile_icount_exec32_of_exec fu k0 n0 T segment0 L hT hkT hl0 hu0 hsT).1 hL) (h.2.2.2.2.2.2.2.2.2.2.1)
  · exact stable32 (fun fu => TileICountExecute.cuda_block_xyz_loop.exec fu k0 n0 T segment0)
      (fun fu => TileICountExecute.cuda_block_xyz_loop.exec32 fu k0 n0 T segment0) (fun L => L.map (fun e => (e.1, some e.2))) fuel0 fuel
      (fun fu L hL => (tile_icount_exec32_of_exec fu k0 n0 T segment0 L hT hkT hl0 hu0 hsT).2 hL) (h.2.2.2.2.2.2.2.2.2.2.2)

theorem C23_loop_dispatch_terminates_witness :
    ∃ fuel0 : Nat,
      (LoopExecute.cuda_block_xyz_loop.exec32 fuel0 1 2 ⟨⟨0⟩, ⟨5⟩⟩).2 = true ∧
      (TileExecute.cuda_block_xyz_loop.exec32 fuel0 1 2 4 ⟨⟨0⟩, ⟨5⟩⟩).2 = true :=
  (C23_loop_dispatch_terminates 1 2 0 2 0 1 4 ⟨⟨0⟩, ⟨5⟩⟩ ⟨⟨10⟩, ⟨13⟩⟩ ⟨⟨20⟩, ⟨22⟩⟩
    (by decide) (by decide) (by decide) (by decide) (by decide) (by decide) (by decide)
    (by decide) (by decide) (by decide) (by decide) (by decide) (by decide) (by decide)
    (by decide)).elim
    (fun fuel0 h => ⟨fuel0, (h fuel0 (le_refl fuel0)).2.1.1,
      (h fuel0 (le_refl fuel0)).2.2.2.2.2.2.2.2.2.1.1⟩)

/-! ## Enumerater over a strided iterator -/

/-- C35 fails on the code: for an `Enumerater` built from the strided iterator with offset 0
and stride 3, value 0 and offset 0, `e[1]` computes `wrapped + val + 1` through the strided
`operator+`, which drops the stride, and is the pair `(1, 1)`; after `++e` the dereferenced
pair is `(1, 3)`, not the previous `e[1]`. -/
theorem C35_enumerater_strided_index :
    (Enumerater.index strided_numeric_iterator.addOffset
      (Enumerater.ctor (⟨0, 3⟩ : strided_numeric_iterator) 0 0) 1).1 = 1 ∧
    (Enumerater.index strided_numeric_iterator.addOffset
      (Enumerater.ctor (⟨0, 3⟩ : strided_numeric_iterator) 0 0) 1).2.val = 1 ∧
    (Enumerater.deref strided_numeric_iterator.addOffset
      (Enumerater.inc (Enumerater.ctor (⟨0, 3⟩ : strided_numeric_iterator) 0 0))).1 = 1 ∧
    (Enumerater.deref strided_numeric_iterator.addOffset
      (Enumerater.inc (Enumerater.ctor (⟨0, 3⟩ : strided_numeric_iterator) 0 0))).2.val = 3 ∧
    Enumerater.deref numeric_iterator.addOffset
        (Enumerater.inc (Enumerater.ctor (⟨0⟩ : numeric_iterator) 0 0)) =
      Enumerater.index numeric_iterator.addOffset
        (Enumerater.ctor (⟨0⟩ : numeric_iterator) 0 0) 1 := by
  decide
